import Mathlib

/-!
# RAPTRS sensor-processing engine and serial framing: a shallow embedding

Source files embedded here:
* `software/src/soc/common/sensor-processing.cpp` (`SensorProcessing::Configure`,
  `Configured`, `Initialized`, `SetEngagedSensorProcessing`, `Run`);
* `software/src/soc/common/definition-tree2.h` (`Element`, `log_tag_t`, `def_tree_t`,
  the declarations of `DefinitionTree2`);
* `software/src/fmu/comms.cpp` (`AircraftSocComms::SendMessage`, `ReceiveMessage`,
  `CalcChecksum`, `CheckMessages`, `ReceiveModeCommand`).

Conventions.
* A C++ member function that mutates the object becomes a function from the state before
  the call to the state after it (plus what it returns).
* A C++ `throw` becomes an `Option String` next to the state reached when the exception
  leaves the function: C++ does not undo the writes made before a `throw`.
* Calls made on the processing blocks are recorded in a list (the call trace) returned
  next to the state, so that "which block was called, in which order, with which
  argument" can be stated.
* The processing block classes (`ConstantClass`, `GainClass`, ...) are not part of the
  embedded sources; their member functions are parameters, see `GenericFunction`.
* In comms.cpp a byte is a natural number reduced modulo 256 where the code stores it in a
  `uint8_t`; the serial bus is the list of the bytes waiting to be read, oldest first.
  The members `ParserState_` and `Length_` are declared in comms.h, which is not among the
  sources; they are natural numbers, and stay below `kUartBufferMaxSize` on every run from
  the reset state (see the theorem on the bounds of the parser).
-/

set_option maxRecDepth 20000

namespace RAPTRS

/-! ## Strings and `std::map` -/

/-- Lexicographic order on character sequences, the order `std::map<std::string, _>`
keeps its keys in (`std::less<std::string>`). -/
def keyLt : List Char → List Char → Bool
  | [], [] => false
  | [], _ :: _ => true
  | _ :: _, [] => false
  | a :: as, b :: bs =>
    if a.val < b.val then true
    else if b.val < a.val then false
    else keyLt as bs

/-- A `std::map<std::string, V>`: an association list; `mapAssign` keeps it in key order. -/
abbrev StdMap (V : Type) := List (String × V)

/-- Lookup in a `std::map` (`find`): the value stored under `k`, if any. -/
def mapFind {V : Type} : StdMap V → String → Option V
  | [], _ => none
  | (k1, v) :: rest, k => if k1 = k then some v else mapFind rest k

/-- The statement `m[k] = v` on a `std::map`: replaces the value of an existing key,
otherwise inserts the pair at its place in key order. -/
def mapAssign {V : Type} : StdMap V → String → V → StdMap V
  | [], k, v => [(k, v)]
  | (k1, v1) :: rest, k, v =>
    if k1 = k then (k, v) :: rest
    else if keyLt k.data k1.data then (k, v) :: (k1, v1) :: rest
    else (k1, v1) :: mapAssign rest k v

/-- The value read by `m[k]` on a map of vectors: the stored vector, or the empty vector
that `operator[]` default-constructs for an absent key. -/
def mapAt {V : Type} (m : StdMap (List V)) (k : String) : List V :=
  (mapFind m k).getD []

/-- The part of a character sequence from its last `/` on: `lastSegFrom cs acc` scans
`cs` and returns the suffix starting at the last `/` seen, `acc` if there is none. -/
def lastSegFrom : List Char → List Char → List Char
  | [], acc => acc
  | c :: cs, acc => if c = '/' then lastSegFrom cs (c :: cs) else lastSegFrom cs acc

/-- The expression `Key.substr(Key.rfind("/"))`: the final path segment with its leading
slash.  For a key without any `/` the C++ expression throws `std::out_of_range`; that
case is not modelled (the whole key is returned) and does not arise in `Configure`,
see `GetKeys_mem_slash`. -/
def substrRfind (Key : String) : String :=
  String.mk (lastSegFrom Key.data Key.data)

/-! ## definition-tree2.h -/

/-- The enumeration `log_tag_t`. -/
inductive log_tag_t where
  | LOG_NONE
  | LOG_BOOL | LOG_INT8 | LOG_UINT8
  | LOG_INT16 | LOG_UINT16
  | LOG_INT32 | LOG_UINT32
  | LOG_INT64 | LOG_UINT64 | LOG_LONG
  | LOG_FLOAT | LOG_DOUBLE
  deriving DecidableEq, Repr

/-- The tag of `Element` together with the active member of its union.  The payload of
`FLOAT` and `DOUBLE` is kept as the bit pattern of the stored number.  `OTHER` stands for a
tag outside the five enumerators, which the getters send to their `default:` branch: the
constructor `Element() {}` initialises neither the tag nor the union. -/
inductive ElementValue where
  | BOOL (b : Bool)
  | INT (i : Int)
  | LONG (l : Int)
  | FLOAT (bits : Nat)
  | DOUBLE (bits : Nat)
  | OTHER (tag : Nat)
  deriving DecidableEq, Repr

/-- The class `Element`. -/
structure Element where
  value : ElementValue
  description : String
  datalog : log_tag_t
  telemetry : log_tag_t
  deriving DecidableEq, Repr

/-- The constructor `Element() {}` (line 48): `description` is the empty string, `datalog`
and `telemetry` have their initialisers `LOG_NONE`; the tag and the union are left as the
storage holds them, here the argument `v`. -/
def Element.new (v : ElementValue) : Element :=
  { value := v, description := "",
    datalog := log_tag_t.LOG_NONE, telemetry := log_tag_t.LOG_NONE }

/-- The member function `setBool` (line 51). -/
def Element.setBool (val : Bool) (e : Element) : Element :=
  { e with value := ElementValue.BOOL val }

/-- The member function `setInt` (line 52); `val` is an `int`. -/
def Element.setInt (val : Int) (e : Element) : Element :=
  { e with value := ElementValue.INT val }

/-- The member function `setLong` (line 53); `val` is a `long`. -/
def Element.setLong (val : Int) (e : Element) : Element :=
  { e with value := ElementValue.LONG val }

/-- The member function `setFloat` (line 54); `val` is the bit pattern of a `float`. -/
def Element.setFloat (val : Nat) (e : Element) : Element :=
  { e with value := ElementValue.FLOAT val }

/-- The member function `setDouble` (line 55); `val` is the bit pattern of a `double`. -/
def Element.setDouble (val : Nat) (e : Element) : Element :=
  { e with value := ElementValue.DOUBLE val }

/-- The implicit conversions of C++ that involve a floating-point number, which the getters
apply in their `return` statements.  Floating-point arithmetic is not modelled: the
conversions are parameters, on bit patterns. -/
structure Conversions where
  floatToBool : Nat → Bool
  doubleToBool : Nat → Bool
  floatToInt : Nat → Int
  doubleToInt : Nat → Int
  floatToLong : Nat → Int
  doubleToLong : Nat → Int
  boolToFloat : Bool → Nat
  intToFloat : Int → Nat
  longToFloat : Int → Nat
  doubleToFloat : Nat → Nat
  boolToDouble : Bool → Nat
  intToDouble : Int → Nat
  longToDouble : Int → Nat
  floatToDouble : Nat → Nat

/-- The conversion of a `long` to an `int` in `return l;`: the value modulo `2^32`, in
two's complement (the identity on the values of an `int`). -/
def longToInt (l : Int) : Int :=
  (l + 2147483648) % 4294967296 - 2147483648

/-- The member function `getBool` (lines 57-66). -/
def Element.getBool (cv : Conversions) (e : Element) : Bool :=
  match e.value with
  | ElementValue.BOOL b => b
  | ElementValue.INT i => decide (i ≠ 0)
  | ElementValue.LONG l => decide (l ≠ 0)
  | ElementValue.FLOAT f => cv.floatToBool f
  | ElementValue.DOUBLE d => cv.doubleToBool d
  | ElementValue.OTHER _ => false

/-- The member function `getInt` (lines 67-76). -/
def Element.getInt (cv : Conversions) (e : Element) : Int :=
  match e.value with
  | ElementValue.BOOL b => if b then 1 else 0
  | ElementValue.INT i => i
  | ElementValue.LONG l => longToInt l
  | ElementValue.FLOAT f => cv.floatToInt f
  | ElementValue.DOUBLE d => cv.doubleToInt d
  | ElementValue.OTHER _ => 0

/-- The member function `getLong` (lines 77-86). -/
def Element.getLong (cv : Conversions) (e : Element) : Int :=
  match e.value with
  | ElementValue.BOOL b => if b then 1 else 0
  | ElementValue.INT i => i
  | ElementValue.LONG l => l
  | ElementValue.FLOAT f => cv.floatToLong f
  | ElementValue.DOUBLE d => cv.doubleToLong d
  | ElementValue.OTHER _ => 0

/-- The member function `getFloat` (lines 87-96); the result is the bit pattern of the
`float` returned, for which `zeroBits` is that of `0.0`. -/
def Element.getFloat (cv : Conversions) (zeroBits : Nat) (e : Element) : Nat :=
  match e.value with
  | ElementValue.BOOL b => cv.boolToFloat b
  | ElementValue.INT i => cv.intToFloat i
  | ElementValue.LONG l => cv.longToFloat l
  | ElementValue.FLOAT f => f
  | ElementValue.DOUBLE d => cv.doubleToFloat d
  | ElementValue.OTHER _ => zeroBits

/-- The member function `getDouble` (lines 97-106); the result is the bit pattern of the
`double` returned, for which `zeroBits` is that of `0.0`. -/
def Element.getDouble (cv : Conversions) (zeroBits : Nat) (e : Element) : Nat :=
  match e.value with
  | ElementValue.BOOL b => cv.boolToDouble b
  | ElementValue.INT i => cv.intToDouble i
  | ElementValue.LONG l => cv.longToDouble l
  | ElementValue.FLOAT f => cv.floatToDouble f
  | ElementValue.DOUBLE d => d
  | ElementValue.OTHER _ => zeroBits

/-- The member function `getLoggingType` (lines 108-110). -/
def Element.getLoggingType (e : Element) : log_tag_t :=
  e.datalog

/-- The member function `getTelemetryType` (lines 112-114). -/
def Element.getTelemetryType (e : Element) : log_tag_t :=
  e.telemetry

/-- Modelled from the spec: the cell that `getElement` creates for an absent path
(the body of `getElement` is not among the sources): "a fresh default cell (tag integer,
value 0)"; `datalog` and `telemetry` have the initialisers `LOG_NONE` of the class. -/
def Element.fresh : Element :=
  { value := ElementValue.INT 0, description := "",
    datalog := log_tag_t.LOG_NONE, telemetry := log_tag_t.LOG_NONE }

/-- The class `DefinitionTree2`: `data` is `def_tree_t`, a `std::map` from path to
`Element *`.  A pointer is the index of the object in `heap`, the list of the `Element`
objects allocated so far. -/
structure DefinitionTree2 where
  data : StdMap Nat
  heap : List Element
  deriving DecidableEq, Repr

/-- The tree before anything is registered. -/
def DefinitionTree2.empty : DefinitionTree2 := { data := [], heap := [] }

/-- Modelled from the spec: `DefinitionTree2::getElement` (only declared in
definition-tree2.h): "if present, returns the cell; if absent and `createIfMissing`,
inserts and returns a fresh default cell (tag integer, value 0); if absent and not
creating, signals not found" (here: the null pointer `none`). -/
def getElement (dt : DefinitionTree2) (name : String) (create : Bool) :
    Option Nat × DefinitionTree2 :=
  match mapFind dt.data name with
  | some p => (some p, dt)
  | none =>
    if create then
      (some dt.heap.length,
        { data := mapAssign dt.data name dt.heap.length, heap := dt.heap ++ [Element.fresh] })
    else (none, dt)

/-- Modelled from the spec: `DefinitionTree2::initElement` (only declared in
definition-tree2.h): "creates the cell on first call; on any later call with the same path,
returns the original cell unchanged".  The cell created carries the description and the two
tags passed; its value is that of a default cell. -/
def initElement (dt : DefinitionTree2) (name desc : String) (datalog telemetry : log_tag_t) :
    Option Nat × DefinitionTree2 :=
  match mapFind dt.data name with
  | some p => (some p, dt)
  | none =>
    (some dt.heap.length,
      { data := mapAssign dt.data name dt.heap.length,
        heap := dt.heap ++ [{ value := ElementValue.INT 0, description := desc,
                              datalog := datalog, telemetry := telemetry }] })

/-- Modelled from the spec: `DefinitionTree2::makeAlias` (only declared in
definition-tree2.h): "requires `sourcePath` to already map to a cell; rebinds `aliasPath`
to that same cell. If `aliasPath` previously pointed to a different cell, that mapping is
silently replaced".  Without a cell at `orig_name` nothing is bound and the null pointer
is returned. -/
def makeAlias (dt : DefinitionTree2) (orig_name alias_name : String) :
    Option Nat × DefinitionTree2 :=
  match mapFind dt.data orig_name with
  | some p => (some p, { dt with data := mapAssign dt.data alias_name p })
  | none => (none, dt)

/-- Modelled from the spec: `DefinitionTree2::GetKeys` (only declared in
definition-tree2.h): "returns every registered path starting with `prefix + "/"`", by
string comparison.  The paths are enumerated in the iteration order of `data`, which
definition-tree2.h declares as a `std::map`. -/
def GetKeys (dt : DefinitionTree2) (Name : String) : List String :=
  (dt.data.map Prod.fst).filter (fun k => (Name ++ "/").data.isPrefixOf k.data)

/-- The `Element` a pointer refers to: the object at index `p` of the heap. -/
def cellAt (dt : DefinitionTree2) (p : Nat) : Option Element :=
  dt.heap.get? p

/-- The heap after the object at index `p` has been changed by `f`. -/
def heapUpdate (f : Element → Element) : Nat → List Element → List Element
  | _, [] => []
  | 0, e :: rest => f e :: rest
  | p + 1, e :: rest => e :: heapUpdate f p rest

/-- A call `ptr->setX(v)` on the pointer `p`: the object is changed in place, the paths
bound to it are not. -/
def writeCell (dt : DefinitionTree2) (p : Nat) (f : Element → Element) : DefinitionTree2 :=
  { dt with heap := heapUpdate f p dt.heap }

/-- The client statement `deftree.getElement(path)->setX(v)`: the cell is looked up at
`path` and written through the pointer returned; `f` is the setter with its argument. -/
def setThrough (dt : DefinitionTree2) (path : String) (f : Element → Element) :
    DefinitionTree2 :=
  match (getElement dt path true).1 with
  | some p => writeCell (getElement dt path true).2 p f
  | none => (getElement dt path true).2

/-- The client expression `deftree.getElement(path)->getX()`: the cell is looked up at
`path` and read through the pointer returned; `g` is the getter. -/
def getThrough {T : Type} (dt : DefinitionTree2) (path : String) (g : Element → T) :
    Option T :=
  match (getElement dt path true).1 with
  | some p => (cellAt (getElement dt path true).2 p).map g
  | none => none

/-- Modelled from the spec: `DefinitionTree2::Erase` (only declared in
definition-tree2.h): a cell is "never reallocated, only optionally erased".  The path is
removed from `data`; the other paths keep their cells. -/
def Erase (dt : DefinitionTree2) (name : String) : DefinitionTree2 :=
  { dt with data := dt.data.filter (fun e => decide (e.1 ≠ name)) }

/-- The operations of `DefinitionTree2` that register or remove paths, and the writes to
cells, as data. -/
inductive BusOp where
  | initElement (name desc : String) (datalog telemetry : log_tag_t)
  | getElement (name : String) (create : Bool)
  | makeAlias (orig_name alias_name : String)
  | Erase (name : String)
  | write (p : Nat) (f : Element → Element)

/-- The tree after one operation. -/
def busStep (dt : DefinitionTree2) : BusOp → DefinitionTree2
  | BusOp.initElement name desc datalog telemetry =>
    (initElement dt name desc datalog telemetry).2
  | BusOp.getElement name create => (getElement dt name create).2
  | BusOp.makeAlias orig_name alias_name => (makeAlias dt orig_name alias_name).2
  | BusOp.Erase name => Erase dt name
  | BusOp.write p f => writeCell dt p f

/-- The tree after a sequence of operations, made from left to right. -/
def busRun (dt : DefinitionTree2) (l : List BusOp) : DefinitionTree2 :=
  l.foldl busStep dt

/-! ## The configuration document -/

/-- One block-config, a JSON object inside `Baseline` or inside the `Components` of a
research group.  `TypeMember` is the member `"Type"` (`none` when `HasMember("Type")`
is false); a `Type` that is not a JSON string compares unequal to every identifier, as
a string outside the list does.  `members` holds the remaining members, read by the
block's own `Configure` only. -/
structure FuncConfig where
  TypeMember : Option String
  members : List (String × String)
  deriving DecidableEq, Repr

/-- One entry of the `Research` array: the members `"Group-Name"` and `"Components"`,
each `none` when absent. -/
structure GroupConfig where
  GroupName : Option String
  Components : Option (List FuncConfig)
  deriving DecidableEq, Repr

/-- The JSON value passed to `SensorProcessing::Configure`: the members `"Baseline"` and
`"Research"`, each `none` when absent.  The document has the shape the accessors used by
`Configure` are defined on: `Baseline`, `Research` and `Components` are arrays (`GetArray`)
and `Group-Name` is a string (`GetString`) when present. -/
structure Config where
  Baseline : Option (List FuncConfig)
  Research : Option (List GroupConfig)
  deriving DecidableEq, Repr

/-! ## Processing blocks -/

/-- The classes constructed by `Configure`. -/
inductive BlockKind where
  | ConstantClass | GainClass | SumClass | IndicatedAirspeed | AglAltitude
  | PitotStatic | FiveHole | Ekf15StateIns | GeneralFilter | If | MinCellVolt
  deriving DecidableEq, Repr

/-- The argument of `GenericFunction::Run`. -/
inductive Mode where
  | kArm
  | kEngage
  deriving DecidableEq, Repr

/-- The interface `GenericFunction` of the processing blocks, whose classes are not among
the sources: the member functions are parameters.  `B` is the private state of a block
object; every member function may read and write the global `deftree`.
* `make k` is the object built by `std::make_shared<k>()`;
* `Configure` returns the message of the exception it throws, if it throws;
* `Initialized` is the readiness report of the block. -/
structure GenericFunction (B : Type) where
  make : BlockKind → B
  Configure : B → FuncConfig → String → DefinitionTree2 → B × DefinitionTree2 × Option String
  Initialize : B → DefinitionTree2 → B × DefinitionTree2
  Initialized : B → DefinitionTree2 → Bool
  Run : B → Mode → DefinitionTree2 → B × DefinitionTree2

/-- An element of a vector of `std::shared_ptr<GenericFunction>`: the object pointed to,
with its dynamic class. -/
structure Block (B : Type) where
  kind : BlockKind
  obj : B
  deriving DecidableEq, Repr

/-- The container that holds a block: the vector `BaselineSensorProcessing_`, or the
vector stored under a group name in `ResearchSensorProcessingGroups_`. -/
inductive Owner where
  | Baseline
  | Research (Group : String)
  deriving DecidableEq, Repr

/-- One call `Func->Run(mode)`: the block is named by its container and its index in it. -/
structure RunCall where
  owner : Owner
  index : Nat
  mode : Mode
  deriving DecidableEq, Repr

/-- One pass of the body of an initialisation loop: the call `Func->Initialize()` on the
block named by `owner` and `index`, and the value `ready` that `Func->Initialized()`
returned right after it. -/
structure InitCall where
  owner : Owner
  index : Nat
  ready : Bool
  deriving DecidableEq, Repr

/-! ## The class `SensorProcessing` -/

/-- The data members of `SensorProcessing` used by sensor-processing.cpp, with the global
`deftree` the member functions work on. -/
structure SensorProcessing (B : Type) where
  RootPath_ : String
  Configured_ : Bool
  InitializedLatch_ : Bool
  EngagedGroup_ : String
  BaselineSensorProcessing_ : List (Block B)
  ResearchGroupKeys_ : List String
  ResearchSensorProcessingGroups_ : StdMap (List (Block B))
  BaselineDataKeys_ : List String
  ResearchDataKeys_ : StdMap (List String)
  BaselineDataPtr_ : StdMap (Option Nat)
  ResearchDataPtr_ : StdMap (StdMap (Option Nat))
  OutputData_ : StdMap (Option Nat)
  deftree : DefinitionTree2

/-- Modelled from the spec: the initial values of the data members, declared in
sensor-processing.h (not among the sources): the root path is `/Sensor-Processing`, the
engaged group is "Baseline" by default, both flags are unset and every container is
empty.  The engine starts on the tree `dt`. -/
def SensorProcessing.fresh (B : Type) (dt : DefinitionTree2) : SensorProcessing B :=
  { RootPath_ := "/Sensor-Processing",
    Configured_ := false,
    InitializedLatch_ := false,
    EngagedGroup_ := "Baseline",
    BaselineSensorProcessing_ := [],
    ResearchGroupKeys_ := [],
    ResearchSensorProcessingGroups_ := [],
    BaselineDataKeys_ := [],
    ResearchDataKeys_ := [],
    BaselineDataPtr_ := [],
    ResearchDataPtr_ := [],
    OutputData_ := [],
    deftree := dt }

/-! ## `SensorProcessing::Configure` -/

/-- The chain `if (Func["Type"] == "Constant") ... else if ...` of the Baseline loop
(lines 34-58): the class constructed for a `Type`, `none` where the chain ends in the
`throw` of "Type specified is not a defined type". -/
def baselineKind (t : String) : Option BlockKind :=
  if t = "Constant" then some BlockKind.ConstantClass
  else if t = "Gain" then some BlockKind.GainClass
  else if t = "Sum" then some BlockKind.SumClass
  else if t = "IAS" then some BlockKind.IndicatedAirspeed
  else if t = "AGL" then some BlockKind.AglAltitude
  else if t = "PitotStatic" then some BlockKind.PitotStatic
  else if t = "FiveHole" then some BlockKind.FiveHole
  else if t = "EKF15StateINS" then some BlockKind.Ekf15StateIns
  else if t = "Filter" then some BlockKind.GeneralFilter
  else if t = "If" then some BlockKind.If
  else if t = "MinCellVolt" then some BlockKind.MinCellVolt
  else none

/-- The chain `if (Func["Type"] == "Constant") ... else if ...` of the Research loop
(lines 92-116). -/
def researchKind (t : String) : Option BlockKind :=
  if t = "Constant" then some BlockKind.ConstantClass
  else if t = "Gain" then some BlockKind.GainClass
  else if t = "Sum" then some BlockKind.SumClass
  else if t = "IAS" then some BlockKind.IndicatedAirspeed
  else if t = "AGL" then some BlockKind.AglAltitude
  else if t = "PitotStatic" then some BlockKind.PitotStatic
  else if t = "FiveHole" then some BlockKind.FiveHole
  else if t = "EKF15StateINS" then some BlockKind.Ekf15StateIns
  else if t = "Filter" then some BlockKind.GeneralFilter
  else if t = "If" then some BlockKind.If
  else if t = "MinCellVolt" then some BlockKind.MinCellVolt
  else none

/-- What a call of `Configure` (or of one of its loops) leaves: the state of the engine
when control leaves it, and the message of the `std::runtime_error` thrown, if any. -/
structure ConfigureResult (B : Type) where
  state : SensorProcessing B
  error : Option String

/-- The loop over `BaselineConfig.GetArray()` (lines 32-66).  A block is appended to
`BaselineSensorProcessing_` and then configured under `PathName`; an exception thrown by
the block's `Configure` leaves the loop with the block already appended. -/
def configureBaselineLoop {B : Type} (ops : GenericFunction B) (PathName : String) :
    List FuncConfig → SensorProcessing B → ConfigureResult B
  | [], s => ⟨s, none⟩
  | Func :: rest, s =>
    match Func.TypeMember with
    | some t =>
      match baselineKind t with
      | some k =>
        let r := ops.Configure (ops.make k) Func PathName s.deftree
        let s1 := { s with
          BaselineSensorProcessing_ := s.BaselineSensorProcessing_ ++ [⟨k, r.1⟩],
          deftree := r.2.1 }
        match r.2.2 with
        | some e => ⟨s1, some e⟩
        | none => configureBaselineLoop ops PathName rest s1
      | none =>
        ⟨s, some ("ERROR" ++ PathName ++ ": Type specified is not a defined type")⟩
    | none => ⟨s, some ("ERROR" ++ PathName ++ ": Type not specified in configuration.")⟩

/-- The loops over the harvested keys (lines 71-76 and 129-134): every key whose final
segment is not `/Mode` enters `OutputKeysMap` as `RootPath_` + final segment. -/
def harvestOutputKeys (RootPath_ : String) : List String → StdMap String → StdMap String
  | [], OutputKeysMap => OutputKeysMap
  | Key :: rest, OutputKeysMap =>
    let MemberName := RootPath_ ++ substrRfind Key
    if substrRfind Key ≠ "/Mode" then
      harvestOutputKeys RootPath_ rest (mapAssign OutputKeysMap MemberName MemberName)
    else harvestOutputKeys RootPath_ rest OutputKeysMap

/-- The loop over `Group["Components"].GetArray()` (lines 90-124); `GroupKey` is
`ResearchGroupKeys_.back()`, the name pushed just before the loop. -/
def configureComponentsLoop {B : Type} (ops : GenericFunction B) (PathName GroupKey : String) :
    List FuncConfig → SensorProcessing B → ConfigureResult B
  | [], s => ⟨s, none⟩
  | Func :: rest, s =>
    match Func.TypeMember with
    | some t =>
      match researchKind t with
      | some k =>
        let r := ops.Configure (ops.make k) Func PathName s.deftree
        let s1 := { s with
          ResearchSensorProcessingGroups_ :=
            mapAssign s.ResearchSensorProcessingGroups_ GroupKey
              (mapAt s.ResearchSensorProcessingGroups_ GroupKey ++ [⟨k, r.1⟩]),
          deftree := r.2.1 }
        match r.2.2 with
        | some e => ⟨s1, some e⟩
        | none => configureComponentsLoop ops PathName GroupKey rest s1
      | none =>
        ⟨s, some ("ERROR" ++ PathName ++ ": Type specified is not a defined type")⟩
    | none => ⟨s, some ("ERROR" ++ PathName ++ ": Type not specified in configuration.")⟩

/-- What a part of `Configure` leaves: as `ConfigureResult`, with the local variable
`OutputKeysMap`. -/
structure ResearchResult (B : Type) where
  state : SensorProcessing B
  OutputKeysMap : StdMap String
  error : Option String

/-- The loop over `ResearchConfig.GetArray()` (lines 84-138). -/
def configureResearchLoop {B : Type} (ops : GenericFunction B) :
    List GroupConfig → SensorProcessing B → StdMap String → ResearchResult B
  | [], s, OutputKeysMap => ⟨s, OutputKeysMap, none⟩
  | Group :: rest, s, OutputKeysMap =>
    match Group.GroupName, Group.Components with
    | some name, some comps =>
      let s1 := { s with ResearchGroupKeys_ := s.ResearchGroupKeys_ ++ [name] }
      let PathName := s.RootPath_ ++ "/" ++ name
      let r := configureComponentsLoop ops PathName name comps s1
      match r.error with
      | some e => ⟨r.state, OutputKeysMap, some e⟩
      | none =>
        let keys := GetKeys r.state.deftree PathName
        let s2 := { r.state with
          ResearchDataKeys_ := mapAssign r.state.ResearchDataKeys_ name keys }
        configureResearchLoop ops rest s2 (harvestOutputKeys s.RootPath_ keys OutputKeysMap)
    | _, _ =>
      ⟨s, OutputKeysMap,
        some ("ERROR" ++ s.RootPath_ ++
          ": Group name or components not specified in configuration.")⟩

/-- The loop over `BaselineDataKeys_` inside the alias resolution (lines 146-158). -/
def aliasBaselineKeys {B : Type} (OutputKey : String) :
    List String → SensorProcessing B → SensorProcessing B
  | [], s => s
  | BaselineKey :: rest, s =>
    if substrRfind BaselineKey = substrRfind OutputKey then
      let KeyName := substrRfind BaselineKey
      let ele := getElement s.deftree BaselineKey true
      let s1 := { s with
        BaselineDataPtr_ := mapAssign s.BaselineDataPtr_ KeyName ele.1,
        deftree := ele.2 }
      match ele.1 with
      | some _ =>
        aliasBaselineKeys OutputKey rest { s1 with
          OutputData_ := mapAssign s1.OutputData_ KeyName ele.1,
          deftree := (makeAlias s1.deftree BaselineKey OutputKey).2 }
      | none => aliasBaselineKeys OutputKey rest s1
    else aliasBaselineKeys OutputKey rest s

/-- The loop over `ResearchDataKeys_[GroupKey]` inside the alias resolution
(lines 161-173). -/
def aliasResearchKeys {B : Type} (OutputKey GroupKey : String) :
    List String → SensorProcessing B → SensorProcessing B
  | [], s => s
  | ResearchKey :: rest, s =>
    if substrRfind ResearchKey = substrRfind OutputKey then
      let KeyName := substrRfind ResearchKey
      let ele := getElement s.deftree ResearchKey true
      let s1 := { s with
        ResearchDataPtr_ := mapAssign s.ResearchDataPtr_ GroupKey
          (mapAssign (mapAt s.ResearchDataPtr_ GroupKey) KeyName ele.1),
        deftree := ele.2 }
      match ele.1 with
      | some _ =>
        aliasResearchKeys OutputKey GroupKey rest { s1 with
          OutputData_ := mapAssign s1.OutputData_ KeyName ele.1,
          deftree := (makeAlias s1.deftree ResearchKey OutputKey).2 }
      | none => aliasResearchKeys OutputKey GroupKey rest s1
    else aliasResearchKeys OutputKey GroupKey rest s

/-- The loop over `ResearchGroupKeys_` inside the alias resolution (lines 160-174).  The
vector read by `ResearchDataKeys_[GroupKey]` is the stored one, or the empty vector that
`operator[]` creates for an absent key. -/
def aliasResearchGroups {B : Type} (OutputKey : String) :
    List String → SensorProcessing B → SensorProcessing B
  | [], s => s
  | GroupKey :: rest, s =>
    aliasResearchGroups OutputKey rest
      (aliasResearchKeys OutputKey GroupKey (mapAt s.ResearchDataKeys_ GroupKey) s)

/-- The loop over `OutputKeysMap` (lines 142-175); the argument lists the mapped values
`OutputElem.second` in the iteration order of the map. -/
def resolveAliases {B : Type} : List String → SensorProcessing B → SensorProcessing B
  | [], s => s
  | OutputKey :: rest, s =>
    resolveAliases rest
      (aliasResearchGroups OutputKey s.ResearchGroupKeys_
        (aliasBaselineKeys OutputKey s.BaselineDataKeys_ s))

/-- The first part of `Configure`, "configuring baseline sensor processing"
(lines 27-79): the Baseline loop, then the harvest of the Baseline keys into the local
variable `OutputKeysMap`, which starts empty. -/
def configureBaseline {B : Type} (ops : GenericFunction B) (Config : Config)
    (s : SensorProcessing B) : ResearchResult B :=
  match Config.Baseline with
  | some BaselineConfig =>
    let PathName := s.RootPath_ ++ "/" ++ "Baseline"
    let r := configureBaselineLoop ops PathName BaselineConfig s
    match r.error with
    | some e => ⟨r.state, [], some e⟩
    | none =>
      let keys := GetKeys r.state.deftree PathName
      ⟨{ r.state with BaselineDataKeys_ := keys }, harvestOutputKeys s.RootPath_ keys [], none⟩
  | none =>
    ⟨s, [], some ("ERROR" ++ s.RootPath_ ++ ": Baseline not specified in configuration.")⟩

/-- The second part of `Configure`, "configuring research sensor processing groups"
(lines 82-139). -/
def configureResearch {B : Type} (ops : GenericFunction B) (Config : Config)
    (s : SensorProcessing B) (OutputKeysMap : StdMap String) : ResearchResult B :=
  match Config.Research with
  | some ResearchConfig => configureResearchLoop ops ResearchConfig s OutputKeysMap
  | none => ⟨s, OutputKeysMap, none⟩

/-- The member function `SensorProcessing::Configure` (lines 24-177): the Baseline part,
the Research part, the alias resolution, and `Configured_ = true`; an exception thrown in
a part ends the call there. -/
def Configure {B : Type} (ops : GenericFunction B) (Config : Config)
    (s : SensorProcessing B) : ConfigureResult B :=
  let r := configureBaseline ops Config s
  match r.error with
  | some e => ⟨r.state, some e⟩
  | none =>
    let q := configureResearch ops Config r.state r.OutputKeysMap
    match q.error with
    | some e => ⟨q.state, some e⟩
    | none =>
      ⟨{ resolveAliases (q.OutputKeysMap.map Prod.snd) q.state with Configured_ := true },
        none⟩

/-- The member function `SensorProcessing::Configured` (lines 180-182). -/
def Configured {B : Type} (s : SensorProcessing B) : Bool :=
  s.Configured_

/-! ## `SensorProcessing::Initialized` -/

/-- What an initialisation loop leaves: the blocks of the vector after the calls, the
tree, the local variable `initialized`, and the calls made. -/
structure InitPass (B : Type) where
  blocks : List (Block B)
  deftree : DefinitionTree2
  initialized : Bool
  trace : List InitCall

/-- A loop `for (auto Func : vec) { Func->Initialize(); if (!Func->Initialized())
initialized = false; }` (lines 191-196 and 199-204) over the vector held by `owner`,
whose first element has index `i`. -/
def initVector {B : Type} (ops : GenericFunction B) (owner : Owner) :
    Nat → List (Block B) → DefinitionTree2 → Bool → InitPass B
  | _, [], dt, initialized => ⟨[], dt, initialized, []⟩
  | i, Func :: rest, dt, initialized =>
    let r := ops.Initialize Func.obj dt
    let ready := ops.Initialized r.1 r.2
    let t := initVector ops owner (i + 1) rest r.2 (if !ready then false else initialized)
    ⟨{ Func with obj := r.1 } :: t.blocks, t.deftree, t.initialized,
      ⟨owner, i, ready⟩ :: t.trace⟩

/-- What a loop over `ResearchGroupKeys_` leaves in `Initialized`. -/
structure InitGroupsPass (B : Type) where
  groups : StdMap (List (Block B))
  deftree : DefinitionTree2
  initialized : Bool
  trace : List InitCall

/-- The loop over `ResearchGroupKeys_` in `Initialized` (lines 198-205).  The vector
`ResearchSensorProcessingGroups_[Group]` is read with `operator[]`; its blocks are
objects shared with the map, so the map holds them as the calls leave them. -/
def initGroups {B : Type} (ops : GenericFunction B) :
    List String → StdMap (List (Block B)) → DefinitionTree2 → Bool → InitGroupsPass B
  | [], m, dt, initialized => ⟨m, dt, initialized, []⟩
  | Group :: rest, m, dt, initialized =>
    let p := initVector ops (Owner.Research Group) 0 (mapAt m Group) dt initialized
    let q := initGroups ops rest (mapAssign m Group p.blocks) p.deftree p.initialized
    ⟨q.groups, q.deftree, q.initialized, p.trace ++ q.trace⟩

/-- What a call of `Initialized` leaves: the value returned, the state, the calls made. -/
structure InitResult (B : Type) where
  ret : Bool
  state : SensorProcessing B
  trace : List InitCall

/-- The member function `SensorProcessing::Initialized` (lines 185-211). -/
def Initialized {B : Type} (ops : GenericFunction B) (s : SensorProcessing B) :
    InitResult B :=
  if s.InitializedLatch_ then ⟨true, s, []⟩
  else
    let p := initVector ops Owner.Baseline 0 s.BaselineSensorProcessing_ s.deftree true
    let q := initGroups ops s.ResearchGroupKeys_ s.ResearchSensorProcessingGroups_
      p.deftree p.initialized
    let s1 := { s with
      BaselineSensorProcessing_ := p.blocks,
      ResearchSensorProcessingGroups_ := q.groups,
      deftree := q.deftree }
    if q.initialized then
      ⟨q.initialized, { s1 with InitializedLatch_ := true }, p.trace ++ q.trace⟩
    else ⟨q.initialized, s1, p.trace ++ q.trace⟩

/-! ## `SetEngagedSensorProcessing` and `Run` -/

/-- The member function `SensorProcessing::SetEngagedSensorProcessing` (lines 214-216). -/
def SetEngagedSensorProcessing {B : Type} (EngagedSensorProcessing : String)
    (s : SensorProcessing B) : SensorProcessing B :=
  { s with EngagedGroup_ := EngagedSensorProcessing }

/-- What a loop over a vector of blocks leaves in `Run`. -/
structure RunPass (B : Type) where
  blocks : List (Block B)
  deftree : DefinitionTree2
  trace : List RunCall

/-- A loop `for (auto Func : vec) { Func->Run(mode); }` (lines 222-224, 227-229 and
233-235) over the vector held by `owner`, whose first element has index `i`. -/
def runVector {B : Type} (ops : GenericFunction B) (owner : Owner) (mode : Mode) :
    Nat → List (Block B) → DefinitionTree2 → RunPass B
  | _, [], dt => ⟨[], dt, []⟩
  | i, Func :: rest, dt =>
    let r := ops.Run Func.obj mode dt
    let t := runVector ops owner mode (i + 1) rest r.2
    ⟨{ Func with obj := r.1 } :: t.blocks, t.deftree, ⟨owner, i, mode⟩ :: t.trace⟩

/-- The inner loop of the `else` branch of `Run` (lines 238-244): each pass tests
`Group == EngagedGroup_` and calls `Run(kEngage)` or `Run(kArm)`. -/
def runVectorEngaged {B : Type} (ops : GenericFunction B) (Group EngagedGroup_ : String) :
    Nat → List (Block B) → DefinitionTree2 → RunPass B
  | _, [], dt => ⟨[], dt, []⟩
  | i, Func :: rest, dt =>
    if Group = EngagedGroup_ then
      let r := ops.Run Func.obj Mode.kEngage dt
      let t := runVectorEngaged ops Group EngagedGroup_ (i + 1) rest r.2
      ⟨{ Func with obj := r.1 } :: t.blocks, t.deftree,
        ⟨Owner.Research Group, i, Mode.kEngage⟩ :: t.trace⟩
    else
      let r := ops.Run Func.obj Mode.kArm dt
      let t := runVectorEngaged ops Group EngagedGroup_ (i + 1) rest r.2
      ⟨{ Func with obj := r.1 } :: t.blocks, t.deftree,
        ⟨Owner.Research Group, i, Mode.kArm⟩ :: t.trace⟩

/-- What a loop over `ResearchGroupKeys_` leaves in `Run`. -/
structure RunGroupsPass (B : Type) where
  groups : StdMap (List (Block B))
  deftree : DefinitionTree2
  trace : List RunCall

/-- The loop over `ResearchGroupKeys_` of the branch `EngagedGroup_ == "Baseline"`
(lines 226-230): every block of every group is run in `kArm`. -/
def runGroupsArm {B : Type} (ops : GenericFunction B) :
    List String → StdMap (List (Block B)) → DefinitionTree2 → RunGroupsPass B
  | [], m, dt => ⟨m, dt, []⟩
  | Group :: rest, m, dt =>
    let p := runVector ops (Owner.Research Group) Mode.kArm 0 (mapAt m Group) dt
    let q := runGroupsArm ops rest (mapAssign m Group p.blocks) p.deftree
    ⟨q.groups, q.deftree, p.trace ++ q.trace⟩

/-- The loop over `ResearchGroupKeys_` of the `else` branch (lines 237-245). -/
def runGroupsEngaged {B : Type} (ops : GenericFunction B) (EngagedGroup_ : String) :
    List String → StdMap (List (Block B)) → DefinitionTree2 → RunGroupsPass B
  | [], m, dt => ⟨m, dt, []⟩
  | Group :: rest, m, dt =>
    let p := runVectorEngaged ops Group EngagedGroup_ 0 (mapAt m Group) dt
    let q := runGroupsEngaged ops EngagedGroup_ rest (mapAssign m Group p.blocks) p.deftree
    ⟨q.groups, q.deftree, p.trace ++ q.trace⟩

/-- What a call of `Run` leaves: the state and the calls `Func->Run(mode)` made, in the
order they were made. -/
structure RunResult (B : Type) where
  state : SensorProcessing B
  trace : List RunCall

/-- The member function `SensorProcessing::Run` (lines 219-247). -/
def Run {B : Type} (ops : GenericFunction B) (s : SensorProcessing B) : RunResult B :=
  if s.EngagedGroup_ = "Baseline" then
    let p := runVector ops Owner.Baseline Mode.kEngage 0 s.BaselineSensorProcessing_ s.deftree
    let q := runGroupsArm ops s.ResearchGroupKeys_ s.ResearchSensorProcessingGroups_ p.deftree
    ⟨{ s with
        BaselineSensorProcessing_ := p.blocks,
        ResearchSensorProcessingGroups_ := q.groups,
        deftree := q.deftree },
      p.trace ++ q.trace⟩
  else
    let p := runVector ops Owner.Baseline Mode.kArm 0 s.BaselineSensorProcessing_ s.deftree
    let q := runGroupsEngaged ops s.EngagedGroup_ s.ResearchGroupKeys_
      s.ResearchSensorProcessingGroups_ p.deftree
    ⟨{ s with
        BaselineSensorProcessing_ := p.blocks,
        ResearchSensorProcessingGroups_ := q.groups,
        deftree := q.deftree },
      p.trace ++ q.trace⟩

/-! ## The member functions as a state machine -/

/-- The member functions defined in sensor-processing.cpp, as operations on the engine. -/
inductive Op where
  | Configure (Config : Config)
  | Configured
  | Initialized
  | SetEngagedSensorProcessing (EngagedSensorProcessing : String)
  | Run

/-- The state after one call of a member function. -/
def step {B : Type} (ops : GenericFunction B) (s : SensorProcessing B) :
    Op → SensorProcessing B
  | Op.Configure c => (Configure ops c s).state
  | Op.Configured => s
  | Op.Initialized => (Initialized ops s).state
  | Op.SetEngagedSensorProcessing n => SetEngagedSensorProcessing n s
  | Op.Run => (Run ops s).state

/-- The state after a sequence of calls, made from left to right. -/
def stepAll {B : Type} (ops : GenericFunction B) (s : SensorProcessing B) (l : List Op) :
    SensorProcessing B :=
  l.foldl (step ops) s

/-! ## Notions used to state the properties -/

/-- The mode the arbitration rule gives to the blocks of a container when the engaged-group
name is `e`: Baseline blocks are engaged exactly when `e` is "Baseline"; the blocks of the
research group `G` are engaged exactly when `e` is not "Baseline" and `G` equals `e`. -/
def expectedMode (e : String) : Owner → Mode
  | Owner.Baseline => if e = "Baseline" then Mode.kEngage else Mode.kArm
  | Owner.Research G => if e ≠ "Baseline" ∧ G = e then Mode.kEngage else Mode.kArm

/-- The container an engaged-group name selects: the Baseline vector for "Baseline", the
vector of the research group of that name otherwise. -/
def engagedOwner (e : String) : Owner :=
  if e = "Baseline" then Owner.Baseline else Owner.Research e

/-- The calls `Run(mode)` on the blocks `i`, ..., `i + n - 1` of a container, in order. -/
def vectorCalls (owner : Owner) (mode : Mode) (i n : Nat) : List RunCall :=
  (List.range' i n).map (fun j => ⟨owner, j, mode⟩)

/-- The calls made by a loop over the group names `keys` that runs every block of a group
`G` in mode `mode G`, for the vectors stored in `m`. -/
def groupCalls {B : Type} (m : StdMap (List (Block B))) (mode : String → Mode)
    (keys : List String) : List RunCall :=
  keys.flatMap (fun G => vectorCalls (Owner.Research G) (mode G) 0 (mapAt m G).length)

/-- The blocks `0`, ..., `n - 1` of a container, in order. -/
def vectorSlots (owner : Owner) (n : Nat) : List (Owner × Nat) :=
  (List.range' 0 n).map (fun j => (owner, j))

/-- Two states with the same root path, flags and engaged-group name. -/
def sameFlags {B : Type} (s t : SensorProcessing B) : Prop :=
  t.RootPath_ = s.RootPath_ ∧ t.Configured_ = s.Configured_ ∧
    t.InitializedLatch_ = s.InitializedLatch_ ∧ t.EngagedGroup_ = s.EngagedGroup_

/-- The eleven type identifiers. -/
def definedTypes : List String :=
  ["Constant", "Gain", "Sum", "IAS", "AGL", "PitotStatic", "FiveHole", "EKF15StateINS",
    "Filter", "If", "MinCellVolt"]

/-- A block-config that has no `Type`, or a `Type` that is not one of the eleven
identifiers. -/
def typeRejected (Func : FuncConfig) : Bool :=
  match Func.TypeMember with
  | none => true
  | some t => decide (t ∉ definedTypes)

/-- A `Research` entry without `Group-Name` or without `Components`. -/
def groupMalformed (Group : GroupConfig) : Bool :=
  Group.GroupName.isNone || Group.Components.isNone

/-- The documents with a cause of failure: no `Baseline` member, a rejected block-config
in `Baseline` or in the `Components` of a `Research` entry, or a `Research` entry without
`Group-Name` or `Components`. -/
def configInvalid (c : Config) : Prop :=
  c.Baseline = none
    ∨ (∃ Func ∈ c.Baseline.getD [], typeRejected Func = true)
    ∨ (∃ Group ∈ c.Research.getD [], groupMalformed Group = true ∨
        ∃ Func ∈ Group.Components.getD [], typeRejected Func = true)

/-- The blocks' own `Configure` never throws. -/
def blocksConfigure {B : Type} (ops : GenericFunction B) : Prop :=
  ∀ (b : B) (Func : FuncConfig) (PathName : String) (dt : DefinitionTree2),
    (ops.Configure b Func PathName dt).2.2 = none

/-- A message names a path when the path occurs in it as a contiguous substring. -/
def names (message path : String) : Prop :=
  path.data <:+: message.data

instance names.decidable (message path : String) : Decidable (names message path) :=
  inferInstanceAs (Decidable (path.data <:+: message.data))

/-- The message thrown for a block-config without `Type` (lines 64 and 122). -/
def typeMissingMessage (PathName : String) : String :=
  "ERROR" ++ PathName ++ ": Type not specified in configuration."

/-- The message thrown for a block-config whose `Type` is not a defined one (lines 57
and 115). -/
def typeUnknownMessage (PathName : String) : String :=
  "ERROR" ++ PathName ++ ": Type specified is not a defined type"

/-- The message of a rejected block-config: that of the `throw` statement it reaches. -/
def blockMessage (PathName : String) (Func : FuncConfig) : String :=
  match Func.TypeMember with
  | none => typeMissingMessage PathName
  | some _ => typeUnknownMessage PathName

/-- The message thrown for a malformed `Research` entry (line 136). -/
def groupMessage (RootPath_ : String) : String :=
  "ERROR" ++ RootPath_ ++ ": Group name or components not specified in configuration."

/-- The message thrown for a document without `Baseline` (line 78). -/
def baselineMissingMessage (RootPath_ : String) : String :=
  "ERROR" ++ RootPath_ ++ ": Baseline not specified in configuration."

/-! ## Concrete blocks and documents for the closed examples -/

/-- A concrete family of blocks, to instantiate the parameter `GenericFunction` in closed
examples.  The private state of a block is its class and the number of `Initialize` calls
it has received.  `Configure` registers one cell `PathName/<name>` for every member
`"Output": <name>` of the block-config and never throws; a `GainClass` block reports
ready after two `Initialize` calls, every other block after one; `Run` does nothing. -/
def demoBlocks : GenericFunction (BlockKind × Nat) :=
  { make := fun k => (k, 0),
    Configure := fun b Func PathName dt =>
      (b, (Func.members.filter (fun kv => kv.1 = "Output")).foldl
            (fun t kv => (getElement t (PathName ++ "/" ++ kv.2) true).2) dt, none),
    Initialize := fun b dt => ((b.1, b.2 + 1), dt),
    Initialized := fun b _ =>
      if b.1 = BlockKind.GainClass then decide (2 ≤ b.2) else decide (1 ≤ b.2),
    Run := fun b _ dt => (b, dt) }

/-- Baseline with one `Constant`, one research group `G` with one `Gain`. -/
def cfgTwoGroups : Config :=
  { Baseline := some [⟨some "Constant", []⟩],
    Research := some [⟨some "G", some [⟨some "Gain", []⟩]⟩] }

/-- An empty Baseline and two `Research` entries with the same `Group-Name`. -/
def cfgSameNameTwice : Config :=
  { Baseline := some [],
    Research := some [⟨some "G", some [⟨some "Constant", []⟩]⟩,
                      ⟨some "G", some [⟨some "Gain", []⟩]⟩] }

/-- Baseline with a `Gain` and a `Constant`, one research group `G` with one `Sum`. -/
def cfgGainConstant : Config :=
  { Baseline := some [⟨some "Gain", []⟩, ⟨some "Constant", []⟩],
    Research := some [⟨some "G", some [⟨some "Sum", []⟩]⟩] }

/-- The engine configured from `cfgGainConstant`, starting from a fresh engine on an empty
tree. -/
def engineGainConstant : SensorProcessing (BlockKind × Nat) :=
  (Configure demoBlocks cfgGainConstant
    (SensorProcessing.fresh (BlockKind × Nat) DefinitionTree2.empty)).state

/-- A document without `Baseline` and with a `Research` section. -/
def cfgNoBaseline : Config :=
  { Baseline := none,
    Research := some [⟨some "G", some [⟨some "Gain", []⟩]⟩] }

/-- A research group `G` whose only block-config has the undefined `Type` "Kalman". -/
def cfgUnknownType : Config :=
  { Baseline := some [⟨some "Constant", []⟩],
    Research := some [⟨some "G", some [⟨some "Kalman", []⟩]⟩] }

/-- A `Research` entry with `Group-Name` "G" and without `Components`. -/
def cfgNoComponents : Config :=
  { Baseline := some [],
    Research := some [⟨some "G", none⟩] }

/-! ## Notions used for the bus, the blocks built and the aliases -/

/-- The paths of a map are strictly increasing -/
def keysSorted {V : Type} (m : StdMap V) : Prop :=
  (m.map Prod.fst).Pairwise (fun x y => keyLt x.data y.data = true)

/-- What the alias resolution leaves unchanged: the blocks, the group names and the
harvested keys. -/
def sameBlocks {B : Type} (s t : SensorProcessing B) : Prop :=
  t.BaselineSensorProcessing_ = s.BaselineSensorProcessing_ ∧
    t.ResearchSensorProcessingGroups_ = s.ResearchSensorProcessingGroups_ ∧
    t.ResearchGroupKeys_ = s.ResearchGroupKeys_ ∧
    t.BaselineDataKeys_ = s.BaselineDataKeys_ ∧ t.ResearchDataKeys_ = s.ResearchDataKeys_

/-- The harvested keys in the order the alias resolution scans them: the Baseline keys,
then the keys of each research group, group name after group name. -/
def scanKeys {B : Type} (s : SensorProcessing B) : List String :=
  s.BaselineDataKeys_ ++ s.ResearchGroupKeys_.flatMap (fun G => mapAt s.ResearchDataKeys_ G)

/-- The part of the state the alias resolution works on: the tree and `OutputData_`. -/
abbrev AliasView := DefinitionTree2 × StdMap (Option Nat)

/-- The tree and `OutputData_` of a state. -/
def aliasView {B : Type} (s : SensorProcessing B) : AliasView :=
  (s.deftree, s.OutputData_)

/-- The effect on the tree and on `OutputData_` of one pass of the body of an alias loop
(lines 148-157 and 163-172) for the harvested key `Key`. -/
def aliasStep (OutputKey : String) (σ : AliasView) (Key : String) : AliasView :=
  if substrRfind Key = substrRfind OutputKey then
    match (getElement σ.1 Key true).1 with
    | some _ =>
      ((makeAlias (getElement σ.1 Key true).2 Key OutputKey).2,
        mapAssign σ.2 (substrRfind Key) (getElement σ.1 Key true).1)
    | none => ((getElement σ.1 Key true).2, σ.2)
  else σ

/-- The effect on the tree and on `OutputData_` of the scan of the keys `keys` for one
output key. -/
def aliasScan (keys : List String) (σ : AliasView) (OutputKey : String) : AliasView :=
  keys.foldl (aliasStep OutputKey) σ

/-- The classes of the blocks of a vector, in order. -/
def kindsOf {B : Type} (v : List (Block B)) : List (Option BlockKind) :=
  v.map (fun b => some b.kind)

/-- Conversions to instantiate the parameter `Conversions` in closed examples: every
floating-point conversion gives zero. -/
def demoConversions : Conversions :=
  { floatToBool := fun _ => false, doubleToBool := fun _ => false,
    floatToInt := fun _ => 0, doubleToInt := fun _ => 0,
    floatToLong := fun _ => 0, doubleToLong := fun _ => 0,
    boolToFloat := fun _ => 0, intToFloat := fun _ => 0, longToFloat := fun _ => 0,
    doubleToFloat := fun _ => 0,
    boolToDouble := fun _ => 0, intToDouble := fun _ => 0, longToDouble := fun _ => 0,
    floatToDouble := fun _ => 0 }

/-- A tree with one cell, registered at `/Sensors/Ias`. -/
def treeOneCell : DefinitionTree2 :=
  (getElement DefinitionTree2.empty "/Sensors/Ias" true).2

/-! ## `fmu/comms.cpp` -/

/-- The names that comms.cpp takes from comms.h and definitions.h, which are not among
the sources: the size `kUartBufferMaxSize` of the frame buffer `Buffer_`, the lengths
`headerLength_` and `checksumLength_`, the bytes `header_[0]` and `header_[1]`, and the
value of the enumerator `ModeCommand` of `Message`.  They are parameters. -/
structure CommsConstants where
  kUartBufferMaxSize : Nat
  headerLength_ : Nat
  checksumLength_ : Nat
  header_ : Nat → Nat
  ModeCommand : Nat

/-- The data members of `AircraftSocComms` that the framing code of comms.cpp reads and
writes.  A byte (`uint8_t`) is a natural number, reduced modulo 256 where it is stored;
a two-element array is a pair; a `Message` is the value of its enumerator; `Buffer_` is
the list of the bytes of the array `Buffer_[kUartBufferMaxSize]`. -/
structure AircraftSocComms where
  RxByte_ : Nat
  ParserState_ : Nat
  LengthBuffer_ : Nat × Nat
  Length_ : Nat
  Buffer_ : List Nat
  Checksum_ : Nat × Nat
  MessageReceived_ : Bool
  ReceivedMessage_ : Nat
  ReceivedPayload_ : List Nat
  deriving DecidableEq, Repr

/-- The member function `AircraftSocComms::CalcChecksum` (lines 194-201): the loop
`for (i = 0; i < ArraySize; i++)` with the two additions on `uint8_t`.  The value is the
pair `(Checksum[0], Checksum[1])`; `ByteArray[i]` is read as 0 past the end of the list. -/
def CalcChecksum (ArraySize : Nat) (ByteArray : List Nat) : Nat × Nat :=
  (List.range ArraySize).foldl
    (fun Checksum i =>
      let c0 := (Checksum.1 + ByteArray.getD i 0) % 256
      (c0, (Checksum.2 + c0) % 256))
    (0, 0)

/-- The call `memcpy(dst + off, src, n)` with `n` the length of `src`: the bytes of `src`
are stored one after the other from index `off` on. -/
def memcpy : List Nat → Nat → List Nat → List Nat
  | dst, _, [] => dst
  | dst, off, v :: rest => memcpy (dst.set off v) (off + 1) rest

/-- What a call of `SendMessage` leaves: the state, and the bytes handed to
`bus_->write`, in order (none when nothing is written). -/
structure SendResult where
  state : AircraftSocComms
  written : List Nat
  deriving DecidableEq, Repr

/-- The member function `AircraftSocComms::SendMessage` (lines 98-117). -/
def SendMessage (c : CommsConstants) (s : AircraftSocComms) (message : Nat)
    (Payload : List Nat) : SendResult :=
  if Payload.length < c.kUartBufferMaxSize - c.headerLength_ - c.checksumLength_ then
    let b0 := s.Buffer_.set 0 (c.header_ 0)
    let b1 := b0.set 1 (c.header_ 1)
    let b2 := b1.set 2 (message % 256)
    let b3 := b2.set 3 ((Payload.length &&& 0xff) % 256)
    let b4 := b3.set 4 ((Payload.length >>> 8) % 256)
    let b5 := memcpy b4 c.headerLength_ Payload
    let ck := CalcChecksum (Payload.length + c.headerLength_) b5
    let b6 := b5.set (Payload.length + c.headerLength_) ck.1
    let b7 := b6.set (Payload.length + c.headerLength_ + 1) ck.2
    ⟨{ s with Buffer_ := b7, Checksum_ := ck },
      b7.take (Payload.length + c.headerLength_ + c.checksumLength_)⟩
  else ⟨s, []⟩

/-- The five assignments that every `return` of `ReceiveMessage` is preceded by, but the
one after the loop (lines 137-142, 155-160, 172-177, 180-185). -/
def resetParser (s : AircraftSocComms) : AircraftSocComms :=
  { s with ParserState_ := 0, LengthBuffer_ := (0, 0), Length_ := 0, Checksum_ := (0, 0) }

/-- What one pass of the loop of `ReceiveMessage` leaves: the state; the value returned
when the pass ends in a `return` (`none` when the loop goes on); the objects `*message`
and `*Payload`; and the index of `Buffer_` the pass has written to, if any. -/
structure ByteResult where
  state : AircraftSocComms
  returned : Option Bool
  message : Nat
  Payload : List Nat
  write : Option Nat
  deriving DecidableEq, Repr

/-- The body of the loop `while (bus_->available())` of `ReceiveMessage` (lines 122-188)
for the byte `b` that `bus_->read()` returns. -/
def receiveByte (c : CommsConstants) (s0 : AircraftSocComms) (b : Nat) (message : Nat)
    (Payload : List Nat) : ByteResult :=
  let s := { s0 with RxByte_ := b % 256 }
  if s.ParserState_ < 2 then
    if s.RxByte_ = c.header_ s.ParserState_ then
      ⟨{ s with Buffer_ := s.Buffer_.set s.ParserState_ s.RxByte_,
                ParserState_ := s.ParserState_ + 1 },
        none, message, Payload, some s.ParserState_⟩
    else ⟨s, none, message, Payload, none⟩
  else if s.ParserState_ = 3 then
    ⟨{ s with LengthBuffer_ := (s.RxByte_, s.LengthBuffer_.2),
              Buffer_ := s.Buffer_.set s.ParserState_ s.RxByte_,
              ParserState_ := s.ParserState_ + 1 },
      none, message, Payload, some s.ParserState_⟩
  else if s.ParserState_ = 4 then
    let s1 := { s with LengthBuffer_ := (s.LengthBuffer_.1, s.RxByte_) }
    let s2 := { s1 with Length_ := (s1.LengthBuffer_.2 <<< 8) ||| s1.LengthBuffer_.1 }
    if s2.Length_ > c.kUartBufferMaxSize - c.headerLength_ - c.checksumLength_ then
      ⟨resetParser s2, some false, message, Payload, none⟩
    else
      ⟨{ s2 with Buffer_ := s2.Buffer_.set s2.ParserState_ s2.RxByte_,
                 ParserState_ := s2.ParserState_ + 1 },
        none, message, Payload, some s2.ParserState_⟩
  else if s.ParserState_ < s.Length_ + c.headerLength_ then
    ⟨{ s with Buffer_ := s.Buffer_.set s.ParserState_ s.RxByte_,
              ParserState_ := s.ParserState_ + 1 },
      none, message, Payload, some s.ParserState_⟩
  else if s.ParserState_ = s.Length_ + c.headerLength_ then
    let s1 := { s with Checksum_ := CalcChecksum (s.Length_ + c.headerLength_) s.Buffer_ }
    if s1.RxByte_ = s1.Checksum_.1 then
      ⟨{ s1 with ParserState_ := s1.ParserState_ + 1 }, none, message, Payload, none⟩
    else ⟨resetParser s1, some false, message, Payload, none⟩
  else if s.ParserState_ = s.Length_ + c.headerLength_ + 1 then
    if s.RxByte_ = s.Checksum_.2 then
      ⟨resetParser s, some true, s.Buffer_.getD 2 0,
        (s.Buffer_.drop c.headerLength_).take s.Length_, none⟩
    else ⟨resetParser s, some false, message, Payload, none⟩
  else ⟨s, none, message, Payload, none⟩

/-- What a call of `ReceiveMessage` leaves: the value returned, the state, the objects
`*message` and `*Payload`, the bytes still waiting in the bus, and the indices of
`Buffer_` written to, in order. -/
structure ReceiveResult where
  ret : Bool
  state : AircraftSocComms
  message : Nat
  Payload : List Nat
  bus : List Nat
  writes : List Nat
  deriving DecidableEq, Repr

/-- The member function `AircraftSocComms::ReceiveMessage` (lines 120-191).  The first
argument lists the bytes waiting in the bus, oldest first; `message` and `Payload` are the
objects the two pointers address, as they are at the call. -/
def ReceiveMessage (c : CommsConstants) :
    List Nat → AircraftSocComms → Nat → List Nat → ReceiveResult
  | [], s, message, Payload => ⟨false, s, message, Payload, [], []⟩
  | b :: rest, s, message, Payload =>
    let r := receiveByte c s b message Payload
    match r.returned with
    | some v => ⟨v, r.state, r.message, r.Payload, rest, r.write.toList⟩
    | none =>
      let q := ReceiveMessage c rest r.state r.message r.Payload
      ⟨q.ret, q.state, q.message, q.Payload, q.bus, r.write.toList ++ q.writes⟩

/-- What a call of `ReceiveModeCommand` leaves: the value returned, the state, and the
object `*mode`. -/
structure ModeResult where
  ret : Bool
  state : AircraftSocComms
  mode : Nat
  deriving DecidableEq, Repr

/-- The member function `AircraftSocComms::ReceiveModeCommand` (lines 42-58); `mode` is
the object the pointer addresses, as it is at the call, and the cast to
`AircraftMission::Mode` keeps the value of the byte. -/
def ReceiveModeCommand (c : CommsConstants) (s : AircraftSocComms) (mode : Nat) :
    ModeResult :=
  if s.MessageReceived_ then
    if s.ReceivedMessage_ = c.ModeCommand then
      let s1 := { s with MessageReceived_ := false }
      if s1.ReceivedPayload_.length = 1 then
        ⟨true, s1, s1.ReceivedPayload_.getD 0 0⟩
      else ⟨false, s1, mode⟩
    else ⟨false, s, mode⟩
  else ⟨false, s, mode⟩

/-- The member function `AircraftSocComms::CheckMessages` (lines 93-95), on the bytes
waiting in the bus; the value is the state and the bytes left in the bus. -/
def CheckMessages (c : CommsConstants) (bus : List Nat) (s : AircraftSocComms) :
    AircraftSocComms × List Nat :=
  let r := ReceiveMessage c bus s s.ReceivedMessage_ s.ReceivedPayload_
  ({ r.state with MessageReceived_ := r.ret, ReceivedMessage_ := r.message,
                  ReceivedPayload_ := r.Payload }, r.bus)

/-- A link with the header bytes `0x42 0x46`, a five-byte header, a two-byte checksum
and a frame buffer of 16 bytes, for the closed examples. -/
def demoLink : CommsConstants :=
  { kUartBufferMaxSize := 16, headerLength_ := 5, checksumLength_ := 2,
    header_ := fun i => if i = 0 then 0x42 else 0x46, ModeCommand := 0 }

/-- A parser in its reset state on a zeroed frame buffer of 16 bytes. -/
def demoComms : AircraftSocComms :=
  { RxByte_ := 0, ParserState_ := 0, LengthBuffer_ := (0, 0), Length_ := 0,
    Buffer_ := List.replicate 16 0, Checksum_ := (0, 0), MessageReceived_ := false,
    ReceivedMessage_ := 0, ReceivedPayload_ := [] }

/-! ## Notions used for the frames of the serial link -/

/-- What a call of `ReceiveMessage` leaves, but the list of the indices written to: the
value returned, the state, `*message`, `*Payload` and the bytes left in the bus. -/
def ReceiveResult.core (r : ReceiveResult) :
    Bool × AircraftSocComms × Nat × List Nat × List Nat :=
  (r.ret, r.state, r.message, r.Payload, r.bus)

/-- The values of the constants of comms.h that the literal indices of comms.cpp
presuppose: the header of a frame is the five bytes `Buffer_[0]` to `Buffer_[4]`, the
checksum is the two bytes `Checksum_[0]` and `Checksum_[1]`, the frame buffer holds at
least an empty frame and at most `2^16` bytes (a length is sent in two bytes), and the two
bytes of `header_` are bytes. -/
def frameLayout (c : CommsConstants) : Prop :=
  c.headerLength_ = 5 ∧ c.checksumLength_ = 2 ∧ 7 ≤ c.kUartBufferMaxSize ∧
  c.kUartBufferMaxSize ≤ 65536 ∧ c.header_ 0 < 256 ∧ c.header_ 1 < 256

/-- The header of the frame for the message `message` and a payload of `n` bytes:
`header_[0]`, `header_[1]`, the message ID, the low and the high byte of `n`. -/
def frameHeader (c : CommsConstants) (message n : Nat) : List Nat :=
  [c.header_ 0, c.header_ 1, message, n % 256, n / 256]

/-- The state after successive calls of `ReceiveMessage`, one for each element of `calls`,
which gives the bytes waiting in the bus at the call and the objects `*message` and
`*Payload` at the call. -/
def receiveCalls (c : CommsConstants) (s : AircraftSocComms)
    (calls : List (List Nat × Nat × List Nat)) : AircraftSocComms :=
  calls.foldl (fun t a => (ReceiveMessage c a.1 t a.2.1 a.2.2).state) s

/-- The bounds on the parser: `ParserState_` is at most `Length_ + headerLength_ + 1`;
`Length_` is at most `kUartBufferMaxSize - headerLength_ - checksumLength_` once the
length has been read (`ParserState_ > 4`), and 0 before. -/
def parserInv (c : CommsConstants) (s : AircraftSocComms) : Prop :=
  s.ParserState_ ≤ s.Length_ + c.headerLength_ + 1 ∧
  (4 < s.ParserState_ →
    s.Length_ ≤ c.kUartBufferMaxSize - c.headerLength_ - c.checksumLength_) ∧
  (s.ParserState_ ≤ 4 → s.Length_ = 0)

/-- A state in which a mode-command message with the one-byte payload 3 is pending. -/
def demoPending : AircraftSocComms :=
  { demoComms with MessageReceived_ := true, ReceivedMessage_ := 0, ReceivedPayload_ := [3] }

/-! ## Notions used for the block factories and the engine without blocks -/

/-- The engine holds no block: the Baseline vector is empty, and so is the vector of every
group whose name is listed in `ResearchGroupKeys_`. -/
def holdsNoBlock {B : Type} (s : SensorProcessing B) : Prop :=
  s.BaselineSensorProcessing_ = [] ∧
    ∀ G ∈ s.ResearchGroupKeys_, mapAt s.ResearchSensorProcessingGroups_ G = []

/-- The block that one block-config of type `t` adds to a vector of blocks, for the class
`k` that the chain of tests selects: none when the chain ends in the `throw`. -/
def builtBlocks {B : Type} (ops : GenericFunction B) (PathName : String) (Func : FuncConfig)
    (dt : DefinitionTree2) : Option BlockKind → List (Block B)
  | some k => [⟨k, (ops.Configure (ops.make k) Func PathName dt).1⟩]
  | none => []

/-! ## Notions used for the state after the calls on the blocks, and further documents -/

/-- The blocks held by a container: the Baseline vector, or the vector stored under the name
of a research group (empty when the map has no entry for the name). -/
def blocksOf {B : Type} (s : SensorProcessing B) : Owner → List (Block B)
  | Owner.Baseline => s.BaselineSensorProcessing_
  | Owner.Research G => mapAt s.ResearchSensorProcessingGroups_ G

/-- What the calls made on the blocks read and write: the blocks of every container, and
the tree. -/
abbrev BlocksView (B : Type) := (Owner → List (Block B)) × DefinitionTree2

/-- The blocks and the tree of an engine. -/
def blocksView {B : Type} (s : SensorProcessing B) : BlocksView B :=
  (blocksOf s, s.deftree)

/-- The containers after the vector of `owner` has become `v`. -/
def setBlocksAt {B : Type} (f : Owner → List (Block B)) (owner : Owner)
    (v : List (Block B)) : Owner → List (Block B) :=
  fun o => if o = owner then v else f o

/-- One call `Func->Run(mode)`, made on the block that the call names by container and
index, on the tree as it is then: the block object and the tree become what the block's
`Run` leaves.  A call that names no block changes nothing. -/
def callRun {B : Type} (ops : GenericFunction B) (σ : BlocksView B) (c : RunCall) :
    BlocksView B :=
  match (σ.1 c.owner)[c.index]? with
  | some Func =>
    (setBlocksAt σ.1 c.owner
        ((σ.1 c.owner).set c.index { Func with obj := (ops.Run Func.obj c.mode σ.2).1 }),
      (ops.Run Func.obj c.mode σ.2).2)
  | none => σ

/-- One call `Func->Initialize()`, made on the block that the call names by container and
index, on the tree as it is then. -/
def callInitialize {B : Type} (ops : GenericFunction B) (σ : BlocksView B) (c : InitCall) :
    BlocksView B :=
  match (σ.1 c.owner)[c.index]? with
  | some Func =>
    (setBlocksAt σ.1 c.owner
        ((σ.1 c.owner).set c.index { Func with obj := (ops.Initialize Func.obj σ.2).1 }),
      (ops.Initialize Func.obj σ.2).2)
  | none => σ

/-- A log of initialisation calls is faithful from `σ` on: the value `ready` of each call
is what `Func->Initialized()` returns on the block right after its `Func->Initialize()`,
the calls being made one after the other from `σ`. -/
def readyAfterInitialize {B : Type} (ops : GenericFunction B) :
    BlocksView B → List InitCall → Prop
  | _, [] => True
  | σ, c :: rest =>
    (∃ Func, (σ.1 c.owner)[c.index]? = some Func ∧
        c.ready = ops.Initialized (ops.Initialize Func.obj σ.2).1
          (ops.Initialize Func.obj σ.2).2)
      ∧ readyAfterInitialize ops (callInitialize ops σ c) rest

/-- The members of the engine that are neither blocks nor the tree nor the latch. -/
def sameSetup {B : Type} (s t : SensorProcessing B) : Prop :=
  t.RootPath_ = s.RootPath_ ∧ t.Configured_ = s.Configured_ ∧
    t.EngagedGroup_ = s.EngagedGroup_ ∧ t.ResearchGroupKeys_ = s.ResearchGroupKeys_ ∧
    t.BaselineDataKeys_ = s.BaselineDataKeys_ ∧ t.ResearchDataKeys_ = s.ResearchDataKeys_ ∧
    t.BaselineDataPtr_ = s.BaselineDataPtr_ ∧ t.ResearchDataPtr_ = s.ResearchDataPtr_ ∧
    t.OutputData_ = s.OutputData_

/-- A document whose research group "G" has no component. -/
def cfgEmptyGroup : Config :=
  { Baseline := some [⟨some "Constant", []⟩], Research := some [⟨some "G", some []⟩] }

/-- Lookup after the assignment `m[k] = v`. -/
theorem mapFind_mapAssign {V : Type} (m : StdMap V) (k : String) (v : V) (k2 : String) :
    mapFind (mapAssign m k v) k2 = if k = k2 then some v else mapFind m k2 := by
  induction m with
  | nil => simp [mapAssign, mapFind]
  | cons hd tl ih =>
    obtain ⟨k1, v1⟩ := hd
    simp only [mapAssign]
    by_cases h1 : k1 = k
    · subst h1
      simp only [if_true, mapFind]
      by_cases h3 : k1 = k2 <;> simp [h3]
    · simp only [h1, if_false]
      by_cases h2 : keyLt k.data k1.data = true
      · simp only [h2, if_true, mapFind]
      · simp only [h2, mapFind, ih]
        by_cases h3 : k1 = k2
        · subst h3
          have : ¬ k = k1 := fun h => h1 h.symm
          simp [this]
        · simp [h3]

/-- The vector read by `m[k2]` after the assignment `m[k] = v`. -/
theorem mapAt_mapAssign {V : Type} (m : StdMap (List V)) (k : String) (v : List V)
    (k2 : String) : mapAt (mapAssign m k v) k2 = if k = k2 then v else mapAt m k2 := by
  unfold mapAt
  rw [mapFind_mapAssign]
  by_cases h : k = k2 <;> simp [h]

/-- The calls made by a loop over a vector of blocks. -/
theorem runVector_trace {B : Type} (ops : GenericFunction B) (owner : Owner) (mode : Mode)
    (bs : List (Block B)) : ∀ (i : Nat) (dt : DefinitionTree2),
    (runVector ops owner mode i bs dt).trace = vectorCalls owner mode i bs.length := by
  induction bs with
  | nil => intro i dt; simp [runVector, vectorCalls]
  | cons b rest ih =>
    intro i dt
    simp [runVector, vectorCalls, List.range', ih]

/-- A loop over a vector of blocks keeps the number of blocks. -/
theorem runVector_length {B : Type} (ops : GenericFunction B) (owner : Owner) (mode : Mode)
    (bs : List (Block B)) : ∀ (i : Nat) (dt : DefinitionTree2),
    (runVector ops owner mode i bs dt).blocks.length = bs.length := by
  induction bs with
  | nil => intro i dt; simp [runVector]
  | cons b rest ih => intro i dt; simp [runVector, ih]

/-- The inner loop of the `else` branch is the plain loop in the mode its test selects. -/
theorem runVectorEngaged_eq {B : Type} (ops : GenericFunction B) (Group e : String)
    (bs : List (Block B)) : ∀ (i : Nat) (dt : DefinitionTree2),
    runVectorEngaged ops Group e i bs dt =
      runVector ops (Owner.Research Group) (if Group = e then Mode.kEngage else Mode.kArm)
        i bs dt := by
  induction bs with
  | nil => intro i dt; simp [runVector, runVectorEngaged]
  | cons b rest ih =>
    intro i dt
    by_cases h : Group = e
    · simp only [runVectorEngaged, runVector, h, if_true]
      have := ih (i+1) (ops.Run b.obj Mode.kEngage dt).2
      simp only [h, if_true] at this
      rw [this]
    · simp only [runVectorEngaged, runVector, h, if_false]
      have := ih (i+1) (ops.Run b.obj Mode.kArm dt).2
      simp only [h, if_false] at this
      rw [this]

/-- The calls of a loop over the group names depend on the lengths of the vectors only. -/
theorem groupCalls_congr {B : Type} (m1 m2 : StdMap (List (Block B))) (mode : String → Mode)
    (keys : List String) (h : ∀ G, (mapAt m1 G).length = (mapAt m2 G).length) :
    groupCalls m1 mode keys = groupCalls m2 mode keys := by
  unfold groupCalls
  congr 1
  funext G
  rw [h G]

/-- Storing a vector of the same length under `G` keeps the length of every vector. -/
theorem mapAssign_length_eq {B : Type} (m : StdMap (List (Block B))) (G : String)
    (bs : List (Block B)) (h : bs.length = (mapAt m G).length) :
    ∀ G2, (mapAt (mapAssign m G bs) G2).length = (mapAt m G2).length := by
  intro G2
  rw [mapAt_mapAssign]
  by_cases hG : G = G2
  · subst hG; simp [h]
  · simp [hG]

/-- The calls made by the loop over the group names when Baseline is engaged. -/
theorem runGroupsArm_trace {B : Type} (ops : GenericFunction B) (keys : List String) :
    ∀ (m : StdMap (List (Block B))) (dt : DefinitionTree2),
    (runGroupsArm ops keys m dt).trace = groupCalls m (fun _ => Mode.kArm) keys := by
  induction keys with
  | nil => intro m dt; simp [runGroupsArm, groupCalls]
  | cons G rest ih =>
    intro m dt
    simp only [runGroupsArm, ih, runVector_trace]
    rw [groupCalls_congr _ m _ rest
      (mapAssign_length_eq m G _ (runVector_length ops _ _ _ _ _))]
    simp [groupCalls]

/-- The calls made by the loop over the group names in the `else` branch. -/
theorem runGroupsEngaged_trace {B : Type} (ops : GenericFunction B) (e : String)
    (keys : List String) :
    ∀ (m : StdMap (List (Block B))) (dt : DefinitionTree2),
    (runGroupsEngaged ops e keys m dt).trace =
      groupCalls m (fun G => if G = e then Mode.kEngage else Mode.kArm) keys := by
  induction keys with
  | nil => intro m dt; simp [runGroupsEngaged, groupCalls]
  | cons G rest ih =>
    intro m dt
    simp only [runGroupsEngaged, ih, runVectorEngaged_eq, runVector_trace]
    rw [groupCalls_congr _ m _ rest
      (mapAssign_length_eq m G _ (runVector_length ops _ _ _ _ _))]
    simp [groupCalls]

/-- The calls made by `Run`, in order. -/
theorem Run_trace {B : Type} (ops : GenericFunction B) (s : SensorProcessing B) :
    (Run ops s).trace =
      vectorCalls Owner.Baseline (expectedMode s.EngagedGroup_ Owner.Baseline) 0
          s.BaselineSensorProcessing_.length ++
        s.ResearchGroupKeys_.flatMap (fun G =>
          vectorCalls (Owner.Research G) (expectedMode s.EngagedGroup_ (Owner.Research G)) 0
            (mapAt s.ResearchSensorProcessingGroups_ G).length) := by
  unfold Run
  by_cases h : s.EngagedGroup_ = "Baseline"
  · simp only [h, if_true, runVector_trace, runGroupsArm_trace, groupCalls, expectedMode]
    simp
  · simp only [h, if_false, runVector_trace, runGroupsEngaged_trace, groupCalls, expectedMode]
    simp [h]

/-- Every call made by `Run` has the mode of the arbitration rule. -/
theorem Run_trace_mode {B : Type} (ops : GenericFunction B) (s : SensorProcessing B) :
    ∀ c ∈ (Run ops s).trace, c.mode = expectedMode s.EngagedGroup_ c.owner := by
  intro c hc
  rw [Run_trace] at hc
  simp only [List.mem_append, List.mem_flatMap, vectorCalls, List.mem_map] at hc
  rcases hc with ⟨j, _, rfl⟩ | ⟨G, _, j, _, rfl⟩ <;> rfl

/-- Every call made by `Run` is on a Baseline block or on a block of a listed group. -/
theorem Run_trace_owner {B : Type} (ops : GenericFunction B) (s : SensorProcessing B) :
    ∀ c ∈ (Run ops s).trace,
      c.owner = Owner.Baseline ∨ ∃ G ∈ s.ResearchGroupKeys_, c.owner = Owner.Research G := by
  intro c hc
  rw [Run_trace] at hc
  simp only [List.mem_append, List.mem_flatMap, vectorCalls, List.mem_map] at hc
  rcases hc with ⟨j, _, rfl⟩ | ⟨G, hG, j, _, rfl⟩
  · exact Or.inl rfl
  · exact Or.inr ⟨G, hG, rfl⟩

/-- The arbitration rule engages exactly the container selected by the name. -/
theorem expectedMode_engage (e : String) (o : Owner) :
    expectedMode e o = Mode.kEngage ↔ o = engagedOwner e := by
  cases o with
  | Baseline =>
    by_cases h : e = "Baseline" <;> simp [expectedMode, engagedOwner, h]
  | Research G =>
    by_cases h : e = "Baseline"
    · simp [expectedMode, engagedOwner, h]
    · simp [expectedMode, engagedOwner, h]

/-- The blocks of a container are listed once each. -/
theorem vectorSlots_nodup (owner : Owner) (n : Nat) : (vectorSlots owner n).Nodup := by
  unfold vectorSlots
  refine List.Nodup.map ?_ (List.nodup_range' 0 n)
  intro a b h
  exact (Prod.mk.inj h).2

/-- The blocks of a container: those it owns, with an index below its length. -/
theorem mem_vectorSlots (owner : Owner) (n : Nat) (x : Owner × Nat) :
    x ∈ vectorSlots owner n ↔ x.1 = owner ∧ x.2 < n := by
  unfold vectorSlots
  simp only [List.mem_map, List.mem_range'_1]
  constructor
  · rintro ⟨j, hj, rfl⟩
    exact ⟨rfl, by simpa using hj.2⟩
  · rintro ⟨h1, h2⟩
    exact ⟨x.2, ⟨Nat.zero_le _, by simpa using h2⟩, by rw [← h1]⟩

/-- The blocks called by `Run`, in order. -/
theorem Run_slots {B : Type} (ops : GenericFunction B) (s : SensorProcessing B) :
    (Run ops s).trace.map (fun c => (c.owner, c.index)) =
      vectorSlots Owner.Baseline s.BaselineSensorProcessing_.length ++
        s.ResearchGroupKeys_.flatMap (fun G =>
          vectorSlots (Owner.Research G) (mapAt s.ResearchSensorProcessingGroups_ G).length) := by
  rw [Run_trace]
  simp [vectorCalls, vectorSlots, List.map_flatMap, Function.comp_def]

/-- With pairwise distinct names in `ResearchGroupKeys_`, one call of `Run` calls no block
twice. -/
theorem Run_slots_nodup {B : Type} (ops : GenericFunction B) (s : SensorProcessing B)
    (h : s.ResearchGroupKeys_.Nodup) :
    ((Run ops s).trace.map (fun c => (c.owner, c.index))).Nodup := by
  rw [Run_slots]
  rw [List.nodup_append]
  refine ⟨vectorSlots_nodup _ _, ?_, ?_⟩
  · rw [List.nodup_flatMap]
    refine ⟨fun G _ => vectorSlots_nodup _ _, ?_⟩
    refine List.Pairwise.imp ?_ h
    intro G1 G2 hne x hx1 hx2
    rw [mem_vectorSlots] at hx1 hx2
    rw [hx1.1] at hx2
    exact hne (Owner.Research.inj hx2.1)
  · intro x hx hy
    rw [mem_vectorSlots] at hx
    rw [List.mem_flatMap] at hy
    obtain ⟨G, _, hG⟩ := hy
    rw [mem_vectorSlots] at hG
    rw [hx.1] at hG
    exact Owner.noConfusion hG.1

/-- C3, evaluation at the failing input: `Configure` accepts a `Research` array that
declares `Group-Name` "G" twice; it stores the name twice in `ResearchGroupKeys_` and both
blocks in the one vector `ResearchSensorProcessingGroups_["G"]`, and one call of `Run` then
calls `Run` on each of the two blocks twice. -/
theorem C3_same_group_name_twice_runs_blocks_twice :
    (Configure demoBlocks cfgSameNameTwice
        (SensorProcessing.fresh (BlockKind × Nat) DefinitionTree2.empty)).error = none
      ∧ (Configure demoBlocks cfgSameNameTwice
          (SensorProcessing.fresh (BlockKind × Nat) DefinitionTree2.empty)).state.ResearchGroupKeys_
        = ["G", "G"]
      ∧ (mapAt (Configure demoBlocks cfgSameNameTwice
          (SensorProcessing.fresh (BlockKind × Nat)
            DefinitionTree2.empty)).state.ResearchSensorProcessingGroups_ "G").map Block.kind
        = [BlockKind.ConstantClass, BlockKind.GainClass]
      ∧ (Run demoBlocks (Configure demoBlocks cfgSameNameTwice
          (SensorProcessing.fresh (BlockKind × Nat) DefinitionTree2.empty)).state).trace
        = [⟨Owner.Research "G", 0, Mode.kArm⟩, ⟨Owner.Research "G", 1, Mode.kArm⟩,
           ⟨Owner.Research "G", 0, Mode.kArm⟩, ⟨Owner.Research "G", 1, Mode.kArm⟩] := by
  decide

/-- C4: `SetEngagedSensorProcessing(b)` changes nothing but `EngagedGroup_` (the blocks, the
group names, the tree, the flags and every other member stay as they were, and no block is
called); after
`SetEngagedSensorProcessing(a)` followed by `SetEngagedSensorProcessing(b)` the engine is in
the state `SetEngagedSensorProcessing(b)` alone gives, the next `Run` makes the same calls,
and the modes of these calls are those of the arbitration rule for the name `b`. -/
theorem C4_SetEngaged_only_sets_the_name {B : Type} (ops : GenericFunction B)
    (a b : String) (s : SensorProcessing B) :
    SetEngagedSensorProcessing b s = { s with EngagedGroup_ := b }
      ∧ (SetEngagedSensorProcessing b s).BaselineSensorProcessing_
          = s.BaselineSensorProcessing_
      ∧ (SetEngagedSensorProcessing b s).ResearchSensorProcessingGroups_
          = s.ResearchSensorProcessingGroups_
      ∧ (SetEngagedSensorProcessing b s).ResearchGroupKeys_ = s.ResearchGroupKeys_
      ∧ (SetEngagedSensorProcessing b s).deftree = s.deftree
      ∧ (SetEngagedSensorProcessing b s).InitializedLatch_ = s.InitializedLatch_
      ∧ (SetEngagedSensorProcessing b s).Configured_ = s.Configured_
      ∧ (SetEngagedSensorProcessing b s).RootPath_ = s.RootPath_
      ∧ (SetEngagedSensorProcessing b s).BaselineDataKeys_ = s.BaselineDataKeys_
      ∧ (SetEngagedSensorProcessing b s).ResearchDataKeys_ = s.ResearchDataKeys_
      ∧ (SetEngagedSensorProcessing b s).BaselineDataPtr_ = s.BaselineDataPtr_
      ∧ (SetEngagedSensorProcessing b s).ResearchDataPtr_ = s.ResearchDataPtr_
      ∧ (SetEngagedSensorProcessing b s).OutputData_ = s.OutputData_
      ∧ (SetEngagedSensorProcessing b s).EngagedGroup_ = b
      ∧ SetEngagedSensorProcessing b (SetEngagedSensorProcessing a s)
          = SetEngagedSensorProcessing b s
      ∧ (Run ops (SetEngagedSensorProcessing b (SetEngagedSensorProcessing a s))).trace
          = (Run ops (SetEngagedSensorProcessing b s)).trace
      ∧ (∀ c ∈ (Run ops (SetEngagedSensorProcessing b (SetEngagedSensorProcessing a s))).trace,
          c.mode = expectedMode b c.owner) :=
  ⟨rfl, rfl, rfl, rfl, rfl, rfl, rfl, rfl, rfl, rfl, rfl, rfl, rfl, rfl, rfl, rfl,
    Run_trace_mode ops (SetEngagedSensorProcessing b (SetEngagedSensorProcessing a s))⟩

/-- The blocks initialised by a loop over a vector. -/
theorem initVector_slots {B : Type} (ops : GenericFunction B) (owner : Owner)
    (bs : List (Block B)) : ∀ (i : Nat) (dt : DefinitionTree2) (b : Bool),
    (initVector ops owner i bs dt b).trace.map (fun c => (c.owner, c.index)) =
      (List.range' i bs.length).map (fun j => (owner, j)) := by
  induction bs with
  | nil => intro i dt b; simp [initVector]
  | cons hd rest ih => intro i dt b; simp [initVector, List.range', ih]

/-- An initialisation loop keeps the number of blocks. -/
theorem initVector_length {B : Type} (ops : GenericFunction B) (owner : Owner)
    (bs : List (Block B)) : ∀ (i : Nat) (dt : DefinitionTree2) (b : Bool),
    (initVector ops owner i bs dt b).blocks.length = bs.length := by
  induction bs with
  | nil => intro i dt b; simp [initVector]
  | cons hd rest ih => intro i dt b; simp [initVector, ih]

/-- The flag `initialized` after a loop over a vector. -/
theorem initVector_initialized {B : Type} (ops : GenericFunction B) (owner : Owner)
    (bs : List (Block B)) : ∀ (i : Nat) (dt : DefinitionTree2) (b : Bool),
    (initVector ops owner i bs dt b).initialized =
      (b && (initVector ops owner i bs dt b).trace.all (fun c => c.ready)) := by
  induction bs with
  | nil => intro i dt b; simp [initVector]
  | cons hd rest ih =>
    intro i dt b
    simp only [initVector, List.all_cons]
    rw [ih]
    cases ops.Initialized (ops.Initialize hd.obj dt).1 (ops.Initialize hd.obj dt).2 <;>
      cases b <;> simp

/-- The blocks initialised by the loop over the group names. -/
theorem initGroups_slots {B : Type} (ops : GenericFunction B) (keys : List String) :
    ∀ (m : StdMap (List (Block B))) (dt : DefinitionTree2) (b : Bool),
    (initGroups ops keys m dt b).trace.map (fun c => (c.owner, c.index)) =
      keys.flatMap (fun G => vectorSlots (Owner.Research G) (mapAt m G).length) := by
  induction keys with
  | nil => intro m dt b; simp [initGroups]
  | cons G rest ih =>
    intro m dt b
    simp only [initGroups, List.map_append, ih, initVector_slots, List.flatMap_cons,
      vectorSlots]
    congr 1
    congr 1
    funext G2
    rw [mapAssign_length_eq m G _ (initVector_length ops _ _ _ _ _) G2]

/-- The flag `initialized` after the loop over the group names. -/
theorem initGroups_initialized {B : Type} (ops : GenericFunction B) (keys : List String) :
    ∀ (m : StdMap (List (Block B))) (dt : DefinitionTree2) (b : Bool),
    (initGroups ops keys m dt b).initialized =
      (b && (initGroups ops keys m dt b).trace.all (fun c => c.ready)) := by
  induction keys with
  | nil => intro m dt b; simp [initGroups]
  | cons G rest ih =>
    intro m dt b
    simp only [initGroups, List.all_append]
    rw [ih, initVector_initialized]
    simp [Bool.and_assoc]

/-- With the latch set, `Initialized` returns true at once. -/
theorem Initialized_of_latch {B : Type} (ops : GenericFunction B) (s : SensorProcessing B)
    (h : s.InitializedLatch_ = true) : Initialized ops s = ⟨true, s, []⟩ := by
  simp [Initialized, h]

/-- A poll that returns true leaves the latch set. -/
theorem Initialized_ret_latch {B : Type} (ops : GenericFunction B) (s : SensorProcessing B)
    (h : (Initialized ops s).ret = true) :
    (Initialized ops s).state.InitializedLatch_ = true := by
  cases hl : s.InitializedLatch_ with
  | true => rw [Initialized_of_latch ops s hl]; exact hl
  | false =>
    simp only [Initialized, hl, Bool.false_eq_true, if_false] at h ⊢
    split
    · rfl
    · rename_i hq
      rw [if_neg hq] at h
      exact absurd h hq

/-- The state after `Initialized` polled with the latch unset -/
theorem Initialized_unset {B : Type} (ops : GenericFunction B) (s : SensorProcessing B)
    (h : s.InitializedLatch_ = false) :
    (Initialized ops s).trace =
        (initVector ops Owner.Baseline 0 s.BaselineSensorProcessing_ s.deftree true).trace ++
          (initGroups ops s.ResearchGroupKeys_ s.ResearchSensorProcessingGroups_
            (initVector ops Owner.Baseline 0 s.BaselineSensorProcessing_ s.deftree true).deftree
            (initVector ops Owner.Baseline 0 s.BaselineSensorProcessing_ s.deftree
              true).initialized).trace
      ∧ (Initialized ops s).ret =
          (initGroups ops s.ResearchGroupKeys_ s.ResearchSensorProcessingGroups_
            (initVector ops Owner.Baseline 0 s.BaselineSensorProcessing_ s.deftree true).deftree
            (initVector ops Owner.Baseline 0 s.BaselineSensorProcessing_ s.deftree
              true).initialized).initialized
      ∧ (Initialized ops s).state.InitializedLatch_ = (Initialized ops s).ret := by
  simp only [Initialized, h, Bool.false_eq_true, if_false]
  split
  · rename_i hq
    exact ⟨rfl, rfl, hq.symm⟩
  · rename_i hq
    refine ⟨rfl, rfl, ?_⟩
    simp only [Bool.not_eq_true] at hq
    exact hq.symm

/-- With the latch unset, the value returned is the conjunction of the readiness reports. -/
theorem Initialized_ret_iff {B : Type} (ops : GenericFunction B) (s : SensorProcessing B)
    (h : s.InitializedLatch_ = false) :
    (Initialized ops s).ret = (Initialized ops s).trace.all (fun c => c.ready) := by
  obtain ⟨h1, h2, _⟩ := Initialized_unset ops s h
  rw [h1, h2, initGroups_initialized, initVector_initialized, List.all_append]
  simp

/-- With the latch unset, the blocks a poll initialises. -/
theorem Initialized_slots {B : Type} (ops : GenericFunction B) (s : SensorProcessing B)
    (h : s.InitializedLatch_ = false) :
    (Initialized ops s).trace.map (fun c => (c.owner, c.index)) =
      vectorSlots Owner.Baseline s.BaselineSensorProcessing_.length ++
        s.ResearchGroupKeys_.flatMap (fun G =>
          vectorSlots (Owner.Research G) (mapAt s.ResearchSensorProcessingGroups_ G).length) := by
  obtain ⟨h1, _, _⟩ := Initialized_unset ops s h
  rw [h1, List.map_append, initVector_slots, initGroups_slots]
  rfl

/-- The relation `sameFlags` is reflexive. -/
theorem sameFlags_refl {B : Type} (s : SensorProcessing B) : sameFlags s s :=
  ⟨rfl, rfl, rfl, rfl⟩

/-- The relation `sameFlags` is transitive. -/
theorem sameFlags_trans {B : Type} {s t u : SensorProcessing B} (h1 : sameFlags s t)
    (h2 : sameFlags t u) : sameFlags s u :=
  ⟨h2.1.trans h1.1, h2.2.1.trans h1.2.1, h2.2.2.1.trans h1.2.2.1, h2.2.2.2.trans h1.2.2.2⟩

/-- The Baseline loop keeps the root path, the flags and the engaged-group name. -/
theorem configureBaselineLoop_flags {B : Type} (ops : GenericFunction B) (PathName : String)
    (l : List FuncConfig) :
    ∀ s : SensorProcessing B, sameFlags s (configureBaselineLoop ops PathName l s).state := by
  induction l with
  | nil => intro s; exact sameFlags_refl s
  | cons Func rest ih =>
    intro s
    cases h1 : Func.TypeMember with
    | none => simp only [configureBaselineLoop, h1]; exact sameFlags_refl s
    | some t =>
      cases h2 : baselineKind t with
      | none => simp only [configureBaselineLoop, h1, h2]; exact sameFlags_refl s
      | some k =>
        cases h3 : (ops.Configure (ops.make k) Func PathName s.deftree).2.2 with
        | some e => simp only [configureBaselineLoop, h1, h2, h3]; exact sameFlags_refl s
        | none =>
          simp only [configureBaselineLoop, h1, h2, h3]
          exact sameFlags_trans ⟨rfl, rfl, rfl, rfl⟩ (ih _)

/-- The loop over the components of a group keeps the root path, the flags and the engaged-
group name. -/
theorem configureComponentsLoop_flags {B : Type} (ops : GenericFunction B)
    (PathName GroupKey : String) (l : List FuncConfig) :
    ∀ s : SensorProcessing B,
      sameFlags s (configureComponentsLoop ops PathName GroupKey l s).state := by
  induction l with
  | nil => intro s; exact sameFlags_refl s
  | cons Func rest ih =>
    intro s
    cases h1 : Func.TypeMember with
    | none => simp only [configureComponentsLoop, h1]; exact sameFlags_refl s
    | some t =>
      cases h2 : researchKind t with
      | none => simp only [configureComponentsLoop, h1, h2]; exact sameFlags_refl s
      | some k =>
        cases h3 : (ops.Configure (ops.make k) Func PathName s.deftree).2.2 with
        | some e => simp only [configureComponentsLoop, h1, h2, h3]; exact sameFlags_refl s
        | none =>
          simp only [configureComponentsLoop, h1, h2, h3]
          exact sameFlags_trans ⟨rfl, rfl, rfl, rfl⟩ (ih _)

/-- The loop over the `Research` array keeps the root path, the flags and the engaged-group
name. -/
theorem configureResearchLoop_flags {B : Type} (ops : GenericFunction B)
    (l : List GroupConfig) :
    ∀ (s : SensorProcessing B) (okm : StdMap String),
      sameFlags s (configureResearchLoop ops l s okm).state := by
  induction l with
  | nil => intro s okm; exact sameFlags_refl s
  | cons Group rest ih =>
    intro s okm
    cases h1 : Group.GroupName with
    | none => simp only [configureResearchLoop, h1]; exact sameFlags_refl s
    | some name =>
      cases h2 : Group.Components with
      | none => simp only [configureResearchLoop, h1, h2]; exact sameFlags_refl s
      | some comps =>
        simp only [configureResearchLoop, h1, h2]
        have hc := configureComponentsLoop_flags ops (s.RootPath_ ++ "/" ++ name) name comps
          { s with ResearchGroupKeys_ := s.ResearchGroupKeys_ ++ [name] }
        split
        · exact hc
        · exact sameFlags_trans hc (sameFlags_trans ⟨rfl, rfl, rfl, rfl⟩ (ih _ _))

/-- The alias loop over the Baseline keys keeps the root path, the flags and the engaged-
group name. -/
theorem aliasBaselineKeys_flags {B : Type} (OutputKey : String) (l : List String) :
    ∀ s : SensorProcessing B, sameFlags s (aliasBaselineKeys OutputKey l s) := by
  induction l with
  | nil => intro s; exact sameFlags_refl s
  | cons Key rest ih =>
    intro s
    simp only [aliasBaselineKeys]
    split
    · split
      · exact sameFlags_trans ⟨rfl, rfl, rfl, rfl⟩ (ih _)
      · exact sameFlags_trans ⟨rfl, rfl, rfl, rfl⟩ (ih _)
    · exact ih s

/-- The alias loop over the keys of a group keeps the root path, the flags and the engaged-
group name. -/
theorem aliasResearchKeys_flags {B : Type} (OutputKey GroupKey : String) (l : List String) :
    ∀ s : SensorProcessing B, sameFlags s (aliasResearchKeys OutputKey GroupKey l s) := by
  induction l with
  | nil => intro s; exact sameFlags_refl s
  | cons Key rest ih =>
    intro s
    simp only [aliasResearchKeys]
    split
    · split
      · exact sameFlags_trans ⟨rfl, rfl, rfl, rfl⟩ (ih _)
      · exact sameFlags_trans ⟨rfl, rfl, rfl, rfl⟩ (ih _)
    · exact ih s

/-- The alias loop over the groups keeps the root path, the flags and the engaged-group
name. -/
theorem aliasResearchGroups_flags {B : Type} (OutputKey : String) (l : List String) :
    ∀ s : SensorProcessing B, sameFlags s (aliasResearchGroups OutputKey l s) := by
  induction l with
  | nil => intro s; exact sameFlags_refl s
  | cons G rest ih =>
    intro s
    simp only [aliasResearchGroups]
    exact sameFlags_trans (aliasResearchKeys_flags OutputKey G _ s) (ih _)

/-- The alias resolution keeps the root path, the flags and the engaged-group name. -/
theorem resolveAliases_flags {B : Type} (l : List String) :
    ∀ s : SensorProcessing B, sameFlags s (resolveAliases l s) := by
  induction l with
  | nil => intro s; exact sameFlags_refl s
  | cons K rest ih =>
    intro s
    simp only [resolveAliases]
    exact sameFlags_trans
      (sameFlags_trans (aliasBaselineKeys_flags K _ s) (aliasResearchGroups_flags K _ _)) (ih _)

/-- The Baseline part keeps the root path, the flags and the engaged-group name. -/
theorem configureBaseline_flags {B : Type} (ops : GenericFunction B) (c : Config)
    (s : SensorProcessing B) : sameFlags s (configureBaseline ops c s).state := by
  unfold configureBaseline
  cases c.Baseline with
  | none => exact sameFlags_refl s
  | some bl =>
    simp only []
    have hb := configureBaselineLoop_flags ops (s.RootPath_ ++ "/" ++ "Baseline") bl s
    split
    · exact hb
    · exact sameFlags_trans hb ⟨rfl, rfl, rfl, rfl⟩

/-- The Research part keeps the root path, the flags and the engaged-group name. -/
theorem configureResearch_flags {B : Type} (ops : GenericFunction B) (c : Config)
    (s : SensorProcessing B) (okm : StdMap String) :
    sameFlags s (configureResearch ops c s okm).state := by
  unfold configureResearch
  cases c.Research with
  | none => exact sameFlags_refl s
  | some rl => exact configureResearchLoop_flags ops rl s okm

/-- `Configure` leaves the root path, the latch and the engaged-group name as they were,
and `Configured_` too when it throws. -/
theorem Configure_frame {B : Type} (ops : GenericFunction B) (c : Config)
    (s : SensorProcessing B) :
    (Configure ops c s).state.RootPath_ = s.RootPath_
      ∧ (Configure ops c s).state.InitializedLatch_ = s.InitializedLatch_
      ∧ (Configure ops c s).state.EngagedGroup_ = s.EngagedGroup_
      ∧ ((Configure ops c s).error ≠ none →
          (Configure ops c s).state.Configured_ = s.Configured_) := by
  have hb := configureBaseline_flags ops c s
  unfold Configure
  simp only []
  split
  · exact ⟨hb.1, hb.2.2.1, hb.2.2.2, fun _ => hb.2.1⟩
  · have hq := sameFlags_trans hb (configureResearch_flags ops c
      (configureBaseline ops c s).state (configureBaseline ops c s).OutputKeysMap)
    split
    · exact ⟨hq.1, hq.2.2.1, hq.2.2.2, fun _ => hq.2.1⟩
    · have hr := sameFlags_trans hq (resolveAliases_flags
        ((configureResearch ops c (configureBaseline ops c s).state
          (configureBaseline ops c s).OutputKeysMap).OutputKeysMap.map Prod.snd) _)
      exact ⟨hr.1, hr.2.2.1, hr.2.2.2, fun h => absurd rfl h⟩

/-- A call of `Run` keeps the root path, the flags and the engaged-group name. -/
theorem Run_frame {B : Type} (ops : GenericFunction B) (s : SensorProcessing B) :
    sameFlags s (Run ops s).state := by
  unfold Run
  split <;> exact ⟨rfl, rfl, rfl, rfl⟩

/-- No member function unsets the latch. -/
theorem step_latch {B : Type} (ops : GenericFunction B) (s : SensorProcessing B) (o : Op)
    (h : s.InitializedLatch_ = true) : (step ops s o).InitializedLatch_ = true := by
  cases o with
  | Configure c => exact (Configure_frame ops c s).2.1.trans h
  | Configured => exact h
  | Initialized => simp only [step]; rw [Initialized_of_latch ops s h]; exact h
  | SetEngagedSensorProcessing n => exact h
  | Run => exact (Run_frame ops s).2.2.1.trans h

/-- No sequence of calls unsets the latch. -/
theorem stepAll_latch {B : Type} (ops : GenericFunction B) (l : List Op) :
    ∀ s : SensorProcessing B, s.InitializedLatch_ = true →
      (stepAll ops s l).InitializedLatch_ = true := by
  induction l with
  | nil => intro s h; exact h
  | cons o rest ih =>
    intro s h
    exact ih (step ops s o) (step_latch ops s o h)

/-- C5: once a call of `Initialized()` has returned true, after every sequence of calls of
the member functions (`Configure`, `Configured`, `Initialized`, `SetEngagedSensorProcessing`,
`Run`) the latch is still set, and a further call of `Initialized()` returns true, calls
`Initialize` on no block and leaves the state unchanged, whatever the blocks report. -/
theorem C5_latch_is_sticky {B : Type} (ops : GenericFunction B) (s : SensorProcessing B)
    (h : (Initialized ops s).ret = true) (l : List Op) :
    (stepAll ops (Initialized ops s).state l).InitializedLatch_ = true
      ∧ (Initialized ops (stepAll ops (Initialized ops s).state l)).ret = true
      ∧ (Initialized ops (stepAll ops (Initialized ops s).state l)).trace = []
      ∧ (Initialized ops (stepAll ops (Initialized ops s).state l)).state
          = stepAll ops (Initialized ops s).state l := by
  have hl := stepAll_latch ops l _ (Initialized_ret_latch ops s h)
  rw [Initialized_of_latch ops _ hl]
  exact ⟨hl, rfl, rfl, rfl⟩

/-- C5, witness: on the engine built from `cfgGainConstant` the second poll returns true,
and the latch is still set after `Run`, a change of the engaged group, a second `Configure`
and another poll. -/
theorem C5_latch_is_sticky_witness :
    (Initialized demoBlocks (Initialized demoBlocks engineGainConstant).state).ret = true
      ∧ (stepAll demoBlocks
          (Initialized demoBlocks (Initialized demoBlocks engineGainConstant).state).state
          [Op.Run, Op.SetEngagedSensorProcessing "G", Op.Configure cfgGainConstant,
            Op.Initialized]).InitializedLatch_ = true :=
  ⟨by decide,
    (C5_latch_is_sticky demoBlocks (Initialized demoBlocks engineGainConstant).state
      (by decide)
      [Op.Run, Op.SetEngagedSensorProcessing "G", Op.Configure cfgGainConstant,
        Op.Initialized]).1⟩

/-- The chain of the Baseline loop ends in its `throw` exactly for the strings outside the
eleven identifiers. -/
theorem baselineKind_eq_none (t : String) : baselineKind t = none ↔ t ∉ definedTypes := by
  unfold baselineKind definedTypes
  simp only [List.mem_cons, List.mem_singleton, List.not_mem_nil, or_false, not_or]
  constructor
  · intro h
    refine ⟨?_, ?_, ?_, ?_, ?_, ?_, ?_, ?_, ?_, ?_, ?_⟩ <;> intro ht <;> simp [ht] at h
  · rintro ⟨h1, h2, h3, h4, h5, h6, h7, h8, h9, h10, h11⟩
    simp [h1, h2, h3, h4, h5, h6, h7, h8, h9, h10, h11]

/-- The two chains select the same class. -/
theorem researchKind_eq_baselineKind (t : String) : researchKind t = baselineKind t := rfl

/-- A message built around a path names it. -/
theorem names_of_eq (pre path suf : String) : names (pre ++ path ++ suf) path :=
  ⟨pre.data, suf.data, by simp [String.data_append]⟩

/-- A block-config without `Type` is rejected. -/
theorem typeRejected_none (Func : FuncConfig) (h : Func.TypeMember = none) :
    typeRejected Func = true := by
  simp [typeRejected, h]

/-- A block-config with a `Type` is rejected exactly when the chain ends in its `throw`. -/
theorem typeRejected_some (Func : FuncConfig) (t : String) (h : Func.TypeMember = some t) :
    (typeRejected Func = true ↔ baselineKind t = none) := by
  simp [typeRejected, h, baselineKind_eq_none]

/-- The message of a rejected block-config names the root path of its group. -/
theorem names_blockMessage (PathName : String) (Func : FuncConfig) :
    names (blockMessage PathName Func) PathName := by
  unfold blockMessage
  cases Func.TypeMember with
  | none => exact names_of_eq _ _ _
  | some t => exact names_of_eq _ _ _

/-- The Baseline loop throws when a block-config is rejected -/
theorem configureBaselineLoop_throws {B : Type} (ops : GenericFunction B) (PathName : String)
    (l : List FuncConfig) (h : ∃ Func ∈ l, typeRejected Func = true) :
    ∀ s : SensorProcessing B, (configureBaselineLoop ops PathName l s).error ≠ none := by
  induction l with
  | nil => simp at h
  | cons Func rest ih =>
    intro s
    cases h1 : Func.TypeMember with
    | none => simp [configureBaselineLoop, h1]
    | some t =>
      cases h2 : baselineKind t with
      | none => simp [configureBaselineLoop, h1, h2]
      | some k =>
        cases h3 : (ops.Configure (ops.make k) Func PathName s.deftree).2.2 with
        | some e => simp [configureBaselineLoop, h1, h2, h3]
        | none =>
          simp only [configureBaselineLoop, h1, h2, h3]
          apply ih
          obtain ⟨f, hf, hr⟩ := h
          rcases List.mem_cons.mp hf with rfl | hf
          · rw [typeRejected_some f t h1, h2] at hr
            exact absurd hr (by simp)
          · exact ⟨f, hf, hr⟩

/-- With blocks whose `Configure` does not throw, an exception of the Baseline loop comes
from a rejected block-config and carries its message. -/
theorem configureBaselineLoop_error {B : Type} (ops : GenericFunction B)
    (hok : blocksConfigure ops) (PathName : String) (l : List FuncConfig) :
    ∀ (s : SensorProcessing B) (m : String),
      (configureBaselineLoop ops PathName l s).error = some m →
      ∃ Func ∈ l, typeRejected Func = true ∧ m = blockMessage PathName Func := by
  induction l with
  | nil => intro s m h; simp [configureBaselineLoop] at h
  | cons Func rest ih =>
    intro s m h
    cases h1 : Func.TypeMember with
    | none =>
      simp only [configureBaselineLoop, h1, Option.some.injEq] at h
      exact ⟨Func, List.mem_cons_self _ _, typeRejected_none Func h1,
        by simp [blockMessage, h1, typeMissingMessage, h]⟩
    | some t =>
      cases h2 : baselineKind t with
      | none =>
        simp only [configureBaselineLoop, h1, h2, Option.some.injEq] at h
        exact ⟨Func, List.mem_cons_self _ _, (typeRejected_some Func t h1).mpr h2,
          by simp [blockMessage, h1, typeUnknownMessage, h]⟩
      | some k =>
        have h3 := hok (ops.make k) Func PathName s.deftree
        simp only [configureBaselineLoop, h1, h2, h3] at h
        obtain ⟨f, hf, hr⟩ := ih _ m h
        exact ⟨f, List.mem_cons_of_mem _ hf, hr⟩

/-- The loop over the components of a group throws when a block-config is rejected. -/
theorem configureComponentsLoop_throws {B : Type} (ops : GenericFunction B)
    (PathName GroupKey : String) (l : List FuncConfig)
    (h : ∃ Func ∈ l, typeRejected Func = true) :
    ∀ s : SensorProcessing B,
      (configureComponentsLoop ops PathName GroupKey l s).error ≠ none := by
  induction l with
  | nil => simp at h
  | cons Func rest ih =>
    intro s
    cases h1 : Func.TypeMember with
    | none => simp [configureComponentsLoop, h1]
    | some t =>
      cases h2 : researchKind t with
      | none => simp [configureComponentsLoop, h1, h2]
      | some k =>
        cases h3 : (ops.Configure (ops.make k) Func PathName s.deftree).2.2 with
        | some e => simp [configureComponentsLoop, h1, h2, h3]
        | none =>
          simp only [configureComponentsLoop, h1, h2, h3]
          apply ih
          obtain ⟨f, hf, hr⟩ := h
          rcases List.mem_cons.mp hf with rfl | hf
          · rw [typeRejected_some f t h1, ← researchKind_eq_baselineKind, h2] at hr
            exact absurd hr (by simp)
          · exact ⟨f, hf, hr⟩

/-- With blocks whose `Configure` does not throw, an exception of the loop over the
components comes from a rejected block-config and carries its message. -/
theorem configureComponentsLoop_error {B : Type} (ops : GenericFunction B)
    (hok : blocksConfigure ops) (PathName GroupKey : String) (l : List FuncConfig) :
    ∀ (s : SensorProcessing B) (m : String),
      (configureComponentsLoop ops PathName GroupKey l s).error = some m →
      ∃ Func ∈ l, typeRejected Func = true ∧ m = blockMessage PathName Func := by
  induction l with
  | nil => intro s m h; simp [configureComponentsLoop] at h
  | cons Func rest ih =>
    intro s m h
    cases h1 : Func.TypeMember with
    | none =>
      simp only [configureComponentsLoop, h1, Option.some.injEq] at h
      exact ⟨Func, List.mem_cons_self _ _, typeRejected_none Func h1,
        by simp [blockMessage, h1, typeMissingMessage, h]⟩
    | some t =>
      cases h2 : researchKind t with
      | none =>
        simp only [configureComponentsLoop, h1, h2, Option.some.injEq] at h
        exact ⟨Func, List.mem_cons_self _ _,
          (typeRejected_some Func t h1).mpr ((researchKind_eq_baselineKind t) ▸ h2),
          by simp [blockMessage, h1, typeUnknownMessage, h]⟩
      | some k =>
        have h3 := hok (ops.make k) Func PathName s.deftree
        simp only [configureComponentsLoop, h1, h2, h3] at h
        obtain ⟨f, hf, hr⟩ := ih _ m h
        exact ⟨f, List.mem_cons_of_mem _ hf, hr⟩

/-- The loop over the `Research` array throws when an entry is malformed or holds a rejected
block-config. -/
theorem configureResearchLoop_throws {B : Type} (ops : GenericFunction B)
    (l : List GroupConfig)
    (h : ∃ Group ∈ l, groupMalformed Group = true ∨
      ∃ Func ∈ Group.Components.getD [], typeRejected Func = true) :
    ∀ (s : SensorProcessing B) (okm : StdMap String),
      (configureResearchLoop ops l s okm).error ≠ none := by
  induction l with
  | nil => simp at h
  | cons Group rest ih =>
    intro s okm
    cases h1 : Group.GroupName with
    | none => simp [configureResearchLoop, h1]
    | some name =>
      cases h2 : Group.Components with
      | none => simp [configureResearchLoop, h1, h2]
      | some comps =>
        simp only [configureResearchLoop, h1, h2]
        split
        · simp
        · rename_i hnone
          apply ih
          obtain ⟨g, hg, hr⟩ := h
          rcases List.mem_cons.mp hg with rfl | hg
          · rcases hr with hr | hr
            · simp [groupMalformed, h1, h2] at hr
            · rw [h2] at hr
              exact absurd hnone (configureComponentsLoop_throws ops _ _ comps hr _)
          · exact ⟨g, hg, hr⟩

/-- With blocks whose `Configure` does not throw, an exception of the loop over the
`Research` array comes from a malformed entry or from a rejected block-config. -/
theorem configureResearchLoop_error {B : Type} (ops : GenericFunction B)
    (hok : blocksConfigure ops) (l : List GroupConfig) :
    ∀ (s : SensorProcessing B) (okm : StdMap String) (m : String),
      (configureResearchLoop ops l s okm).error = some m →
      (∃ Group ∈ l, groupMalformed Group = true ∧ m = groupMessage s.RootPath_) ∨
      (∃ Group ∈ l, ∃ name, Group.GroupName = some name ∧
        ∃ Func ∈ Group.Components.getD [], typeRejected Func = true ∧
          m = blockMessage (s.RootPath_ ++ "/" ++ name) Func) := by
  induction l with
  | nil => intro s okm m h; simp [configureResearchLoop] at h
  | cons Group rest ih =>
    intro s okm m h
    cases h1 : Group.GroupName with
    | none =>
      simp only [configureResearchLoop, h1, Option.some.injEq] at h
      exact Or.inl ⟨Group, List.mem_cons_self _ _, by simp [groupMalformed, h1],
        by simp [groupMessage, h]⟩
    | some name =>
      cases h2 : Group.Components with
      | none =>
        simp only [configureResearchLoop, h1, h2, Option.some.injEq] at h
        exact Or.inl ⟨Group, List.mem_cons_self _ _, by simp [groupMalformed, h2],
          by simp [groupMessage, h]⟩
      | some comps =>
        simp only [configureResearchLoop, h1, h2] at h
        split at h
        · rename_i e he
          simp only [Option.some.injEq] at h
          subst h
          obtain ⟨f, hf, hr, hm⟩ := configureComponentsLoop_error ops hok _ _ comps _ e he
          exact Or.inr ⟨Group, List.mem_cons_self _ _, name, h1, f, by simp [h2, hf], hr, hm⟩
        · have hroot := (configureComponentsLoop_flags ops (s.RootPath_ ++ "/" ++ name) name
            comps { s with ResearchGroupKeys_ := s.ResearchGroupKeys_ ++ [name] }).1
          rcases ih _ _ m h with ⟨g, hg, hr, hm⟩ | ⟨g, hg, n, hn, f, hf, hr, hm⟩
          · exact Or.inl ⟨g, List.mem_cons_of_mem _ hg, hr, by rw [hm]; simp only [hroot]⟩
          · exact Or.inr ⟨g, List.mem_cons_of_mem _ hg, n, hn, f, hf, hr,
              by rw [hm]; simp only [hroot]⟩

/-- The Baseline part throws when `Baseline` is missing or holds a rejected block-config. -/
theorem configureBaseline_throws {B : Type} (ops : GenericFunction B) (c : Config)
    (s : SensorProcessing B)
    (h : c.Baseline = none ∨ ∃ Func ∈ c.Baseline.getD [], typeRejected Func = true) :
    (configureBaseline ops c s).error ≠ none := by
  unfold configureBaseline
  cases hB : c.Baseline with
  | none => simp
  | some bl =>
    simp only []
    rcases h with h | h
    · rw [hB] at h; exact absurd h (by simp)
    · rw [hB] at h
      have := configureBaselineLoop_throws ops (s.RootPath_ ++ "/" ++ "Baseline") bl h s
      split
      · simp
      · rename_i hn; exact absurd hn this

/-- The causes and messages of an exception of the Baseline part. -/
theorem configureBaseline_error {B : Type} (ops : GenericFunction B)
    (hok : blocksConfigure ops) (c : Config) (s : SensorProcessing B) (m : String)
    (h : (configureBaseline ops c s).error = some m) :
    (c.Baseline = none ∧ m = baselineMissingMessage s.RootPath_) ∨
      (∃ Func ∈ c.Baseline.getD [], typeRejected Func = true ∧
        m = blockMessage (s.RootPath_ ++ "/" ++ "Baseline") Func) := by
  unfold configureBaseline at h
  cases hB : c.Baseline with
  | none =>
    simp only [hB, Option.some.injEq] at h
    exact Or.inl ⟨rfl, by simp [baselineMissingMessage, h]⟩
  | some bl =>
    simp only [hB] at h
    split at h
    · rename_i e he
      simp only [Option.some.injEq] at h
      subst h
      exact Or.inr (configureBaselineLoop_error ops hok _ bl s e he)
    · simp at h

/-- The Research part throws when an entry is malformed or holds a rejected block-config. -/
theorem configureResearch_throws {B : Type} (ops : GenericFunction B) (c : Config)
    (s : SensorProcessing B) (okm : StdMap String)
    (h : ∃ Group ∈ c.Research.getD [], groupMalformed Group = true ∨
        ∃ Func ∈ Group.Components.getD [], typeRejected Func = true) :
    (configureResearch ops c s okm).error ≠ none := by
  unfold configureResearch
  cases hR : c.Research with
  | none => rw [hR] at h; simp at h
  | some rl =>
    rw [hR] at h
    exact configureResearchLoop_throws ops rl h s okm

/-- The causes and messages of an exception of the Research part. -/
theorem configureResearch_error {B : Type} (ops : GenericFunction B)
    (hok : blocksConfigure ops) (c : Config) (s : SensorProcessing B) (okm : StdMap String)
    (m : String) (h : (configureResearch ops c s okm).error = some m) :
    (∃ Group ∈ c.Research.getD [], groupMalformed Group = true ∧ m = groupMessage s.RootPath_) ∨
      (∃ Group ∈ c.Research.getD [], ∃ name, Group.GroupName = some name ∧
        ∃ Func ∈ Group.Components.getD [], typeRejected Func = true ∧
          m = blockMessage (s.RootPath_ ++ "/" ++ name) Func) := by
  unfold configureResearch at h
  cases hR : c.Research with
  | none => simp [hR] at h
  | some rl =>
    simp only [hR] at h
    exact configureResearchLoop_error ops hok rl s okm m h

/-- The results of the parts of `Configure` decide its result. -/
theorem Configure_error_eq {B : Type} (ops : GenericFunction B) (c : Config)
    (s : SensorProcessing B) :
    (Configure ops c s).error =
      match (configureBaseline ops c s).error with
      | some e => some e
      | none => (configureResearch ops c (configureBaseline ops c s).state
          (configureBaseline ops c s).OutputKeysMap).error := by
  unfold Configure
  cases h1 : (configureBaseline ops c s).error with
  | some e => simp only [h1]
  | none =>
    simp only [h1]
    cases h2 : (configureResearch ops c (configureBaseline ops c s).state
        (configureBaseline ops c s).OutputKeysMap).error with
    | some e => simp only [h2]
    | none => simp only [h2]

/-- The function `Configure` throws on every document with a cause of failure. -/
theorem Configure_throws {B : Type} (ops : GenericFunction B) (c : Config)
    (s : SensorProcessing B) (h : configInvalid c) : (Configure ops c s).error ≠ none := by
  rw [Configure_error_eq]
  split
  · simp
  · rename_i hn
    rcases h with h | h | h
    · exact absurd hn (configureBaseline_throws ops c s (Or.inl h))
    · exact absurd hn (configureBaseline_throws ops c s (Or.inr h))
    · exact configureResearch_throws ops c _ _ h

/-- The causes and messages of an exception of `Configure`, with blocks whose `Configure`
does not throw. -/
theorem Configure_error {B : Type} (ops : GenericFunction B) (hok : blocksConfigure ops)
    (c : Config) (s : SensorProcessing B) (m : String)
    (h : (Configure ops c s).error = some m) :
    (c.Baseline = none ∧ m = baselineMissingMessage s.RootPath_)
      ∨ (∃ Func ∈ c.Baseline.getD [], typeRejected Func = true ∧
          m = blockMessage (s.RootPath_ ++ "/" ++ "Baseline") Func)
      ∨ (∃ Group ∈ c.Research.getD [], ∃ name, Group.GroupName = some name ∧
          ∃ Func ∈ Group.Components.getD [], typeRejected Func = true ∧
            m = blockMessage (s.RootPath_ ++ "/" ++ name) Func)
      ∨ (∃ Group ∈ c.Research.getD [], groupMalformed Group = true ∧
          m = groupMessage s.RootPath_) := by
  rw [Configure_error_eq] at h
  split at h
  · rename_i e he
    simp only [Option.some.injEq] at h
    subst h
    rcases configureBaseline_error ops hok c s e he with h1 | h1
    · exact Or.inl h1
    · exact Or.inr (Or.inl h1)
  · have hroot := (configureBaseline_flags ops c s).1
    rcases configureResearch_error ops hok c _ _ m h with h1 | h1
    · rw [hroot] at h1
      exact Or.inr (Or.inr (Or.inr h1))
    · rw [hroot] at h1
      exact Or.inr (Or.inr (Or.inl h1))

/-- The `Configure` of the concrete blocks does not throw. -/
theorem demoBlocks_configure : blocksConfigure demoBlocks :=
  fun _ _ _ _ => rfl

/-- An exception of the Baseline part ends `Configure` in the state the part left. -/
theorem Configure_of_baseline_error {B : Type} (ops : GenericFunction B) (c : Config)
    (s : SensorProcessing B) (e : String) (h : (configureBaseline ops c s).error = some e) :
    (Configure ops c s).error = some e ∧
      (Configure ops c s).state = (configureBaseline ops c s).state := by
  simp [Configure, h]

/-- C7: for every document without a `Baseline` member, `Configure` on a fresh engine throws
the error "Baseline not specified in configuration." and constructs no block: the Baseline
vector, the map of research groups and the list of group names are empty, the engine is not
configured and the tree is untouched, whatever the `Research` section holds. -/
theorem C7_no_Baseline_fails_with_zero_blocks {B : Type} (ops : GenericFunction B)
    (c : Config) (dt : DefinitionTree2) (h : c.Baseline = none) :
    (Configure ops c (SensorProcessing.fresh B dt)).error
        = some "ERROR/Sensor-Processing: Baseline not specified in configuration."
      ∧ (Configure ops c (SensorProcessing.fresh B dt)).state.BaselineSensorProcessing_ = []
      ∧ (Configure ops c (SensorProcessing.fresh B dt)).state.ResearchSensorProcessingGroups_
          = []
      ∧ (∀ G, mapAt (Configure ops c
          (SensorProcessing.fresh B dt)).state.ResearchSensorProcessingGroups_ G = [])
      ∧ (Configure ops c (SensorProcessing.fresh B dt)).state.ResearchGroupKeys_ = []
      ∧ (Configure ops c (SensorProcessing.fresh B dt)).state.Configured_ = false
      ∧ (Configure ops c (SensorProcessing.fresh B dt)).state.deftree = dt := by
  have hb : configureBaseline ops c (SensorProcessing.fresh B dt) =
      ⟨SensorProcessing.fresh B dt, [],
        some "ERROR/Sensor-Processing: Baseline not specified in configuration."⟩ := by
    unfold configureBaseline
    rw [h]
    rfl
  obtain ⟨he, hs⟩ := Configure_of_baseline_error ops c (SensorProcessing.fresh B dt) _
    (by rw [hb])
  rw [he, hs, hb]
  exact ⟨rfl, rfl, rfl, fun _ => rfl, rfl, rfl, rfl⟩

/-- C7, witness: a document without `Baseline` whose `Research` section declares a group
with a block. -/
theorem C7_no_Baseline_fails_with_zero_blocks_witness :
    cfgNoBaseline.Baseline = none
      ∧ (Configure demoBlocks cfgNoBaseline
          (SensorProcessing.fresh (BlockKind × Nat) DefinitionTree2.empty)).error
        = some "ERROR/Sensor-Processing: Baseline not specified in configuration."
      ∧ (Configure demoBlocks cfgNoBaseline
          (SensorProcessing.fresh (BlockKind × Nat)
            DefinitionTree2.empty)).state.ResearchSensorProcessingGroups_ = [] :=
  ⟨rfl,
    (C7_no_Baseline_fails_with_zero_blocks demoBlocks cfgNoBaseline DefinitionTree2.empty
      rfl).1,
    (C7_no_Baseline_fails_with_zero_blocks demoBlocks cfgNoBaseline DefinitionTree2.empty
      rfl).2.2.1⟩

/-- Every key returned by `GetKeys` contains a `/`, so that `Key.rfind("/")` finds one -/
theorem GetKeys_mem_slash (dt : DefinitionTree2) (Name Key : String)
    (h : Key ∈ GetKeys dt Name) : '/' ∈ Key.data := by
  unfold GetKeys at h
  have hp := (List.mem_filter.mp h).2
  rw [List.isPrefixOf_iff_prefix] at hp
  obtain ⟨t, ht⟩ := hp
  rw [← ht]
  simp [String.data_append]

/-- C9: when the blocks' own `Configure` do not throw, `Configure` throws if and only if the
document has no `Baseline` member, or some block-config in `Baseline` or in a research group
has no `Type` or a `Type` outside the eleven identifiers, or some `Research` entry lacks
`Group-Name` or `Components`; in particular an unknown `Type` is never skipped. -/
theorem C9_Configure_fails_iff_document_invalid {B : Type} (ops : GenericFunction B)
    (hok : blocksConfigure ops) (c : Config) (s : SensorProcessing B) :
    (Configure ops c s).error ≠ none ↔ configInvalid c := by
  constructor
  · intro h
    cases hm : (Configure ops c s).error with
    | none => exact absurd hm h
    | some m =>
      rcases Configure_error ops hok c s m hm with h1 | ⟨f, hf, hr, _⟩ |
        ⟨g, hg, n, _, f, hf, hr, _⟩ | ⟨g, hg, hr, _⟩
      · exact Or.inl h1.1
      · exact Or.inr (Or.inl ⟨f, hf, hr⟩)
      · exact Or.inr (Or.inr ⟨g, hg, Or.inr ⟨f, hf, hr⟩⟩)
      · exact Or.inr (Or.inr ⟨g, hg, Or.inl hr⟩)
  · exact Configure_throws ops c s

/-- C9, witness: the undefined `Type` "Kalman" in a research group makes `Configure`
throw. -/
theorem C9_Configure_fails_iff_document_invalid_witness :
    blocksConfigure demoBlocks
      ∧ (Configure demoBlocks cfgUnknownType
          (SensorProcessing.fresh (BlockKind × Nat) DefinitionTree2.empty)).error
        = some "ERROR/Sensor-Processing/G: Type specified is not a defined type"
      ∧ configInvalid cfgUnknownType :=
  ⟨demoBlocks_configure, by decide,
    (C9_Configure_fails_iff_document_invalid demoBlocks demoBlocks_configure cfgUnknownType
      (SensorProcessing.fresh (BlockKind × Nat) DefinitionTree2.empty)).mp (by decide)⟩

/-- C10, counterexample: for a `Research` entry with `Group-Name` "G" and no `Components`
the message thrown is "ERROR/Sensor-Processing: Group name or components not specified in
configuration.", which does not contain the path `/Sensor-Processing/G` of the entry. -/
theorem C10_malformed_entry_message_lacks_entry_path :
    (Configure demoBlocks cfgNoComponents
        (SensorProcessing.fresh (BlockKind × Nat) DefinitionTree2.empty)).error
        = some
          "ERROR/Sensor-Processing: Group name or components not specified in configuration."
      ∧ ¬ names
          "ERROR/Sensor-Processing: Group name or components not specified in configuration."
          "/Sensor-Processing/G" := by
  decide

/-- C10, amended: when the blocks' own `Configure` do not throw, every error thrown by
`Configure` has one of four causes and names a path accordingly: for a rejected
block-config (missing or unknown `Type`) the message contains the root path of the group
that declares it, `RootPath_/Baseline` or `RootPath_/<Group-Name>`; for a missing `Baseline`
member and for a `Research` entry without `Group-Name` or `Components` the message contains
the root path `RootPath_` of the engine and is the same for every such entry. -/
theorem C10_messages_name_group_root_or_engine_root {B : Type} (ops : GenericFunction B)
    (hok : blocksConfigure ops) (c : Config) (s : SensorProcessing B) (m : String)
    (h : (Configure ops c s).error = some m) :
    (c.Baseline = none ∧ m = baselineMissingMessage s.RootPath_ ∧ names m s.RootPath_)
      ∨ (∃ Func ∈ c.Baseline.getD [], typeRejected Func = true ∧
          m = blockMessage (s.RootPath_ ++ "/" ++ "Baseline") Func ∧
          names m (s.RootPath_ ++ "/" ++ "Baseline"))
      ∨ (∃ Group ∈ c.Research.getD [], ∃ name, Group.GroupName = some name ∧
          ∃ Func ∈ Group.Components.getD [], typeRejected Func = true ∧
            m = blockMessage (s.RootPath_ ++ "/" ++ name) Func ∧
            names m (s.RootPath_ ++ "/" ++ name))
      ∨ (∃ Group ∈ c.Research.getD [], groupMalformed Group = true ∧
          m = groupMessage s.RootPath_ ∧ names m s.RootPath_) := by
  rcases Configure_error ops hok c s m h with ⟨h1, hm⟩ | ⟨f, hf, hr, hm⟩ |
    ⟨g, hg, n, hn, f, hf, hr, hm⟩ | ⟨g, hg, hr, hm⟩
  · exact Or.inl ⟨h1, hm, hm ▸ names_of_eq _ _ _⟩
  · exact Or.inr (Or.inl ⟨f, hf, hr, hm, hm ▸ names_blockMessage _ _⟩)
  · exact Or.inr (Or.inr (Or.inl ⟨g, hg, n, hn, f, hf, hr, hm, hm ▸ names_blockMessage _ _⟩))
  · exact Or.inr (Or.inr (Or.inr ⟨g, hg, hr, hm, hm ▸ names_of_eq _ _ _⟩))

/-- C10, witness: the message for the undefined `Type` "Kalman" in group "G" contains
`/Sensor-Processing/G`. -/
theorem C10_messages_name_group_root_or_engine_root_witness :
    (Configure demoBlocks cfgUnknownType
        (SensorProcessing.fresh (BlockKind × Nat) DefinitionTree2.empty)).error
        = some "ERROR/Sensor-Processing/G: Type specified is not a defined type"
      ∧ names "ERROR/Sensor-Processing/G: Type specified is not a defined type"
          "/Sensor-Processing/G"
      ∧ ((cfgUnknownType.Baseline = none ∧
            "ERROR/Sensor-Processing/G: Type specified is not a defined type"
              = baselineMissingMessage "/Sensor-Processing" ∧
            names "ERROR/Sensor-Processing/G: Type specified is not a defined type"
              "/Sensor-Processing")
          ∨ (∃ Func ∈ cfgUnknownType.Baseline.getD [], typeRejected Func = true ∧
              "ERROR/Sensor-Processing/G: Type specified is not a defined type"
                = blockMessage ("/Sensor-Processing" ++ "/" ++ "Baseline") Func ∧
              names "ERROR/Sensor-Processing/G: Type specified is not a defined type"
                ("/Sensor-Processing" ++ "/" ++ "Baseline"))
          ∨ (∃ Group ∈ cfgUnknownType.Research.getD [], ∃ name,
              Group.GroupName = some name ∧
              ∃ Func ∈ Group.Components.getD [], typeRejected Func = true ∧
                "ERROR/Sensor-Processing/G: Type specified is not a defined type"
                  = blockMessage ("/Sensor-Processing" ++ "/" ++ name) Func ∧
                names "ERROR/Sensor-Processing/G: Type specified is not a defined type"
                  ("/Sensor-Processing" ++ "/" ++ name))
          ∨ (∃ Group ∈ cfgUnknownType.Research.getD [], groupMalformed Group = true ∧
              "ERROR/Sensor-Processing/G: Type specified is not a defined type"
                = groupMessage "/Sensor-Processing" ∧
              names "ERROR/Sensor-Processing/G: Type specified is not a defined type"
                "/Sensor-Processing")) :=
  ⟨by decide, by decide,
    C10_messages_name_group_root_or_engine_root demoBlocks demoBlocks_configure cfgUnknownType
      (SensorProcessing.fresh (BlockKind × Nat) DefinitionTree2.empty)
      "ERROR/Sensor-Processing/G: Type specified is not a defined type" (by decide)⟩

/-! ## The bus and the cells -/

/-- Lookup of `k` after the assignment `m[k] = v`. -/
theorem mapFind_assign_self {V : Type} (m : StdMap V) (k : String) (v : V) :
    mapFind (mapAssign m k v) k = some v := by
  rw [mapFind_mapAssign]; simp

/-- On a bound path `getElement` returns the cell and leaves the tree as it is. -/
theorem getElement_bound (dt : DefinitionTree2) (name : String) (create : Bool) (p : Nat)
    (h : mapFind dt.data name = some p) : getElement dt name create = (some p, dt) := by
  simp [getElement, h]

/-- A write through a pointer keeps the number of cells. -/
theorem heapUpdate_length (f : Element → Element) (l : List Element) :
    ∀ p, (heapUpdate f p l).length = l.length := by
  induction l with
  | nil => intro p; cases p <;> rfl
  | cons e rest ih =>
    intro p
    cases p with
    | zero => rfl
    | succ n => simp [heapUpdate, ih]

/-- A write through a pointer changes the cell it points to. -/
theorem heapUpdate_get (f : Element → Element) (l : List Element) :
    ∀ p, (heapUpdate f p l).get? p = (l.get? p).map f := by
  induction l with
  | nil => intro p; cases p <;> rfl
  | cons e rest ih =>
    intro p
    cases p with
    | zero => rfl
    | succ n => simpa [heapUpdate] using ih n

/-- A write through a pointer leaves every other cell as it is. -/
theorem heapUpdate_get_other (f : Element → Element) (l : List Element) :
    ∀ p q, p ≠ q → (heapUpdate f p l).get? q = l.get? q := by
  induction l with
  | nil => intro p q _; cases p <;> rfl
  | cons e rest ih =>
    intro p q h
    cases p with
    | zero =>
      cases q with
      | zero => exact absurd rfl h
      | succ m => rfl
    | succ n =>
      cases q with
      | zero => rfl
      | succ m => simpa [heapUpdate] using ih n m (fun hh => h (by rw [hh]))

/-- Reading through `b` what was written through `a`, when both are bound to `p` -/
theorem getThrough_setThrough (dt : DefinitionTree2) (a b : String) (p : Nat)
    (ha : mapFind dt.data a = some p) (hb : mapFind dt.data b = some p)
    (hp : p < dt.heap.length) {T : Type} (f : Element → Element) (g : Element → T) :
    ∃ e, cellAt dt p = some e ∧ getThrough (setThrough dt a f) b g = some (g (f e)) := by
  have hget : dt.heap.get? p = some (dt.heap.get ⟨p, hp⟩) := List.get?_eq_get hp
  refine ⟨dt.heap.get ⟨p, hp⟩, hget, ?_⟩
  have h1 : setThrough dt a f = writeCell dt p f := by
    simp [setThrough, getElement_bound dt a true p ha]
  rw [h1]
  have h2 : mapFind (writeCell dt p f).data b = some p := hb
  have h3 : (writeCell dt p f).heap.get? p = some (f (dt.heap.get ⟨p, hp⟩)) := by
    show (heapUpdate f p dt.heap).get? p = _
    rw [heapUpdate_get, hget]
    rfl
  unfold getThrough
  rw [getElement_bound _ b true p h2]
  simp only [cellAt, h3]
  rfl

/-- C19: for every cell state and every `int` `v`, after `setInt(v)` the getters give
`getInt() = v`, `getLong() = v` and `getBool() = (v != 0)`; for every `bool` `b`, after
`setBool(b)` they give `getBool() = b` and `getInt() = getLong() = (b ? 1 : 0)`; the values
read do not depend on the state of the cell before the setter call. -/
theorem C19_getters_read_the_last_value_set (cv : Conversions) (e e2 : Element) (v : Int)
    (b : Bool) :
    (Element.setInt v e).getInt cv = v
      ∧ (Element.setInt v e).getLong cv = v
      ∧ (Element.setInt v e).getBool cv = decide (v ≠ 0)
      ∧ (Element.setBool b e).getBool cv = b
      ∧ (Element.setBool b e).getInt cv = (if b then 1 else 0)
      ∧ (Element.setBool b e).getLong cv = (if b then 1 else 0)
      ∧ (Element.setInt v e).getInt cv = (Element.setInt v e2).getInt cv
      ∧ (Element.setInt v e).getLong cv = (Element.setInt v e2).getLong cv
      ∧ (Element.setInt v e).getBool cv = (Element.setInt v e2).getBool cv
      ∧ (Element.setBool b e).getBool cv = (Element.setBool b e2).getBool cv
      ∧ (Element.setBool b e).getInt cv = (Element.setBool b e2).getInt cv
      ∧ (Element.setBool b e).getLong cv = (Element.setBool b e2).getLong cv :=
  ⟨rfl, rfl, rfl, rfl, rfl, rfl, rfl, rfl, rfl, rfl, rfl, rfl⟩

/-- C20: each of the five setters leaves `description`, `datalog` and `telemetry` unchanged;
`getLoggingType()` and `getTelemetryType()` return `datalog` and `telemetry` whatever the
tag and value of the cell are; both are `LOG_NONE` on a newly constructed cell. -/
theorem C20_setters_keep_the_metadata (e : Element) (b : Bool) (i l : Int) (f d : Nat)
    (v : ElementValue) :
    ((Element.setBool b e).description = e.description
        ∧ (Element.setBool b e).datalog = e.datalog
        ∧ (Element.setBool b e).telemetry = e.telemetry)
      ∧ ((Element.setInt i e).description = e.description
        ∧ (Element.setInt i e).datalog = e.datalog
        ∧ (Element.setInt i e).telemetry = e.telemetry)
      ∧ ((Element.setLong l e).description = e.description
        ∧ (Element.setLong l e).datalog = e.datalog
        ∧ (Element.setLong l e).telemetry = e.telemetry)
      ∧ ((Element.setFloat f e).description = e.description
        ∧ (Element.setFloat f e).datalog = e.datalog
        ∧ (Element.setFloat f e).telemetry = e.telemetry)
      ∧ ((Element.setDouble d e).description = e.description
        ∧ (Element.setDouble d e).datalog = e.datalog
        ∧ (Element.setDouble d e).telemetry = e.telemetry)
      ∧ ({ e with value := v }).getLoggingType = e.datalog
      ∧ ({ e with value := v }).getTelemetryType = e.telemetry
      ∧ (Element.new v).getLoggingType = log_tag_t.LOG_NONE
      ∧ (Element.new v).getTelemetryType = log_tag_t.LOG_NONE :=
  ⟨⟨rfl, rfl, rfl⟩, ⟨rfl, rfl, rfl⟩, ⟨rfl, rfl, rfl⟩, ⟨rfl, rfl, rfl⟩, ⟨rfl, rfl, rfl⟩,
    rfl, rfl, rfl, rfl⟩

/-- The alias of a bound path: the alias is bound to the same cell. -/
theorem makeAlias_bound (dt : DefinitionTree2) (a b : String) (p : Nat)
    (ha : mapFind dt.data a = some p) :
    makeAlias dt a b = (some p, { dt with data := mapAssign dt.data b p }) := by
  simp [makeAlias, ha]

/-- C15: after `makeAlias(a, b)` on a tree where `a` is bound to an existing cell, `a` and `b`
are bound to that same cell and no cell has been allocated; for every value and each of the
five setters, a value set through the cell looked up at `a` is returned by the matching
getter through the cell looked up at `b`, and the other way round. -/
theorem C15_alias_shares_the_cell (cv : Conversions) (zeroBits : Nat) (dt : DefinitionTree2)
    (a b : String) (p : Nat) (ha : mapFind dt.data a = some p) (hp : p < dt.heap.length) :
    (getElement (makeAlias dt a b).2 a true).1 = some p
      ∧ (getElement (makeAlias dt a b).2 b true).1 = some p
      ∧ (makeAlias dt a b).2.heap = dt.heap
      ∧ (∀ v : Int,
          getThrough (setThrough (makeAlias dt a b).2 a (Element.setInt v)) b
              (Element.getInt cv) = some v
          ∧ getThrough (setThrough (makeAlias dt a b).2 b (Element.setInt v)) a
              (Element.getInt cv) = some v)
      ∧ (∀ v : Bool,
          getThrough (setThrough (makeAlias dt a b).2 a (Element.setBool v)) b
              (Element.getBool cv) = some v
          ∧ getThrough (setThrough (makeAlias dt a b).2 b (Element.setBool v)) a
              (Element.getBool cv) = some v)
      ∧ (∀ v : Int,
          getThrough (setThrough (makeAlias dt a b).2 a (Element.setLong v)) b
              (Element.getLong cv) = some v
          ∧ getThrough (setThrough (makeAlias dt a b).2 b (Element.setLong v)) a
              (Element.getLong cv) = some v)
      ∧ (∀ v : Nat,
          getThrough (setThrough (makeAlias dt a b).2 a (Element.setFloat v)) b
              (Element.getFloat cv zeroBits) = some v
          ∧ getThrough (setThrough (makeAlias dt a b).2 b (Element.setFloat v)) a
              (Element.getFloat cv zeroBits) = some v)
      ∧ (∀ v : Nat,
          getThrough (setThrough (makeAlias dt a b).2 a (Element.setDouble v)) b
              (Element.getDouble cv zeroBits) = some v
          ∧ getThrough (setThrough (makeAlias dt a b).2 b (Element.setDouble v)) a
              (Element.getDouble cv zeroBits) = some v) := by
  rw [makeAlias_bound dt a b p ha]
  have hb2 : mapFind (mapAssign dt.data b p) b = some p := mapFind_assign_self _ _ _
  have ha2 : mapFind (mapAssign dt.data b p) a = some p := by
    rw [mapFind_mapAssign]
    by_cases h : b = a <;> simp [h, ha]
  have key : ∀ {T : Type} (f : Element → Element) (g : Element → T) (x y : String),
      mapFind (mapAssign dt.data b p) x = some p → mapFind (mapAssign dt.data b p) y = some p →
      ∃ e, getThrough (setThrough { dt with data := mapAssign dt.data b p } x f) y g
        = some (g (f e)) := by
    intro T f g x y hx hy
    obtain ⟨e, _, he⟩ := getThrough_setThrough { dt with data := mapAssign dt.data b p }
      x y p hx hy hp f g
    exact ⟨e, he⟩
  refine ⟨by rw [getElement_bound _ a true p ha2], by rw [getElement_bound _ b true p hb2],
    rfl, ?_, ?_, ?_, ?_, ?_⟩
  · intro v
    obtain ⟨e1, h1⟩ := key (Element.setInt v) (Element.getInt cv) a b ha2 hb2
    obtain ⟨e2, h2⟩ := key (Element.setInt v) (Element.getInt cv) b a hb2 ha2
    exact ⟨h1, h2⟩
  · intro v
    obtain ⟨e1, h1⟩ := key (Element.setBool v) (Element.getBool cv) a b ha2 hb2
    obtain ⟨e2, h2⟩ := key (Element.setBool v) (Element.getBool cv) b a hb2 ha2
    exact ⟨h1, h2⟩
  · intro v
    obtain ⟨e1, h1⟩ := key (Element.setLong v) (Element.getLong cv) a b ha2 hb2
    obtain ⟨e2, h2⟩ := key (Element.setLong v) (Element.getLong cv) b a hb2 ha2
    exact ⟨h1, h2⟩
  · intro v
    obtain ⟨e1, h1⟩ := key (Element.setFloat v) (Element.getFloat cv zeroBits) a b ha2 hb2
    obtain ⟨e2, h2⟩ := key (Element.setFloat v) (Element.getFloat cv zeroBits) b a hb2 ha2
    exact ⟨h1, h2⟩
  · intro v
    obtain ⟨e1, h1⟩ := key (Element.setDouble v) (Element.getDouble cv zeroBits) a b ha2 hb2
    obtain ⟨e2, h2⟩ := key (Element.setDouble v) (Element.getDouble cv zeroBits) b a hb2 ha2
    exact ⟨h1, h2⟩

/-- C18: for a path absent from the tree, `getElement(path, true)` returns a pointer to a new
cell (no cell existing before is changed), binds the path to it, and the cell is the
default cell, with tag integer and value 0: `getInt()`, `getLong()` and `getBool()` read
through the path give 0, 0 and false. -/
theorem C18_getElement_creates_a_default_cell (cv : Conversions) (dt : DefinitionTree2)
    (path : String) (h : mapFind dt.data path = none) :
    (getElement dt path true).1 = some dt.heap.length
      ∧ mapFind (getElement dt path true).2.data path = some dt.heap.length
      ∧ (∀ q, q < dt.heap.length → cellAt (getElement dt path true).2 q = cellAt dt q)
      ∧ cellAt (getElement dt path true).2 dt.heap.length = some Element.fresh
      ∧ Element.fresh.value = ElementValue.INT 0
      ∧ getThrough (getElement dt path true).2 path (Element.getInt cv) = some 0
      ∧ getThrough (getElement dt path true).2 path (Element.getLong cv) = some 0
      ∧ getThrough (getElement dt path true).2 path (Element.getBool cv) = some false := by
  have hg : getElement dt path true = (some dt.heap.length,
      { data := mapAssign dt.data path dt.heap.length, heap := dt.heap ++ [Element.fresh] }) := by
    simp [getElement, h]
  have hb : mapFind (mapAssign dt.data path dt.heap.length) path = some dt.heap.length :=
    mapFind_assign_self _ _ _
  have hc : (dt.heap ++ [Element.fresh]).get? dt.heap.length = some Element.fresh := by
    simp
  rw [hg]
  refine ⟨rfl, hb, ?_, hc, rfl, ?_, ?_, ?_⟩
  · intro q hq
    simp only [cellAt]
    simp [List.getElem?_append_left hq]
  all_goals
    unfold getThrough
    rw [getElement_bound _ path true dt.heap.length hb]
    simp only [cellAt, hc]
    rfl

/-- C18, witness: on the empty tree, the cell created for `/Sensors/Ias` reads 0. -/
theorem C18_getElement_creates_a_default_cell_witness :
    mapFind DefinitionTree2.empty.data "/Sensors/Ias" = none
      ∧ getThrough (getElement DefinitionTree2.empty "/Sensors/Ias" true).2 "/Sensors/Ias"
          (Element.getInt demoConversions) = some 0 :=
  ⟨rfl,
    (C18_getElement_creates_a_default_cell demoConversions
      DefinitionTree2.empty "/Sensors/Ias" rfl).2.2.2.2.2.1⟩

/-- The order of the keys is irreflexive. -/
theorem keyLt_irrefl : ∀ a : List Char, keyLt a a = false := by
  intro a
  induction a with
  | nil => rfl
  | cons c cs ih => simp [keyLt, ih]

/-- The order of the keys is transitive. -/
theorem keyLt_trans : ∀ a b c : List Char, keyLt a b = true → keyLt b c = true →
    keyLt a c = true := by
  intro a
  induction a with
  | nil =>
    intro b c hab hbc
    cases b with
    | nil => simp [keyLt] at hab
    | cons y ys =>
      cases c with
      | nil => simp [keyLt] at hbc
      | cons z zs => rfl
  | cons x xs ih =>
    intro b c hab hbc
    cases b with
    | nil => simp [keyLt] at hab
    | cons y ys =>
      cases c with
      | nil => simp [keyLt] at hbc
      | cons z zs =>
        simp only [keyLt] at hab hbc ⊢
        have hxy : x < y ∨ (x = y ∧ keyLt xs ys = true) := by
          by_cases h1 : x.val < y.val
          · exact Or.inl h1
          · by_cases h2 : y.val < x.val
            · simp [h1, h2] at hab
            · simp only [h1, h2, if_false] at hab
              exact Or.inr ⟨le_antisymm (not_lt.mp h2) (not_lt.mp h1), hab⟩
        have hyz : y < z ∨ (y = z ∧ keyLt ys zs = true) := by
          by_cases h1 : y.val < z.val
          · exact Or.inl h1
          · by_cases h2 : z.val < y.val
            · simp [h1, h2] at hbc
            · simp only [h1, h2, if_false] at hbc
              exact Or.inr ⟨le_antisymm (not_lt.mp h2) (not_lt.mp h1), hbc⟩
        rcases hxy with hxy | ⟨rfl, hxs⟩
        · rcases hyz with hyz | ⟨rfl, _⟩
          · have : x.val < z.val := lt_trans hxy hyz
            simp [this]
          · have : x.val < y.val := hxy
            simp [this]
        · rcases hyz with hyz | ⟨rfl, hys⟩
          · have : x.val < z.val := hyz
            simp [this]
          · have h1 : ¬ x.val < x.val := (lt_irrefl x : ¬ x < x)
            simp only [h1, if_false]
            exact ih ys zs hxs hys

/-- The order of the keys is total. -/
theorem keyLt_total : ∀ a b : List Char, keyLt a b = false → a ≠ b → keyLt b a = true := by
  intro a
  induction a with
  | nil =>
    intro b hab hne
    cases b with
    | nil => exact absurd rfl hne
    | cons y ys => simp [keyLt] at hab
  | cons x xs ih =>
    intro b hab hne
    cases b with
    | nil => rfl
    | cons y ys =>
      simp only [keyLt] at hab ⊢
      by_cases h1 : x.val < y.val
      · simp [h1] at hab
      · by_cases h2 : y.val < x.val
        · simp [h2]
        · simp only [h1, h2, if_false] at hab ⊢
          have hxy : x = y := le_antisymm (not_lt.mp h2) (not_lt.mp h1)
          subst hxy
          exact ih ys hab (fun h => hne (by rw [h]))

/-- The keys of a map after the assignment `m[k] = v`. -/
theorem mem_keys_mapAssign {V : Type} (m : StdMap V) (k : String) (v : V) (x : String) :
    x ∈ (mapAssign m k v).map Prod.fst ↔ x = k ∨ x ∈ m.map Prod.fst := by
  induction m with
  | nil => simp [mapAssign]
  | cons hd tl ih =>
    obtain ⟨k1, v1⟩ := hd
    simp only [mapAssign]
    by_cases h1 : k1 = k
    · subst h1
      simp
    · simp only [h1, if_false]
      by_cases h2 : keyLt k.data k1.data = true
      · simp [h2]
      · simp only [h2, List.map_cons, List.mem_cons, ih]
        simp only [Bool.false_eq_true, if_false, List.map_cons, List.mem_cons, ih]
        tauto

/-- The assignment `m[k] = v` keeps the keys strictly increasing. -/
theorem mapAssign_sorted {V : Type} (m : StdMap V) (k : String) (v : V)
    (h : keysSorted m) : keysSorted (mapAssign m k v) := by
  induction m with
  | nil => simp [mapAssign, keysSorted]
  | cons hd tl ih =>
    obtain ⟨k1, v1⟩ := hd
    unfold keysSorted at h ih ⊢
    simp only [List.map_cons, List.pairwise_cons] at h
    simp only [mapAssign]
    by_cases h1 : k1 = k
    · subst h1
      simp only [if_true, List.map_cons, List.pairwise_cons]
      exact h
    · simp only [h1, if_false]
      by_cases h2 : keyLt k.data k1.data = true
      · simp only [h2, if_true, List.map_cons, List.pairwise_cons]
        refine ⟨?_, h⟩
        intro x hx
        rcases List.mem_cons.mp hx with rfl | hx
        · exact h2
        · exact keyLt_trans _ _ _ h2 (h.1 x hx)
      · simp only [h2, Bool.false_eq_true, if_false, List.map_cons, List.pairwise_cons]
        refine ⟨?_, ih h.2⟩
        intro x hx
        rcases (mem_keys_mapAssign tl k v x).mp hx with rfl | hx
        · have hne : x.data ≠ k1.data := fun hd => h1 (String.ext hd.symm)
          exact keyLt_total _ _ (by simpa using h2) hne
        · exact h.1 x hx

/-- An operation of the tree keeps its paths strictly increasing. -/
theorem busStep_sorted (dt : DefinitionTree2) (op : BusOp) (h : keysSorted dt.data) :
    keysSorted (busStep dt op).data := by
  cases op with
  | initElement n d lg tl =>
    simp only [busStep, initElement]
    cases mapFind dt.data n with
    | some q => exact h
    | none => exact mapAssign_sorted _ _ _ h
  | getElement n c =>
    simp only [busStep, getElement]
    cases mapFind dt.data n with
    | some q => exact h
    | none =>
      cases c with
      | false => exact h
      | true => exact mapAssign_sorted _ _ _ h
  | makeAlias o al =>
    simp only [busStep, makeAlias]
    cases mapFind dt.data o with
    | some q => exact mapAssign_sorted _ _ _ h
    | none => exact h
  | Erase n =>
    simp only [busStep, Erase]
    exact List.Pairwise.sublist (List.Sublist.map Prod.fst (List.filter_sublist _)) h
  | write q f => exact h

/-- A sequence of operations of the tree keeps its paths strictly increasing. -/
theorem busRun_sorted (l : List BusOp) :
    ∀ dt : DefinitionTree2, keysSorted dt.data → keysSorted (busRun dt l).data := by
  induction l with
  | nil => intro dt h; exact h
  | cons op rest ih => intro dt h; exact ih _ (busStep_sorted dt op h)

/-- The keys of a map are the paths on which lookup succeeds. -/
theorem mem_keys_iff {V : Type} (m : StdMap V) (x : String) :
    x ∈ m.map Prod.fst ↔ mapFind m x ≠ none := by
  induction m with
  | nil => simp [mapFind]
  | cons hd tl ih =>
    obtain ⟨k1, v1⟩ := hd
    simp only [List.map_cons, List.mem_cons, mapFind]
    by_cases h : k1 = x
    · simp [h]
    · have h2 : ¬ x = k1 := fun hh => h hh.symm
      simp [h, h2, ih]

/-- The paths returned by `GetKeys`. -/
theorem mem_GetKeys (dt : DefinitionTree2) (Name x : String) :
    x ∈ GetKeys dt Name ↔ mapFind dt.data x ≠ none ∧ (Name ++ "/").data <+: x.data := by
  unfold GetKeys
  rw [List.mem_filter, mem_keys_iff, List.isPrefixOf_iff_prefix]

/-- C17, counterexample: `/P/b` is registered before `/P/a`; `GetKeys("/P")` lists `/P/a`
before `/P/b`. -/
theorem C17_GetKeys_ignores_registration_order :
    GetKeys (busRun DefinitionTree2.empty
        [BusOp.initElement "/P/b" "" log_tag_t.LOG_NONE log_tag_t.LOG_NONE]) "/P" = ["/P/b"]
      ∧ GetKeys (busRun DefinitionTree2.empty
        [BusOp.initElement "/P/b" "" log_tag_t.LOG_NONE log_tag_t.LOG_NONE,
          BusOp.initElement "/P/a" "" log_tag_t.LOG_NONE log_tag_t.LOG_NONE]) "/P"
        = ["/P/a", "/P/b"] := by
  decide

/-- C17, amended: on every tree built from the empty one by operations of the tree, `GetKeys(Name)`
returns every registered path that starts with `Name` + "/" and no other path, in strictly
increasing lexicographic order of the paths (the iteration order of the `std::map`),
whatever the order of registration. -/
theorem C17_GetKeys_lists_matching_paths_in_key_order (l : List BusOp) (Name : String) :
    (∀ x, x ∈ GetKeys (busRun DefinitionTree2.empty l) Name ↔
        mapFind (busRun DefinitionTree2.empty l).data x ≠ none ∧
          (Name ++ "/").data <+: x.data)
      ∧ (GetKeys (busRun DefinitionTree2.empty l) Name).Pairwise
          (fun x y => keyLt x.data y.data = true) := by
  refine ⟨fun x => mem_GetKeys _ _ _, ?_⟩
  have hs := busRun_sorted l DefinitionTree2.empty (by simp [keysSorted, DefinitionTree2.empty])
  unfold GetKeys
  exact List.Pairwise.filter _ hs

/-! ## The blocks built and the flag `Configured_` -/

/-- The relation `sameBlocks` is reflexive. -/
theorem sameBlocks_refl {B : Type} (s : SensorProcessing B) : sameBlocks s s :=
  ⟨rfl, rfl, rfl, rfl, rfl⟩

/-- The relation `sameBlocks` is transitive. -/
theorem sameBlocks_trans {B : Type} {s t u : SensorProcessing B} (h1 : sameBlocks s t)
    (h2 : sameBlocks t u) : sameBlocks s u :=
  ⟨h2.1.trans h1.1, h2.2.1.trans h1.2.1, h2.2.2.1.trans h1.2.2.1,
    h2.2.2.2.1.trans h1.2.2.2.1, h2.2.2.2.2.trans h1.2.2.2.2⟩

/-- The alias loop over the Baseline keys, as a fold of `aliasStep` on the tree and the
table. -/
theorem aliasBaselineKeys_view {B : Type} (OutputKey : String) (l : List String) :
    ∀ s : SensorProcessing B,
      sameBlocks s (aliasBaselineKeys OutputKey l s)
        ∧ aliasView (aliasBaselineKeys OutputKey l s)
            = l.foldl (aliasStep OutputKey) (aliasView s) := by
  induction l with
  | nil => intro s; exact ⟨sameBlocks_refl s, rfl⟩
  | cons Key rest ih =>
    intro s
    by_cases hm : substrRfind Key = substrRfind OutputKey
    · cases he : (getElement s.deftree Key true).1 with
      | some p =>
        have hd : aliasBaselineKeys OutputKey (Key :: rest) s =
            aliasBaselineKeys OutputKey rest { s with
              BaselineDataPtr_ := mapAssign s.BaselineDataPtr_ (substrRfind Key)
                (getElement s.deftree Key true).1,
              OutputData_ := mapAssign s.OutputData_ (substrRfind Key)
                (getElement s.deftree Key true).1,
              deftree := (makeAlias (getElement s.deftree Key true).2 Key OutputKey).2 } := by
          simp only [aliasBaselineKeys, hm, if_true, he]
        have hs : aliasStep OutputKey (aliasView s) Key =
            ((makeAlias (getElement s.deftree Key true).2 Key OutputKey).2,
              mapAssign s.OutputData_ (substrRfind Key) (getElement s.deftree Key true).1) := by
          simp only [aliasStep, aliasView, hm, if_true, he]
        rw [hd, List.foldl_cons, hs]
        obtain ⟨i1, i2⟩ := ih { s with
          BaselineDataPtr_ := mapAssign s.BaselineDataPtr_ (substrRfind Key)
            (getElement s.deftree Key true).1,
          OutputData_ := mapAssign s.OutputData_ (substrRfind Key)
            (getElement s.deftree Key true).1,
          deftree := (makeAlias (getElement s.deftree Key true).2 Key OutputKey).2 }
        exact ⟨sameBlocks_trans ⟨rfl, rfl, rfl, rfl, rfl⟩ i1, i2⟩
      | none =>
        have hd : aliasBaselineKeys OutputKey (Key :: rest) s =
            aliasBaselineKeys OutputKey rest { s with
              BaselineDataPtr_ := mapAssign s.BaselineDataPtr_ (substrRfind Key)
                (getElement s.deftree Key true).1,
              deftree := (getElement s.deftree Key true).2 } := by
          simp only [aliasBaselineKeys, hm, if_true, he]
        have hs : aliasStep OutputKey (aliasView s) Key =
            ((getElement s.deftree Key true).2, s.OutputData_) := by
          simp only [aliasStep, aliasView, hm, if_true, he]
        rw [hd, List.foldl_cons, hs]
        obtain ⟨i1, i2⟩ := ih { s with
          BaselineDataPtr_ := mapAssign s.BaselineDataPtr_ (substrRfind Key)
            (getElement s.deftree Key true).1,
          deftree := (getElement s.deftree Key true).2 }
        exact ⟨sameBlocks_trans ⟨rfl, rfl, rfl, rfl, rfl⟩ i1, i2⟩
    · have hd : aliasBaselineKeys OutputKey (Key :: rest) s =
          aliasBaselineKeys OutputKey rest s := by
        simp only [aliasBaselineKeys, hm, if_false]
      have hs : aliasStep OutputKey (aliasView s) Key = aliasView s := by
        simp only [aliasStep, hm, if_false]
      rw [hd, List.foldl_cons, hs]
      exact ih s

/-- The alias loop over the keys of a group, as a fold of `aliasStep` on the tree and the
table. -/
theorem aliasResearchKeys_view {B : Type} (OutputKey GroupKey : String) (l : List String) :
    ∀ s : SensorProcessing B,
      sameBlocks s (aliasResearchKeys OutputKey GroupKey l s)
        ∧ aliasView (aliasResearchKeys OutputKey GroupKey l s)
            = l.foldl (aliasStep OutputKey) (aliasView s) := by
  induction l with
  | nil => intro s; exact ⟨sameBlocks_refl s, rfl⟩
  | cons Key rest ih =>
    intro s
    by_cases hm : substrRfind Key = substrRfind OutputKey
    · cases he : (getElement s.deftree Key true).1 with
      | some p =>
        have hd : aliasResearchKeys OutputKey GroupKey (Key :: rest) s =
            aliasResearchKeys OutputKey GroupKey rest { s with
              ResearchDataPtr_ := mapAssign s.ResearchDataPtr_ GroupKey
                (mapAssign (mapAt s.ResearchDataPtr_ GroupKey) (substrRfind Key)
                  (getElement s.deftree Key true).1),
              OutputData_ := mapAssign s.OutputData_ (substrRfind Key)
                (getElement s.deftree Key true).1,
              deftree := (makeAlias (getElement s.deftree Key true).2 Key OutputKey).2 } := by
          simp only [aliasResearchKeys, hm, if_true, he]
        have hs : aliasStep OutputKey (aliasView s) Key =
            ((makeAlias (getElement s.deftree Key true).2 Key OutputKey).2,
              mapAssign s.OutputData_ (substrRfind Key) (getElement s.deftree Key true).1) := by
          simp only [aliasStep, aliasView, hm, if_true, he]
        rw [hd, List.foldl_cons, hs]
        obtain ⟨i1, i2⟩ := ih { s with
          ResearchDataPtr_ := mapAssign s.ResearchDataPtr_ GroupKey
            (mapAssign (mapAt s.ResearchDataPtr_ GroupKey) (substrRfind Key)
              (getElement s.deftree Key true).1),
          OutputData_ := mapAssign s.OutputData_ (substrRfind Key)
            (getElement s.deftree Key true).1,
          deftree := (makeAlias (getElement s.deftree Key true).2 Key OutputKey).2 }
        exact ⟨sameBlocks_trans ⟨rfl, rfl, rfl, rfl, rfl⟩ i1, i2⟩
      | none =>
        have hd : aliasResearchKeys OutputKey GroupKey (Key :: rest) s =
            aliasResearchKeys OutputKey GroupKey rest { s with
              ResearchDataPtr_ := mapAssign s.ResearchDataPtr_ GroupKey
                (mapAssign (mapAt s.ResearchDataPtr_ GroupKey) (substrRfind Key)
                  (getElement s.deftree Key true).1),
              deftree := (getElement s.deftree Key true).2 } := by
          simp only [aliasResearchKeys, hm, if_true, he]
        have hs : aliasStep OutputKey (aliasView s) Key =
            ((getElement s.deftree Key true).2, s.OutputData_) := by
          simp only [aliasStep, aliasView, hm, if_true, he]
        rw [hd, List.foldl_cons, hs]
        obtain ⟨i1, i2⟩ := ih { s with
          ResearchDataPtr_ := mapAssign s.ResearchDataPtr_ GroupKey
            (mapAssign (mapAt s.ResearchDataPtr_ GroupKey) (substrRfind Key)
              (getElement s.deftree Key true).1),
          deftree := (getElement s.deftree Key true).2 }
        exact ⟨sameBlocks_trans ⟨rfl, rfl, rfl, rfl, rfl⟩ i1, i2⟩
    · have hd : aliasResearchKeys OutputKey GroupKey (Key :: rest) s =
          aliasResearchKeys OutputKey GroupKey rest s := by
        simp only [aliasResearchKeys, hm, if_false]
      have hs : aliasStep OutputKey (aliasView s) Key = aliasView s := by
        simp only [aliasStep, hm, if_false]
      rw [hd, List.foldl_cons, hs]
      exact ih s

/-- The alias loop over the groups, as a fold of `aliasStep` over the keys of the groups. -/
theorem aliasResearchGroups_view {B : Type} (OutputKey : String) (l : List String) :
    ∀ s : SensorProcessing B,
      sameBlocks s (aliasResearchGroups OutputKey l s)
        ∧ aliasView (aliasResearchGroups OutputKey l s)
            = (l.flatMap (fun G => mapAt s.ResearchDataKeys_ G)).foldl (aliasStep OutputKey)
                (aliasView s) := by
  induction l with
  | nil => intro s; exact ⟨sameBlocks_refl s, rfl⟩
  | cons G rest ih =>
    intro s
    obtain ⟨k1, k2⟩ := aliasResearchKeys_view OutputKey G (mapAt s.ResearchDataKeys_ G) s
    obtain ⟨i1, i2⟩ := ih (aliasResearchKeys OutputKey G (mapAt s.ResearchDataKeys_ G) s)
    simp only [aliasResearchGroups, List.flatMap_cons, List.foldl_append]
    refine ⟨sameBlocks_trans k1 i1, ?_⟩
    rw [i2, k2, k1.2.2.2.2]

/-- The alias resolution, as a fold of the scans of the harvested keys over the output keys.
-/
theorem resolveAliases_view {B : Type} (outs : List String) :
    ∀ s : SensorProcessing B,
      sameBlocks s (resolveAliases outs s)
        ∧ aliasView (resolveAliases outs s)
            = outs.foldl (aliasScan (scanKeys s)) (aliasView s) := by
  induction outs with
  | nil => intro s; exact ⟨sameBlocks_refl s, rfl⟩
  | cons O rest ih =>
    intro s
    obtain ⟨b1, b2⟩ := aliasBaselineKeys_view O s.BaselineDataKeys_ s
    obtain ⟨g1, g2⟩ := aliasResearchGroups_view O s.ResearchGroupKeys_
      (aliasBaselineKeys O s.BaselineDataKeys_ s)
    obtain ⟨i1, i2⟩ := ih (aliasResearchGroups O s.ResearchGroupKeys_
      (aliasBaselineKeys O s.BaselineDataKeys_ s))
    have hsb := sameBlocks_trans b1 g1
    simp only [resolveAliases, List.foldl_cons]
    refine ⟨sameBlocks_trans hsb i1, ?_⟩
    have hk : scanKeys (aliasResearchGroups O s.ResearchGroupKeys_
        (aliasBaselineKeys O s.BaselineDataKeys_ s)) = scanKeys s := by
      simp only [scanKeys, hsb.2.2.1, hsb.2.2.2.1, hsb.2.2.2.2]
    rw [i2, hk, g2, b2, b1.2.2.2.2]
    simp only [aliasScan, scanKeys, List.foldl_append]

/-- A call of `Configure` that returns normally went through its three parts -/
theorem Configure_of_success {B : Type} (ops : GenericFunction B) (c : Config)
    (s : SensorProcessing B) (h : (Configure ops c s).error = none) :
    (configureBaseline ops c s).error = none
      ∧ (configureResearch ops c (configureBaseline ops c s).state
          (configureBaseline ops c s).OutputKeysMap).error = none
      ∧ (Configure ops c s).state =
          { resolveAliases
              ((configureResearch ops c (configureBaseline ops c s).state
                (configureBaseline ops c s).OutputKeysMap).OutputKeysMap.map Prod.snd)
              (configureResearch ops c (configureBaseline ops c s).state
                (configureBaseline ops c s).OutputKeysMap).state with
            Configured_ := true } := by
  rw [Configure_error_eq] at h
  cases h1 : (configureBaseline ops c s).error with
  | some e => rw [h1] at h; exact absurd h (by simp)
  | none =>
    rw [h1] at h
    simp only at h
    refine ⟨rfl, h, ?_⟩
    unfold Configure
    simp only [h1, h]

/-- A call of `Initialized` leaves `Configured_` as it is. -/
theorem Initialized_Configured {B : Type} (ops : GenericFunction B) (s : SensorProcessing B) :
    (Initialized ops s).state.Configured_ = s.Configured_ := by
  unfold Initialized
  split
  · rfl
  · simp only
    split <;> rfl

/-- A call of `Configure` that returns normally sets `Configured_`. -/
theorem Configure_success_Configured {B : Type} (ops : GenericFunction B) (c : Config)
    (s : SensorProcessing B) (h : (Configure ops c s).error = none) :
    (Configure ops c s).state.Configured_ = true := by
  rw [(Configure_of_success ops c s h).2.2]

/-- Every other member function leaves `Configured_` as it is; `Configure` sets it only when
it returns normally. -/
theorem step_Configured {B : Type} (ops : GenericFunction B) (s : SensorProcessing B) (o : Op)
    (h : (step ops s o).Configured_ = true) :
    s.Configured_ = true ∨ ∃ c, o = Op.Configure c ∧ (Configure ops c s).error = none := by
  cases o with
  | Configure c =>
    cases he : (Configure ops c s).error with
    | none => exact Or.inr ⟨c, rfl, he⟩
    | some e =>
      left
      rw [← (Configure_frame ops c s).2.2.2 (by rw [he]; simp)]
      exact h
  | Configured => exact Or.inl h
  | Initialized => left; rw [← Initialized_Configured ops s]; exact h
  | SetEngagedSensorProcessing n => exact Or.inl h
  | Run => left; rw [← (Run_frame ops s).2.1]; exact h

/-- A sequence of calls made after another. -/
theorem stepAll_append {B : Type} (ops : GenericFunction B) (s : SensorProcessing B)
    (l1 l2 : List Op) : stepAll ops s (l1 ++ l2) = stepAll ops (stepAll ops s l1) l2 := by
  simp [stepAll, List.foldl_append]

/-- From an engine that is not configured, `Configured_` becomes true only through a
`Configure` call that returns normally. -/
theorem stepAll_Configured {B : Type} (ops : GenericFunction B) (s : SensorProcessing B)
    (hs : s.Configured_ = false) (l : List Op) :
    (stepAll ops s l).Configured_ = true →
      ∃ l1 c l2, l = l1 ++ Op.Configure c :: l2 ∧
        (Configure ops c (stepAll ops s l1)).error = none := by
  induction l using List.reverseRecOn with
  | nil => intro h; rw [show stepAll ops s [] = s from rfl, hs] at h; exact absurd h (by simp)
  | append_singleton l o ih =>
    intro h
    rw [stepAll_append] at h
    rcases step_Configured ops (stepAll ops s l) o h with h1 | ⟨c, rfl, hc⟩
    · obtain ⟨l1, c, l2, hl, hc⟩ := ih h1
      exact ⟨l1, c, l2 ++ [o], by rw [hl]; simp, hc⟩
    · exact ⟨l, c, [], rfl, hc⟩

/-- C14, counterexample: on an engine that a first `Configure` has configured, a second
`Configure` with a document without `Baseline` throws, and `Configured()` still returns
true after it. -/
theorem C14_Configured_stays_true_after_a_failed_Configure :
    (Configure demoBlocks cfgTwoGroups
        (SensorProcessing.fresh (BlockKind × Nat) DefinitionTree2.empty)).error = none
      ∧ (Configure demoBlocks cfgNoBaseline
          (Configure demoBlocks cfgTwoGroups
            (SensorProcessing.fresh (BlockKind × Nat) DefinitionTree2.empty)).state).error
        = some "ERROR/Sensor-Processing: Baseline not specified in configuration."
      ∧ Configured (Configure demoBlocks cfgNoBaseline
          (Configure demoBlocks cfgTwoGroups
            (SensorProcessing.fresh (BlockKind × Nat) DefinitionTree2.empty)).state).state
        = true := by
  decide

/-- C14, amended: `Configured()` is true after every `Configure` call that returned normally;
a `Configure` call that threw leaves it as it was before the call; it is false on a fresh
engine; and after any sequence of calls of the member functions on a fresh engine it is
true only if some `Configure` call of the sequence returned normally. -/
theorem C14_Configured_follows_the_completed_Configure {B : Type} (ops : GenericFunction B) :
    (∀ (c : Config) (s : SensorProcessing B), (Configure ops c s).error = none →
        Configured (Configure ops c s).state = true)
      ∧ (∀ (c : Config) (s : SensorProcessing B), (Configure ops c s).error ≠ none →
        Configured (Configure ops c s).state = Configured s)
      ∧ (∀ dt : DefinitionTree2, Configured (SensorProcessing.fresh B dt) = false)
      ∧ (∀ (dt : DefinitionTree2) (l : List Op),
          Configured (stepAll ops (SensorProcessing.fresh B dt) l) = true →
          ∃ l1 c l2, l = l1 ++ Op.Configure c :: l2 ∧
            (Configure ops c (stepAll ops (SensorProcessing.fresh B dt) l1)).error = none) :=
  ⟨fun c s h => Configure_success_Configured ops c s h,
    fun c s h => (Configure_frame ops c s).2.2.2 h,
    fun _ => rfl,
    fun dt l h => stepAll_Configured ops (SensorProcessing.fresh B dt) rfl l h⟩

/-- C14, witness: on a fresh engine `Configured()` is false after a `Configure` that threw and
true after one that returned normally. -/
theorem C14_Configured_follows_the_completed_Configure_witness :
    (Configure demoBlocks cfgNoBaseline
        (SensorProcessing.fresh (BlockKind × Nat) DefinitionTree2.empty)).error ≠ none
      ∧ Configured (Configure demoBlocks cfgNoBaseline
          (SensorProcessing.fresh (BlockKind × Nat) DefinitionTree2.empty)).state = false
      ∧ Configured (Configure demoBlocks cfgTwoGroups
          (SensorProcessing.fresh (BlockKind × Nat) DefinitionTree2.empty)).state = true :=
  ⟨by decide,
    (C14_Configured_follows_the_completed_Configure demoBlocks).2.1 cfgNoBaseline
      (SensorProcessing.fresh (BlockKind × Nat) DefinitionTree2.empty) (by decide),
    (C14_Configured_follows_the_completed_Configure demoBlocks).1 cfgTwoGroups
      (SensorProcessing.fresh (BlockKind × Nat) DefinitionTree2.empty) (by decide)⟩

/-! ## The harvest and the alias resolution -/

/-- C15, witness: 42 written through `/Sensors/Ias` is read through its alias `/Out/Ias`, and
the other way round. -/
theorem C15_alias_shares_the_cell_witness :
    mapFind treeOneCell.data "/Sensors/Ias" = some 0
      ∧ getThrough (setThrough (makeAlias treeOneCell "/Sensors/Ias" "/Out/Ias").2
          "/Sensors/Ias" (Element.setInt 42)) "/Out/Ias" (Element.getInt demoConversions)
        = some 42
      ∧ getThrough (setThrough (makeAlias treeOneCell "/Sensors/Ias" "/Out/Ias").2
          "/Out/Ias" (Element.setInt 42)) "/Sensors/Ias" (Element.getInt demoConversions)
        = some 42 :=
  ⟨by decide,
    ((C15_alias_shares_the_cell demoConversions 0 treeOneCell "/Sensors/Ias" "/Out/Ias" 0
      (by decide) (by decide)).2.2.2.1 42).1,
    ((C15_alias_shares_the_cell demoConversions 0 treeOneCell "/Sensors/Ias" "/Out/Ias" 0
      (by decide) (by decide)).2.2.2.1 42).2⟩

/-! ## The frames of the serial link -/

/-- One more pass of the loop of `CalcChecksum`. -/
theorem CalcChecksum_succ (n : Nat) (bs : List Nat) :
    CalcChecksum (n + 1) bs =
      (((CalcChecksum n bs).1 + bs.getD n 0) % 256,
        ((CalcChecksum n bs).2 + ((CalcChecksum n bs).1 + bs.getD n 0) % 256) % 256) := by
  simp only [CalcChecksum, List.range_succ, List.foldl_append, List.foldl_cons, List.foldl_nil]

/-- The checksum over no byte. -/
theorem CalcChecksum_zero (bs : List Nat) : CalcChecksum 0 bs = (0, 0) := by
  simp [CalcChecksum]

/-- The two bytes of the checksum in closed form. -/
theorem CalcChecksum_closed (n : Nat) (bs : List Nat) :
    CalcChecksum n bs =
      ((∑ i in Finset.range n, bs.getD i 0) % 256,
        (∑ i in Finset.range n, (n - i) * bs.getD i 0) % 256) := by
  induction n with
  | zero => simp [CalcChecksum_zero]
  | succ n ih =>
    rw [CalcChecksum_succ, ih]
    have hw : ∑ i in Finset.range (n + 1), (n + 1 - i) * bs.getD i 0
        = ∑ i in Finset.range n, (n - i) * bs.getD i 0
          + ∑ i in Finset.range (n + 1), bs.getD i 0 := by
      have : ∀ i ∈ Finset.range (n + 1), (n + 1 - i) * bs.getD i 0
          = (n - i) * bs.getD i 0 + bs.getD i 0 := by
        intro i hi
        have hi2 : i ≤ n := Nat.lt_succ_iff.mp (Finset.mem_range.mp hi)
        have : n + 1 - i = (n - i) + 1 := by omega
        rw [this, Nat.add_mul, Nat.one_mul]
      rw [Finset.sum_congr rfl this, Finset.sum_add_distrib, Finset.sum_range_succ
        (fun i => (n - i) * bs.getD i 0)]
      simp
    rw [hw, Finset.sum_range_succ (fun i => bs.getD i 0)]
    simp only [Prod.mk.injEq]
    constructor
    · omega
    · omega

/-- The two bytes of the checksum are bytes. -/
theorem CalcChecksum_lt (n : Nat) (bs : List Nat) :
    (CalcChecksum n bs).1 < 256 ∧ (CalcChecksum n bs).2 < 256 := by
  rw [CalcChecksum_closed]
  exact ⟨Nat.mod_lt _ (by decide), Nat.mod_lt _ (by decide)⟩

/-- The checksum depends only on the bytes it is computed over. -/
theorem CalcChecksum_congr (n : Nat) (bs cs : List Nat)
    (h : ∀ i, i < n → bs.getD i 0 = cs.getD i 0) : CalcChecksum n bs = CalcChecksum n cs := by
  rw [CalcChecksum_closed, CalcChecksum_closed]
  have h1 : ∑ i in Finset.range n, bs.getD i 0 = ∑ i in Finset.range n, cs.getD i 0 :=
    Finset.sum_congr rfl (fun i hi => h i (Finset.mem_range.mp hi))
  have h2 : ∑ i in Finset.range n, (n - i) * bs.getD i 0
      = ∑ i in Finset.range n, (n - i) * cs.getD i 0 :=
    Finset.sum_congr rfl (fun i hi => by rw [h i (Finset.mem_range.mp hi)])
  rw [h1, h2]

/-- The checksum over a prefix of the array. -/
theorem CalcChecksum_append (bs tl : List Nat) :
    CalcChecksum bs.length (bs ++ tl) = CalcChecksum bs.length bs :=
  CalcChecksum_congr _ _ _ (fun i hi => List.getD_append bs tl 0 i hi)

/-- C23: for every `n` and every byte array, `CalcChecksum` over the first `n` bytes `b_0 ..
b_(n-1)` yields `Checksum[0] = (b_0 + ... + b_(n-1)) mod 256` and `Checksum[1] = (n*b_0 +
(n-1)*b_1 + ... + 1*b_(n-1)) mod 256`; both are 0 for `n` = 0; and one more byte adds that
byte to `Checksum[0]` and the new `Checksum[0]` to `Checksum[1]`, each modulo 256. -/
theorem C23_CalcChecksum_is_the_sum_and_the_weighted_sum (n : Nat) (ByteArray : List Nat) :
    (CalcChecksum n ByteArray).1 = (∑ i in Finset.range n, ByteArray.getD i 0) % 256 ∧
    (CalcChecksum n ByteArray).2
      = (∑ i in Finset.range n, (n - i) * ByteArray.getD i 0) % 256 ∧
    CalcChecksum 0 ByteArray = (0, 0) ∧
    CalcChecksum (n + 1) ByteArray =
      (((CalcChecksum n ByteArray).1 + ByteArray.getD n 0) % 256,
        ((CalcChecksum n ByteArray).2
          + ((CalcChecksum n ByteArray).1 + ByteArray.getD n 0) % 256) % 256) := by
  refine ⟨?_, ?_, CalcChecksum_zero _, CalcChecksum_succ _ _⟩
  · rw [CalcChecksum_closed]
  · rw [CalcChecksum_closed]

/-- C25: `ReceiveModeCommand` returns true if and only if a message is pending, its ID is
`ModeCommand` and its payload has exactly one byte, and then `*mode` is that byte; when a
message is pending with the ID `ModeCommand` the call only clears the pending-message flag
(whatever the payload size); otherwise the state and `*mode` are unchanged; so the flag
changes exactly when a message is pending with the ID `ModeCommand`; and `*mode` is
unchanged whenever the call returns false. -/
theorem C25_ReceiveModeCommand_takes_a_pending_mode_command (c : CommsConstants)
    (s : AircraftSocComms) (mode : Nat) :
    ((ReceiveModeCommand c s mode).ret = true ↔
      (s.MessageReceived_ = true ∧ s.ReceivedMessage_ = c.ModeCommand ∧
        s.ReceivedPayload_.length = 1)) ∧
    ((ReceiveModeCommand c s mode).ret = true →
      ∃ b, s.ReceivedPayload_ = [b] ∧ (ReceiveModeCommand c s mode).mode = b) ∧
    ((s.MessageReceived_ = true ∧ s.ReceivedMessage_ = c.ModeCommand) →
      (ReceiveModeCommand c s mode).state = { s with MessageReceived_ := false }) ∧
    (¬ (s.MessageReceived_ = true ∧ s.ReceivedMessage_ = c.ModeCommand) →
      (ReceiveModeCommand c s mode).state = s ∧ (ReceiveModeCommand c s mode).mode = mode) ∧
    ((ReceiveModeCommand c s mode).state.MessageReceived_ ≠ s.MessageReceived_ ↔
      (s.MessageReceived_ = true ∧ s.ReceivedMessage_ = c.ModeCommand)) ∧
    ((ReceiveModeCommand c s mode).ret = false → (ReceiveModeCommand c s mode).mode = mode) := by
  unfold ReceiveModeCommand
  by_cases h1 : s.MessageReceived_ = true
  · by_cases h2 : s.ReceivedMessage_ = c.ModeCommand
    · by_cases h3 : s.ReceivedPayload_.length = 1
      · obtain ⟨b, hb⟩ := List.length_eq_one.mp h3
        simp [h1, h2, hb]
      · simp [h1, h2, h3]
    · simp [h1, h2]
  · simp [h1]

/-- A pass of the loop of `ReceiveMessage` that does not return. -/
theorem ReceiveMessage_continue (c : CommsConstants) (s : AircraftSocComms) (b : Nat)
    (rest : List Nat) (m : Nat) (P : List Nat)
    (h : (receiveByte c s b m P).returned = none) :
    (ReceiveMessage c (b :: rest) s m P).core
      = (ReceiveMessage c rest (receiveByte c s b m P).state (receiveByte c s b m P).message
          (receiveByte c s b m P).Payload).core := by
  simp only [ReceiveMessage, h, ReceiveResult.core]

/-- A pass of the loop of `ReceiveMessage` that returns. -/
theorem ReceiveMessage_return (c : CommsConstants) (s : AircraftSocComms) (b : Nat)
    (rest : List Nat) (m : Nat) (P : List Nat) (v : Bool)
    (h : (receiveByte c s b m P).returned = some v) :
    (ReceiveMessage c (b :: rest) s m P).core
      = (v, (receiveByte c s b m P).state, (receiveByte c s b m P).message,
          (receiveByte c s b m P).Payload, rest) := by
  simp only [ReceiveMessage, h, ReceiveResult.core]

/-- The pass that stores a payload byte. -/
theorem receiveByte_payload (c : CommsConstants) (s : AircraftSocComms) (b m : Nat)
    (P : List Nat) (h5 : 5 ≤ s.ParserState_)
    (hlt : s.ParserState_ < s.Length_ + c.headerLength_) :
    receiveByte c s b m P =
      ⟨{ s with RxByte_ := b % 256, Buffer_ := s.Buffer_.set s.ParserState_ (b % 256),
                ParserState_ := s.ParserState_ + 1 },
        none, m, P, some s.ParserState_⟩ := by
  have h1 : ¬ s.ParserState_ < 2 := by omega
  have h2 : ¬ s.ParserState_ = 3 := by omega
  have h3 : ¬ s.ParserState_ = 4 := by omega
  simp [receiveByte, h1, h2, h3, hlt]

/-- The passes that store the payload of a frame. -/
theorem receive_payload (c : CommsConstants) :
    ∀ (Q : List Nat) (s : AircraftSocComms) (pre suf rest : List Nat) (m : Nat)
      (P : List Nat),
      (∀ q ∈ Q, q < 256) → 5 ≤ s.ParserState_ →
      s.ParserState_ + Q.length = s.Length_ + c.headerLength_ →
      s.Buffer_ = pre ++ suf → pre.length = s.ParserState_ → Q.length ≤ suf.length →
      ∃ s1 : AircraftSocComms, s1.ParserState_ = s.Length_ + c.headerLength_ ∧
        s1.Length_ = s.Length_ ∧ s1.Buffer_ = pre ++ Q ++ suf.drop Q.length ∧
        (ReceiveMessage c (Q ++ rest) s m P).core = (ReceiveMessage c rest s1 m P).core := by
  intro Q
  induction Q with
  | nil =>
    intro s pre suf rest m P _ _ hn hb _ _
    exact ⟨s, by simpa using hn, rfl, by simpa using hb, rfl⟩
  | cons q Q ih =>
    intro s pre suf rest m P hq h5 hn hb hpre hsuf
    have hlt : s.ParserState_ < s.Length_ + c.headerLength_ := by
      simp only [List.length_cons] at hn; omega
    cases suf with
    | nil => simp at hsuf
    | cons x suf =>
      have hq1 : q % 256 = q := Nat.mod_eq_of_lt (hq q (List.mem_cons_self _ _))
      have hstep := receiveByte_payload c s q m P h5 hlt
      have hbuf : s.Buffer_.set s.ParserState_ (q % 256) = (pre ++ [q]) ++ suf := by
        rw [hb, ← hpre, hq1, List.set_append_right _ _ (le_refl _)]
        simp
      obtain ⟨s1, h1, h2, h3, h4⟩ := ih
        { s with RxByte_ := q % 256, Buffer_ := s.Buffer_.set s.ParserState_ (q % 256),
                 ParserState_ := s.ParserState_ + 1 }
        (pre ++ [q]) suf rest m P
        (fun z hz => hq z (List.mem_cons_of_mem _ hz))
        (by show 5 ≤ s.ParserState_ + 1; omega)
        (by show s.ParserState_ + 1 + Q.length = s.Length_ + c.headerLength_
            simp only [List.length_cons] at hn; omega)
        hbuf
        (by show (pre ++ [q]).length = s.ParserState_ + 1; simp [hpre])
        (by simp only [List.length_cons] at hsuf; omega)
      refine ⟨s1, h1, h2, ?_, ?_⟩
      · rw [h3]; simp
      · rw [List.cons_append, ReceiveMessage_continue c s q (Q ++ rest) m P (by rw [hstep]),
          hstep]
        exact h4

/-- The two passes that compare the checksum bytes. -/
theorem receive_checksum (c : CommsConstants) (s : AircraftSocComms) (x y m : Nat)
    (P : List Nat) (h5 : 5 ≤ c.headerLength_)
    (hn : s.ParserState_ = s.Length_ + c.headerLength_) :
    (ReceiveMessage c [x, y] s m P).state.ParserState_ = 0 ∧
    (ReceiveMessage c [x, y] s m P).state.Length_ = 0 ∧
    (x % 256 = (CalcChecksum (s.Length_ + c.headerLength_) s.Buffer_).1 →
      y % 256 = (CalcChecksum (s.Length_ + c.headerLength_) s.Buffer_).2 →
      (ReceiveMessage c [x, y] s m P).ret = true ∧
      (ReceiveMessage c [x, y] s m P).message = s.Buffer_.getD 2 0 ∧
      (ReceiveMessage c [x, y] s m P).Payload
        = (s.Buffer_.drop c.headerLength_).take s.Length_ ∧
      (ReceiveMessage c [x, y] s m P).bus = []) ∧
    (x % 256 = (CalcChecksum (s.Length_ + c.headerLength_) s.Buffer_).1 →
      y % 256 ≠ (CalcChecksum (s.Length_ + c.headerLength_) s.Buffer_).2 →
      (ReceiveMessage c [x, y] s m P).ret = false ∧
      (ReceiveMessage c [x, y] s m P).message = m ∧
      (ReceiveMessage c [x, y] s m P).Payload = P ∧
      (ReceiveMessage c [x, y] s m P).bus = []) ∧
    (x % 256 ≠ (CalcChecksum (s.Length_ + c.headerLength_) s.Buffer_).1 →
      (ReceiveMessage c [x, y] s m P).ret = false ∧
      (ReceiveMessage c [x, y] s m P).message = m ∧
      (ReceiveMessage c [x, y] s m P).Payload = P ∧
      (ReceiveMessage c [x, y] s m P).bus = [y]) := by
  have h1 : ¬ s.Length_ + c.headerLength_ < 2 := by omega
  have h2 : ¬ s.Length_ + c.headerLength_ = 3 := by omega
  have h3 : ¬ s.Length_ + c.headerLength_ = 4 := by omega
  have h1b : ¬ s.Length_ + c.headerLength_ + 1 < 2 := by omega
  have h2b : ¬ s.Length_ + c.headerLength_ + 1 = 3 := by omega
  have h3b : ¬ s.Length_ + c.headerLength_ + 1 = 4 := by omega
  by_cases hx : x % 256 = (CalcChecksum (s.Length_ + c.headerLength_) s.Buffer_).1
  · by_cases hy : y % 256 = (CalcChecksum (s.Length_ + c.headerLength_) s.Buffer_).2
    · simp [ReceiveMessage, receiveByte, resetParser, hn, h1, h2, h3, h1b, h2b, h3b, hx, hy]
    · simp [ReceiveMessage, receiveByte, resetParser, hn, h1, h2, h3, h1b, h2b, h3b, hx, hy]
  · simp [ReceiveMessage, receiveByte, resetParser, hn, h1, h2, h3, hx]

/-- The length assembled from its two bytes (line 135). -/
theorem shift_or_eq (hi lo : Nat) (hlo : lo < 256) : (hi <<< 8) ||| lo = hi * 256 + lo := by
  rw [Nat.shiftLeft_eq, Nat.mul_comm hi (2 ^ 8)]
  exact (Nat.mul_add_lt_is_or (by simpa using hlo) hi).symm

/-- The low byte of the payload size (line 106). -/
theorem and_ff_eq (n : Nat) : (n &&& 0xff) % 256 = n % 256 := by
  have h := Nat.and_pow_two_sub_one_eq_mod n 8
  have h2 : (2 : Nat) ^ 8 - 1 = 0xff := by norm_num
  rw [h2] at h
  rw [h]
  simp

/-- The high byte of the payload size (line 107). -/
theorem shift_right_eq (n : Nat) (h : n < 65536) : (n >>> 8) % 256 = n / 256 := by
  rw [Nat.shiftRight_eq_div_pow]
  have : n / 2 ^ 8 < 256 := by
    rw [Nat.div_lt_iff_lt_mul (by norm_num)]
    omega
  rw [Nat.mod_eq_of_lt this]
  norm_num

/-- The five passes that read the header of a frame, from the reset state. -/
theorem receive_header (c : CommsConstants) (hc : frameLayout c) (s : AircraftSocComms)
    (hs0 : s.ParserState_ = 0) (hsl : s.Length_ = 0) (hb : 5 ≤ s.Buffer_.length)
    (a lo hi : Nat) (ha : a < 256) (hlo : lo < 256) (hhi : hi < 256)
    (hL : hi * 256 + lo ≤ c.kUartBufferMaxSize - 7) (rest : List Nat) (m : Nat)
    (P : List Nat) :
    ∃ s5 : AircraftSocComms, s5.ParserState_ = 5 ∧ s5.Length_ = hi * 256 + lo ∧
      s5.Buffer_ = [c.header_ 0, c.header_ 1, a, lo, hi] ++ s.Buffer_.drop 5 ∧
      (ReceiveMessage c (c.header_ 0 :: c.header_ 1 :: a :: lo :: hi :: rest) s m P).core
        = (ReceiveMessage c rest s5 m P).core := by
  obtain ⟨hhl, hcl, hK7, hK, hh0, hh1⟩ := hc
  obtain ⟨R, ps, LB, Len, Buf, Ck, MR, RM, RP⟩ := s
  simp only at hs0 hsl hb
  subst hs0 hsl
  match Buf, hb with
  | b0 :: b1 :: b2 :: b3 :: b4 :: tl, _ =>
    refine ⟨{ RxByte_ := hi, ParserState_ := 5, LengthBuffer_ := (lo, hi),
              Length_ := hi * 256 + lo,
              Buffer_ := [c.header_ 0, c.header_ 1, a, lo, hi] ++ tl, Checksum_ := Ck,
              MessageReceived_ := MR, ReceivedMessage_ := RM, ReceivedPayload_ := RP },
      rfl, rfl, by simp, ?_⟩
    have e0 : c.header_ 0 % 256 = c.header_ 0 := Nat.mod_eq_of_lt hh0
    have e1 : c.header_ 1 % 256 = c.header_ 1 := Nat.mod_eq_of_lt hh1
    have e2 : a % 256 = a := Nat.mod_eq_of_lt ha
    have e3 : lo % 256 = lo := Nat.mod_eq_of_lt hlo
    have e4 : hi % 256 = hi := Nat.mod_eq_of_lt hhi
    have e5 : ¬ (c.kUartBufferMaxSize - 5 - 2 < hi * 256 + lo) := by omega
    simp [ReceiveMessage, receiveByte, ReceiveResult.core, hhl, hcl, e0, e1, e2, e3, e4,
      shift_or_eq hi lo hlo, e5]

/-- The header has five bytes. -/
theorem frameHeader_length (c : CommsConstants) (a n : Nat) :
    (frameHeader c a n).length = 5 := rfl

/-- What `ReceiveMessage` does, from the reset state, on a header, a payload of the declared
length and two more bytes. -/
theorem receive_frame (c : CommsConstants) (hc : frameLayout c) (s : AircraftSocComms)
    (hs0 : s.ParserState_ = 0) (hsl : s.Length_ = 0)
    (hb : s.Buffer_.length = c.kUartBufferMaxSize) (a : Nat) (ha : a < 256) (Q : List Nat)
    (hQ : ∀ q ∈ Q, q < 256) (hlen : Q.length ≤ c.kUartBufferMaxSize - 7) (x y m : Nat)
    (P : List Nat) :
    (ReceiveMessage c (frameHeader c a Q.length ++ Q ++ [x, y]) s m P).state.ParserState_ = 0 ∧
    (ReceiveMessage c (frameHeader c a Q.length ++ Q ++ [x, y]) s m P).state.Length_ = 0 ∧
    (x % 256 = (CalcChecksum (Q.length + 5) (frameHeader c a Q.length ++ Q)).1 →
      y % 256 = (CalcChecksum (Q.length + 5) (frameHeader c a Q.length ++ Q)).2 →
      (ReceiveMessage c (frameHeader c a Q.length ++ Q ++ [x, y]) s m P).ret = true ∧
      (ReceiveMessage c (frameHeader c a Q.length ++ Q ++ [x, y]) s m P).message = a ∧
      (ReceiveMessage c (frameHeader c a Q.length ++ Q ++ [x, y]) s m P).Payload = Q ∧
      (ReceiveMessage c (frameHeader c a Q.length ++ Q ++ [x, y]) s m P).bus = []) ∧
    (x % 256 = (CalcChecksum (Q.length + 5) (frameHeader c a Q.length ++ Q)).1 →
      y % 256 ≠ (CalcChecksum (Q.length + 5) (frameHeader c a Q.length ++ Q)).2 →
      (ReceiveMessage c (frameHeader c a Q.length ++ Q ++ [x, y]) s m P).ret = false ∧
      (ReceiveMessage c (frameHeader c a Q.length ++ Q ++ [x, y]) s m P).message = m ∧
      (ReceiveMessage c (frameHeader c a Q.length ++ Q ++ [x, y]) s m P).Payload = P ∧
      (ReceiveMessage c (frameHeader c a Q.length ++ Q ++ [x, y]) s m P).bus = []) ∧
    (x % 256 ≠ (CalcChecksum (Q.length + 5) (frameHeader c a Q.length ++ Q)).1 →
      (ReceiveMessage c (frameHeader c a Q.length ++ Q ++ [x, y]) s m P).ret = false ∧
      (ReceiveMessage c (frameHeader c a Q.length ++ Q ++ [x, y]) s m P).message = m ∧
      (ReceiveMessage c (frameHeader c a Q.length ++ Q ++ [x, y]) s m P).Payload = P ∧
      (ReceiveMessage c (frameHeader c a Q.length ++ Q ++ [x, y]) s m P).bus = [y]) := by
  have hc2 := hc
  obtain ⟨hhl, hcl, hK7, hK, hh0, hh1⟩ := hc2
  have hlo : Q.length % 256 < 256 := Nat.mod_lt _ (by decide)
  have hhi : Q.length / 256 < 256 := by
    rw [Nat.div_lt_iff_lt_mul (by decide)]; omega
  have hdm : Q.length / 256 * 256 + Q.length % 256 = Q.length := Nat.div_add_mod' _ _
  obtain ⟨s5, p5, l5, b5, c5⟩ := receive_header c hc s hs0 hsl (by omega) a
    (Q.length % 256) (Q.length / 256) ha hlo hhi (by omega) (Q ++ [x, y]) m P
  rw [hdm] at l5
  obtain ⟨s6, p6, l6, b6, c6⟩ := receive_payload c Q s5
    [c.header_ 0, c.header_ 1, a, Q.length % 256, Q.length / 256] (s.Buffer_.drop 5)
    [x, y] m P hQ (by omega) (by rw [p5, l5, hhl]; omega) b5 (by rw [p5]; rfl)
    (by rw [List.length_drop]; omega)
  have hlist : frameHeader c a Q.length ++ Q ++ [x, y]
      = c.header_ 0 :: c.header_ 1 :: a :: Q.length % 256 :: Q.length / 256 :: (Q ++ [x, y]) := by
    simp [frameHeader]
  have hcore : (ReceiveMessage c (frameHeader c a Q.length ++ Q ++ [x, y]) s m P).core
      = (ReceiveMessage c [x, y] s6 m P).core := by
    rw [hlist, c5, c6]
  have hret := congrArg (fun t => t.1) hcore
  have hst := congrArg (fun t => t.2.1) hcore
  have hmsg := congrArg (fun t => t.2.2.1) hcore
  have hpay := congrArg (fun t => t.2.2.2.1) hcore
  have hbus := congrArg (fun t => t.2.2.2.2) hcore
  simp only [ReceiveResult.core] at hret hst hmsg hpay hbus
  rw [hret, hst, hmsg, hpay, hbus]
  have hF : s6.Buffer_ = (frameHeader c a Q.length ++ Q) ++ (s.Buffer_.drop 5).drop Q.length := by
    rw [b6]; simp [frameHeader]
  have hlen6 : s6.Length_ + c.headerLength_ = (frameHeader c a Q.length ++ Q).length := by
    rw [l6, l5, hhl, List.length_append, frameHeader_length]; omega
  have hck : CalcChecksum (s6.Length_ + c.headerLength_) s6.Buffer_
      = CalcChecksum (Q.length + 5) (frameHeader c a Q.length ++ Q) := by
    rw [hlen6, hF, CalcChecksum_append, List.length_append, frameHeader_length]
    congr 1; omega
  have hid : s6.Buffer_.getD 2 0 = a := by
    rw [hF]; simp [frameHeader]
  have hpl : (s6.Buffer_.drop c.headerLength_).take s6.Length_ = Q := by
    rw [hF, hhl, l6, l5]
    simp [frameHeader]
  have h := receive_checksum c s6 x y m P (by omega) (by rw [p6, l6])
  rw [hck, hid, hpl] at h
  exact h

/-- The bytes of an array after one byte has been replaced. -/
theorem getD_set_eq (bs : List Nat) (j v i : Nat) (hj : j < bs.length) :
    (bs.set j v).getD i 0 = if i = j then v else bs.getD i 0 := by
  rw [List.getD_eq_getElem?_getD, List.getD_eq_getElem?_getD, List.getElem?_set]
  by_cases h : j = i
  · subst h; simp [hj]
  · have h2 : ¬ i = j := fun e => h e.symm
    simp [h, h2]

/-- Replacing one byte by a different byte changes `Checksum[0]`. -/
theorem CalcChecksum_set_ne (n : Nat) (bs : List Nat) (j v : Nat) (hj : j < n)
    (hn : n ≤ bs.length) (hv : v < 256) (hb : bs.getD j 0 < 256) (hne : bs.getD j 0 ≠ v) :
    (CalcChecksum n (bs.set j v)).1 ≠ (CalcChecksum n bs).1 := by
  rw [CalcChecksum_closed, CalcChecksum_closed]
  have hmem : j ∈ Finset.range n := Finset.mem_range.mpr hj
  have h1 := Finset.add_sum_erase (Finset.range n) (fun i => (bs.set j v).getD i 0) hmem
  have h2 := Finset.add_sum_erase (Finset.range n) (fun i => bs.getD i 0) hmem
  have h3 : ∑ i in (Finset.range n).erase j, (bs.set j v).getD i 0
      = ∑ i in (Finset.range n).erase j, bs.getD i 0 := by
    apply Finset.sum_congr rfl
    intro i hi
    rw [getD_set_eq bs j v i (by omega), if_neg (Finset.ne_of_mem_erase hi)]
  simp only at h1 h2
  rw [h3, getD_set_eq bs j v j (by omega), if_pos rfl] at h1
  simp only
  rw [← h1, ← h2]
  omega

/-- A copy that starts past the first byte leaves the first byte. -/
theorem memcpy_cons (src : List Nat) : ∀ (x : Nat) (l : List Nat) (off : Nat),
    memcpy (x :: l) (off + 1) src = x :: memcpy l off src := by
  induction src with
  | nil => intro x l off; rfl
  | cons v rest ih =>
    intro x l off
    simp only [memcpy, List.set_cons_succ]
    exact ih x (l.set off v) (off + 1)

/-- A copy to the start of an array that is long enough. -/
theorem memcpy_zero (src : List Nat) : ∀ (l : List Nat), src.length ≤ l.length →
    memcpy l 0 src = src ++ l.drop src.length := by
  induction src with
  | nil => intro l _; rfl
  | cons v rest ih =>
    intro l hl
    cases l with
    | nil => simp at hl
    | cons y l =>
      simp only [memcpy, List.set_cons_zero]
      rw [memcpy_cons, ih l (by simpa using hl)]
      simp

/-- The two checksum bytes stored after the payload, and the bytes written. -/
theorem frame_tail (F : List Nat) (n : Nat) (hn : F.length = n) (t : List Nat)
    (ht : 2 ≤ t.length) (v w : Nat) :
    (((F ++ t).set n v).set (n + 1) w).take (n + 2) = F ++ [v, w] := by
  subst hn
  match t, ht with
  | t0 :: t1 :: t2, _ =>
    rw [List.set_append_right _ _ (le_refl _), List.set_append_right _ _ (by omega)]
    simp [List.take_append_eq_append_take]

/-- An array of at least five bytes. -/
theorem five_le_length (l : List Nat) (h : 5 ≤ l.length) :
    ∃ b0 b1 b2 b3 b4 tl, l = b0 :: b1 :: b2 :: b3 :: b4 :: tl := by
  match l, h with
  | b0 :: b1 :: b2 :: b3 :: b4 :: tl, _ => exact ⟨b0, b1, b2, b3, b4, tl, rfl⟩

/-- The bytes written by `SendMessage`: header, payload, checksum. -/
theorem SendMessage_written (c : CommsConstants) (hc : frameLayout c) (s : AircraftSocComms)
    (hb : s.Buffer_.length = c.kUartBufferMaxSize) (message : Nat) (Payload : List Nat)
    (hsize : Payload.length < c.kUartBufferMaxSize - c.headerLength_ - c.checksumLength_) :
    (SendMessage c s message Payload).written
      = frameHeader c (message % 256) Payload.length ++ Payload ++
          [(CalcChecksum (Payload.length + 5)
              (frameHeader c (message % 256) Payload.length ++ Payload)).1,
            (CalcChecksum (Payload.length + 5)
              (frameHeader c (message % 256) Payload.length ++ Payload)).2] := by
  obtain ⟨hhl, hcl, hK7, hK, hh0, hh1⟩ := hc
  have hlen : Payload.length < 65536 := by omega
  rw [hhl, hcl] at hsize
  obtain ⟨R, ps, LB, Len, Buf, Ck, MR, RM, RP⟩ := s
  simp only at hb
  obtain ⟨b0, b1, b2, b3, b4, tl, rfl⟩ := five_le_length Buf (by omega)
  · have htl : Payload.length + 2 ≤ tl.length := by
      simp only [List.length_cons] at hb; omega
    have hF : (frameHeader c (message % 256) Payload.length ++ Payload).length
        = Payload.length + 5 := by
      rw [List.length_append, frameHeader_length]; omega
    have hbuf : memcpy (c.header_ 0 :: c.header_ 1 :: message % 256 ::
          Payload.length % 256 :: Payload.length / 256 :: tl) 5 Payload
        = (frameHeader c (message % 256) Payload.length ++ Payload)
            ++ tl.drop Payload.length := by
      rw [memcpy_cons, memcpy_cons, memcpy_cons, memcpy_cons, memcpy_cons,
        memcpy_zero Payload tl (by omega)]
      simp [frameHeader]
    have hck : CalcChecksum (Payload.length + 5)
          ((frameHeader c (message % 256) Payload.length ++ Payload)
            ++ tl.drop Payload.length)
        = CalcChecksum (Payload.length + 5)
            (frameHeader c (message % 256) Payload.length ++ Payload) := by
      rw [← hF, CalcChecksum_append]
    simp only [SendMessage, if_pos hsize, hhl, hcl, List.set_cons_zero, List.set_cons_succ,
      and_ff_eq, shift_right_eq _ hlen, hbuf, hck]
    have hd : 2 ≤ (tl.drop Payload.length).length := by rw [List.length_drop]; omega
    have hft := frame_tail (frameHeader c (message % 256) Payload.length ++ Payload)
      (Payload.length + 5) hF (tl.drop Payload.length) hd
    exact hft _ _

/-- The frame written by `SendMessage` is read back by `ReceiveMessage`. -/
theorem sent_frame_received (c : CommsConstants) (hc : frameLayout c) (tx rx : AircraftSocComms)
    (htx : tx.Buffer_.length = c.kUartBufferMaxSize)
    (hrx : rx.Buffer_.length = c.kUartBufferMaxSize)
    (hps : rx.ParserState_ = 0) (hlen : rx.Length_ = 0)
    (message : Nat) (hm : message < 256) (Payload : List Nat)
    (hp : ∀ b ∈ Payload, b < 256)
    (hsize : Payload.length < c.kUartBufferMaxSize - c.headerLength_ - c.checksumLength_)
    (m0 : Nat) (P0 : List Nat) :
    (ReceiveMessage c (SendMessage c tx message Payload).written rx m0 P0).ret = true ∧
    (ReceiveMessage c (SendMessage c tx message Payload).written rx m0 P0).message = message ∧
    (ReceiveMessage c (SendMessage c tx message Payload).written rx m0 P0).Payload = Payload ∧
    (ReceiveMessage c (SendMessage c tx message Payload).written rx m0 P0).state.ParserState_
      = 0 ∧
    (ReceiveMessage c (SendMessage c tx message Payload).written rx m0 P0).state.Length_ = 0 ∧
    (ReceiveMessage c (SendMessage c tx message Payload).written rx m0 P0).bus = [] := by
  rw [SendMessage_written c hc tx htx message Payload hsize, Nat.mod_eq_of_lt hm]
  have hle : Payload.length ≤ c.kUartBufferMaxSize - 7 := by
    obtain ⟨hhl, hcl, _⟩ := hc
    rw [hhl, hcl] at hsize; omega
  have hk := CalcChecksum_lt (Payload.length + 5) (frameHeader c message Payload.length ++ Payload)
  obtain ⟨h1, h2, h3, _, _⟩ := receive_frame c hc rx hps hlen hrx message hm Payload hp hle
    (CalcChecksum (Payload.length + 5) (frameHeader c message Payload.length ++ Payload)).1
    (CalcChecksum (Payload.length + 5) (frameHeader c message Payload.length ++ Payload)).2
    m0 P0
  obtain ⟨e1, e2, e3, e4⟩ := h3 (Nat.mod_eq_of_lt hk.1) (Nat.mod_eq_of_lt hk.2)
  exact ⟨e1, e2, e3, h1, h2, e4⟩

/-- A byte read from an array of bytes is a byte. -/
theorem getD_lt_of_all (l : List Nat) (h : ∀ b ∈ l, b < 256) (j : Nat) : l.getD j 0 < 256 := by
  induction l generalizing j with
  | nil => simp
  | cons x l ih =>
    cases j with
    | zero => simpa using h x (List.mem_cons_self _ _)
    | succ j => simpa using ih (fun b hb => h b (List.mem_cons_of_mem _ hb)) j

/-- The header and the payload of a frame are bytes. -/
theorem frame_bytes_lt (c : CommsConstants) (hc : frameLayout c) (a : Nat) (ha : a < 256)
    (Q : List Nat) (hQ : ∀ q ∈ Q, q < 256) (hlen : Q.length < 65536) :
    ∀ b ∈ frameHeader c a Q.length ++ Q, b < 256 := by
  obtain ⟨_, _, _, _, hh0, hh1⟩ := hc
  intro b hb
  rw [List.mem_append] at hb
  rcases hb with hb | hb
  · simp only [frameHeader, List.mem_cons, List.mem_singleton, List.not_mem_nil, or_false] at hb
    have hhi : Q.length / 256 < 256 := by
      rw [Nat.div_lt_iff_lt_mul (by decide)]; omega
    rcases hb with rfl | rfl | rfl | rfl | rfl
    · exact hh0
    · exact hh1
    · exact ha
    · exact Nat.mod_lt _ (by decide)
    · exact hhi
  · exact hQ b hb

/-- A frame whose message ID or one payload byte has been replaced is the frame of another
message ID or payload of the same length. -/
theorem corrupted_prefix (c : CommsConstants) (a : Nat) (Q : List Nat)
    (hQ : ∀ q ∈ Q, q < 256) (j v : Nat) (hv : v < 256) (ha : a < 256)
    (hj : j = 2 ∨ (5 ≤ j ∧ j < Q.length + 5)) :
    ∃ a1 Q1, a1 < 256 ∧ (∀ q ∈ Q1, q < 256) ∧ Q1.length = Q.length ∧
      (frameHeader c a Q.length ++ Q).set j v = frameHeader c a1 Q1.length ++ Q1 := by
  rcases hj with rfl | ⟨h5, hlt⟩
  · refine ⟨v, Q, hv, hQ, rfl, ?_⟩
    rw [List.set_append_left _ _ (by rw [frameHeader_length]; omega)]
    rfl
  · refine ⟨a, Q.set (j - 5) v, ha, ?_, by simp, ?_⟩
    · intro q hq
      rcases List.mem_or_eq_of_mem_set hq with h | h
      · exact hQ q h
      · rw [h]; exact hv
    · rw [List.set_append_right _ _ (by rw [frameHeader_length]; omega), frameHeader_length,
        List.length_set]

/-- A frame with one byte replaced is rejected. -/
theorem corrupted_frame (c : CommsConstants) (hc : frameLayout c) (tx rx : AircraftSocComms)
    (htx : tx.Buffer_.length = c.kUartBufferMaxSize)
    (hrx : rx.Buffer_.length = c.kUartBufferMaxSize)
    (hps : rx.ParserState_ = 0) (hlen : rx.Length_ = 0)
    (message : Nat) (hm : message < 256) (Payload : List Nat)
    (hp : ∀ b ∈ Payload, b < 256)
    (hsize : Payload.length < c.kUartBufferMaxSize - c.headerLength_ - c.checksumLength_)
    (j v : Nat) (hj : j = 2 ∨ (5 ≤ j ∧ j < Payload.length + 7)) (hv : v < 256)
    (hne : (SendMessage c tx message Payload).written.getD j 0 ≠ v)
    (m0 : Nat) (P0 : List Nat) :
    (ReceiveMessage c ((SendMessage c tx message Payload).written.set j v) rx m0 P0).ret
      = false ∧
    (ReceiveMessage c ((SendMessage c tx message Payload).written.set j v) rx m0 P0).message
      = m0 ∧
    (ReceiveMessage c ((SendMessage c tx message Payload).written.set j v) rx m0 P0).Payload
      = P0 ∧
    (ReceiveMessage c ((SendMessage c tx message Payload).written.set j v) rx m0
      P0).state.ParserState_ = 0 ∧
    (ReceiveMessage c ((SendMessage c tx message Payload).written.set j v) rx m0
      P0).state.Length_ = 0 ∧
    (ReceiveMessage c ((SendMessage c tx message Payload).written.set j v) rx m0
      P0).bus.length ≤ 1 := by
  rw [SendMessage_written c hc tx htx message Payload hsize, Nat.mod_eq_of_lt hm] at hne ⊢
  have hc2 := hc
  obtain ⟨hhl, hcl, hK7, hK, hh0, hh1⟩ := hc2
  have hle : Payload.length ≤ c.kUartBufferMaxSize - 7 := by
    rw [hhl, hcl] at hsize; omega
  have hFl : (frameHeader c message Payload.length ++ Payload).length = Payload.length + 5 := by
    rw [List.length_append, frameHeader_length]; omega
  have hk := CalcChecksum_lt (Payload.length + 5) (frameHeader c message Payload.length ++ Payload)
  have hv1 : v % 256 = v := Nat.mod_eq_of_lt hv
  by_cases hA : j < Payload.length + 5
  · -- a byte of the part the checksum is computed over
    have hj2 : j = 2 ∨ (5 ≤ j ∧ j < Payload.length + 5) := by omega
    obtain ⟨a1, Q1, ha1, hQ1, hl1, hset⟩ := corrupted_prefix c message Payload hp j v hv hm hj2
    rw [List.set_append_left _ _ (by rw [hFl]; exact hA), hset]
    rw [List.getD_append _ _ _ _ (by rw [hFl]; exact hA)] at hne
    have hdiff := CalcChecksum_set_ne (Payload.length + 5)
      (frameHeader c message Payload.length ++ Payload) j v hA (by rw [hFl]) hv
      (getD_lt_of_all _ (frame_bytes_lt c hc message hm Payload hp (by omega)) j) hne
    rw [hset] at hdiff
    have hn : Q1.length + 5 = Payload.length + 5 := by rw [hl1]
    obtain ⟨h1, h2, _, _, h5⟩ := receive_frame c hc rx hps hlen hrx a1 ha1 Q1 hQ1
      (by rw [hl1]; exact hle)
      (CalcChecksum (Payload.length + 5) (frameHeader c message Payload.length ++ Payload)).1
      (CalcChecksum (Payload.length + 5) (frameHeader c message Payload.length ++ Payload)).2
      m0 P0
    obtain ⟨e1, e2, e3, e4⟩ := h5 (by
      rw [Nat.mod_eq_of_lt hk.1, hn]
      exact fun h => hdiff h.symm)
    exact ⟨e1, e2, e3, h1, h2, by rw [e4]; simp⟩
  · by_cases hB : j = Payload.length + 5
    · -- the first byte of the checksum
      subst hB
      rw [List.set_append_right _ _ (by rw [hFl])]
      rw [List.getD_append_right _ _ _ _ (by rw [hFl])] at hne
      simp only [hFl, Nat.sub_self, List.set_cons_zero, List.getD_cons_zero] at hne ⊢
      obtain ⟨h1, h2, _, _, h5⟩ := receive_frame c hc rx hps hlen hrx message hm Payload hp hle
        v (CalcChecksum (Payload.length + 5)
          (frameHeader c message Payload.length ++ Payload)).2 m0 P0
      obtain ⟨e1, e2, e3, e4⟩ := h5 (by rw [hv1]; exact fun h => hne h.symm)
      exact ⟨e1, e2, e3, h1, h2, by rw [e4]; simp⟩
    · -- the second byte of the checksum
      have hC : j = Payload.length + 5 + 1 := by omega
      subst hC
      rw [List.set_append_right _ _ (by rw [hFl]; omega)]
      rw [List.getD_append_right _ _ _ _ (by rw [hFl]; omega)] at hne
      simp only [hFl, Nat.add_sub_cancel_left, List.set_cons_succ, List.set_cons_zero,
        List.getD_cons_succ, List.getD_cons_zero] at hne ⊢
      obtain ⟨h1, h2, _, h4, _⟩ := receive_frame c hc rx hps hlen hrx message hm Payload hp hle
        (CalcChecksum (Payload.length + 5)
          (frameHeader c message Payload.length ++ Payload)).1 v m0 P0
      obtain ⟨e1, e2, e3, e4⟩ := h4 (Nat.mod_eq_of_lt hk.1)
        (by rw [hv1]; exact fun h => hne h.symm)
      exact ⟨e1, e2, e3, h1, h2, by rw [e4]; simp⟩

/-- One pass of the loop keeps the bounds on the parser and writes inside the buffer. -/
theorem receiveByte_inv (c : CommsConstants) (hhl : c.headerLength_ = 5)
    (hcl : c.checksumLength_ = 2) (hK : 7 ≤ c.kUartBufferMaxSize) (s : AircraftSocComms)
    (b m : Nat) (P : List Nat) (h : parserInv c s) :
    parserInv c (receiveByte c s b m P).state ∧
    (∀ i ∈ (receiveByte c s b m P).write, i < c.kUartBufferMaxSize - c.checksumLength_) ∧
    ((receiveByte c s b m P).returned ≠ none →
      (receiveByte c s b m P).state.ParserState_ = 0) := by
  obtain ⟨K, hl, cl, hd, mc⟩ := c
  simp only at hhl hcl hK
  subst hhl hcl
  obtain ⟨h1, h2, h3⟩ := h
  simp only at h1 h2 h3
  unfold parserInv receiveByte
  simp only
  split_ifs <;> simp [resetParser] <;> omega

/-- A call of `ReceiveMessage` keeps the bounds on the parser and writes inside the buffer.
-/
theorem ReceiveMessage_inv (c : CommsConstants) (hhl : c.headerLength_ = 5)
    (hcl : c.checksumLength_ = 2) (hK : 7 ≤ c.kUartBufferMaxSize) :
    ∀ (bus : List Nat) (s : AircraftSocComms) (m : Nat) (P : List Nat), parserInv c s →
      parserInv c (ReceiveMessage c bus s m P).state ∧
      ∀ i ∈ (ReceiveMessage c bus s m P).writes, i < c.kUartBufferMaxSize - c.checksumLength_ := by
  intro bus
  induction bus with
  | nil =>
    intro s m P h
    exact ⟨h, by simp [ReceiveMessage]⟩
  | cons b rest ih =>
    intro s m P h
    obtain ⟨i1, i2, _⟩ := receiveByte_inv c hhl hcl hK s b m P h
    cases hr : (receiveByte c s b m P).returned with
    | some v =>
      have hd : ReceiveMessage c (b :: rest) s m P
          = ⟨v, (receiveByte c s b m P).state, (receiveByte c s b m P).message,
              (receiveByte c s b m P).Payload, rest,
              (receiveByte c s b m P).write.toList⟩ := by
        simp only [ReceiveMessage, hr]
      rw [hd]
      refine ⟨i1, ?_⟩
      intro i hi
      exact i2 i (by simpa using hi)
    | none =>
      have hd : ReceiveMessage c (b :: rest) s m P
          = ⟨(ReceiveMessage c rest (receiveByte c s b m P).state
                (receiveByte c s b m P).message (receiveByte c s b m P).Payload).ret,
              (ReceiveMessage c rest (receiveByte c s b m P).state
                (receiveByte c s b m P).message (receiveByte c s b m P).Payload).state,
              (ReceiveMessage c rest (receiveByte c s b m P).state
                (receiveByte c s b m P).message (receiveByte c s b m P).Payload).message,
              (ReceiveMessage c rest (receiveByte c s b m P).state
                (receiveByte c s b m P).message (receiveByte c s b m P).Payload).Payload,
              (ReceiveMessage c rest (receiveByte c s b m P).state
                (receiveByte c s b m P).message (receiveByte c s b m P).Payload).bus,
              (receiveByte c s b m P).write.toList ++
                (ReceiveMessage c rest (receiveByte c s b m P).state
                  (receiveByte c s b m P).message (receiveByte c s b m P).Payload).writes⟩ := by
        simp only [ReceiveMessage, hr]
      obtain ⟨j1, j2⟩ := ih (receiveByte c s b m P).state (receiveByte c s b m P).message
        (receiveByte c s b m P).Payload i1
      rw [hd]
      refine ⟨j1, ?_⟩
      intro i hi
      simp only [List.mem_append] at hi
      rcases hi with hi | hi
      · exact i2 i (by simpa using hi)
      · exact j2 i hi

/-- Successive calls of `ReceiveMessage` keep the bounds on the parser. -/
theorem receiveCalls_inv (c : CommsConstants) (hhl : c.headerLength_ = 5)
    (hcl : c.checksumLength_ = 2) (hK : 7 ≤ c.kUartBufferMaxSize)
    (calls : List (List Nat × Nat × List Nat)) :
    ∀ s : AircraftSocComms, parserInv c s → parserInv c (receiveCalls c s calls) := by
  induction calls with
  | nil => intro s h; exact h
  | cons a rest ih =>
    intro s h
    exact ih _ (ReceiveMessage_inv c hhl hcl hK a.1 s a.2.1 a.2.2 h).1

/-- In state 4, a declared length above the bound is rejected. -/
theorem receive_rejects_length (c : CommsConstants) (s : AircraftSocComms) (b : Nat)
    (rest : List Nat) (m : Nat) (P : List Nat) (h4 : s.ParserState_ = 4)
    (hL : c.kUartBufferMaxSize - c.headerLength_ - c.checksumLength_
      < ((b % 256) <<< 8) ||| s.LengthBuffer_.1) :
    (ReceiveMessage c (b :: rest) s m P).ret = false ∧
    (ReceiveMessage c (b :: rest) s m P).state.ParserState_ = 0 ∧
    (ReceiveMessage c (b :: rest) s m P).state.Length_ = 0 ∧
    (ReceiveMessage c (b :: rest) s m P).state.Buffer_ = s.Buffer_ ∧
    (ReceiveMessage c (b :: rest) s m P).writes = [] ∧
    (ReceiveMessage c (b :: rest) s m P).message = m ∧
    (ReceiveMessage c (b :: rest) s m P).Payload = P ∧
    (ReceiveMessage c (b :: rest) s m P).bus = rest := by
  simp [ReceiveMessage, receiveByte, resetParser, h4, hL]

/-- C24: with a five-byte header, a two-byte checksum and a frame buffer of at least 7 bytes, on
a parser started in its reset state, after any sequence of calls of `ReceiveMessage`, each
on any bytes: `ParserState_ <= Length_ + headerLength_ + 1`; `Length_ <= kUartBufferMaxSize
- headerLength_ - checksumLength_` when `ParserState_ > 4`, and `Length_` = 0 otherwise;
every index of `Buffer_` written to by a further call is below `kUartBufferMaxSize -
checksumLength_`.  In state 4, for every state, a byte that makes the declared length exceed
`kUartBufferMaxSize - headerLength_ - checksumLength_` makes `ReceiveMessage` return false
with the parser reset, `Buffer_` unchanged and no index written to. -/
theorem C24_parser_writes_inside_the_frame_buffer (c : CommsConstants)
    (hhl : c.headerLength_ = 5) (hcl : c.checksumLength_ = 2)
    (hK : 7 ≤ c.kUartBufferMaxSize) (s0 : AircraftSocComms)
    (hps : s0.ParserState_ = 0) (hlen : s0.Length_ = 0)
    (calls : List (List Nat × Nat × List Nat)) (bus : List Nat) (m : Nat) (P : List Nat) :
    (receiveCalls c s0 calls).ParserState_
        ≤ (receiveCalls c s0 calls).Length_ + c.headerLength_ + 1 ∧
    (4 < (receiveCalls c s0 calls).ParserState_ →
      (receiveCalls c s0 calls).Length_
        ≤ c.kUartBufferMaxSize - c.headerLength_ - c.checksumLength_) ∧
    ((receiveCalls c s0 calls).ParserState_ ≤ 4 → (receiveCalls c s0 calls).Length_ = 0) ∧
    (∀ i ∈ (ReceiveMessage c bus (receiveCalls c s0 calls) m P).writes,
      i < c.kUartBufferMaxSize - c.checksumLength_) ∧
    (∀ (s : AircraftSocComms) (b : Nat) (rest : List Nat), s.ParserState_ = 4 →
      c.kUartBufferMaxSize - c.headerLength_ - c.checksumLength_
        < ((b % 256) <<< 8) ||| s.LengthBuffer_.1 →
      (ReceiveMessage c (b :: rest) s m P).ret = false ∧
      (ReceiveMessage c (b :: rest) s m P).state.ParserState_ = 0 ∧
      (ReceiveMessage c (b :: rest) s m P).state.Length_ = 0 ∧
      (ReceiveMessage c (b :: rest) s m P).state.Buffer_ = s.Buffer_ ∧
      (ReceiveMessage c (b :: rest) s m P).writes = []) := by
  have h0 : parserInv c s0 := by
    refine ⟨by rw [hps]; omega, fun h => by rw [hps] at h; omega, fun _ => hlen⟩
  have hi := receiveCalls_inv c hhl hcl hK calls s0 h0
  refine ⟨hi.1, hi.2.1, hi.2.2, (ReceiveMessage_inv c hhl hcl hK bus _ m P hi).2, ?_⟩
  intro s b rest h4 hL
  obtain ⟨a1, a2, a3, a4, a5, _⟩ := receive_rejects_length c s b rest m P h4 hL
  exact ⟨a1, a2, a3, a4, a5⟩

/-- C21: with the frame layout of comms.cpp (`frameLayout`), for every message ID (a byte) and
every payload of bytes whose size is below `kUartBufferMaxSize - headerLength_ -
checksumLength_`: `ReceiveMessage`, called on a parser in its reset state (`ParserState_`
= 0, `Length_` = 0) with the bytes written by `SendMessage` in the bus, returns true, with
`*message` the ID sent and `*Payload` the payload sent, byte for byte; the parser is in its
reset state again and the bus is empty.  The frame has `Payload.size() + headerLength_ +
checksumLength_` bytes, and `CheckMessages` on it leaves the message pending with that ID
and that payload. -/
theorem C21_frame_round_trip (c : CommsConstants) (hc : frameLayout c)
    (tx rx : AircraftSocComms) (htx : tx.Buffer_.length = c.kUartBufferMaxSize)
    (hrx : rx.Buffer_.length = c.kUartBufferMaxSize)
    (hps : rx.ParserState_ = 0) (hlen : rx.Length_ = 0)
    (message : Nat) (hm : message < 256) (Payload : List Nat)
    (hp : ∀ b ∈ Payload, b < 256)
    (hsize : Payload.length < c.kUartBufferMaxSize - c.headerLength_ - c.checksumLength_)
    (m0 : Nat) (P0 : List Nat) :
    (ReceiveMessage c (SendMessage c tx message Payload).written rx m0 P0).ret = true ∧
    (ReceiveMessage c (SendMessage c tx message Payload).written rx m0 P0).message = message ∧
    (ReceiveMessage c (SendMessage c tx message Payload).written rx m0 P0).Payload = Payload ∧
    (ReceiveMessage c (SendMessage c tx message Payload).written rx m0 P0).state.ParserState_
      = 0 ∧
    (ReceiveMessage c (SendMessage c tx message Payload).written rx m0 P0).state.Length_ = 0 ∧
    (ReceiveMessage c (SendMessage c tx message Payload).written rx m0 P0).bus = [] ∧
    (SendMessage c tx message Payload).written.length
      = Payload.length + c.headerLength_ + c.checksumLength_ ∧
    (CheckMessages c (SendMessage c tx message Payload).written rx).1.MessageReceived_ = true ∧
    (CheckMessages c (SendMessage c tx message Payload).written rx).1.ReceivedMessage_
      = message ∧
    (CheckMessages c (SendMessage c tx message Payload).written rx).1.ReceivedPayload_
      = Payload := by
  obtain ⟨a1, a2, a3, a4, a5, a6⟩ := sent_frame_received c hc tx rx htx hrx hps hlen message hm Payload
    hp hsize m0 P0
  obtain ⟨b1, b2, b3, _⟩ := sent_frame_received c hc tx rx htx hrx hps hlen message hm Payload
    hp hsize rx.ReceivedMessage_ rx.ReceivedPayload_
  refine ⟨a1, a2, a3, a4, a5, a6, ?_, b1, b2, b3⟩
  rw [SendMessage_written c hc tx htx message Payload hsize, hc.1, hc.2.1]
  simp [frameHeader]

/-- C21, witness: the frame of message 2 with the payload 7, 200, 9 is
`42 46 02 03 00 07 c8 09 65 c3`, and a parser in its reset state reads message 2 and the
payload 7, 200, 9 from it. -/
theorem C21_frame_round_trip_witness :
    (SendMessage demoLink demoComms 2 [7, 200, 9]).written
        = [0x42, 0x46, 2, 3, 0, 7, 200, 9, 101, 195]
      ∧ (ReceiveMessage demoLink (SendMessage demoLink demoComms 2 [7, 200, 9]).written
          demoComms 9 [1]).message = 2
      ∧ (ReceiveMessage demoLink (SendMessage demoLink demoComms 2 [7, 200, 9]).written
          demoComms 9 [1]).Payload = [7, 200, 9] :=
  ⟨by decide,
    (C21_frame_round_trip demoLink ⟨rfl, rfl, by decide, by decide, by decide, by decide⟩
      demoComms demoComms rfl rfl rfl rfl 2 (by decide) [7, 200, 9] (by decide) (by decide)
      9 [1]).2.1,
    (C21_frame_round_trip demoLink ⟨rfl, rfl, by decide, by decide, by decide, by decide⟩
      demoComms demoComms rfl rfl rfl rfl 2 (by decide) [7, 200, 9] (by decide) (by decide)
      9 [1]).2.2.1⟩

/-- C22: with the frame layout of comms.cpp, for every frame written by `SendMessage` and every
index `j` of the message-ID byte (2), of a payload byte or of one of the two checksum bytes:
when the byte at `j` is replaced by a different byte `v`, `ReceiveMessage`, called on a
parser in its reset state with the changed frame in the bus, returns false, leaves
`*message` and `*Payload` as they were, and leaves the parser in state 0 with `Length_` = 0;
at most the last byte of the frame is still in the bus; and `CheckMessages` on the changed
frame leaves no message pending. -/
theorem C22_single_byte_corruption_is_detected (c : CommsConstants) (hc : frameLayout c)
    (tx rx : AircraftSocComms) (htx : tx.Buffer_.length = c.kUartBufferMaxSize)
    (hrx : rx.Buffer_.length = c.kUartBufferMaxSize)
    (hps : rx.ParserState_ = 0) (hlen : rx.Length_ = 0)
    (message : Nat) (hm : message < 256) (Payload : List Nat)
    (hp : ∀ b ∈ Payload, b < 256)
    (hsize : Payload.length < c.kUartBufferMaxSize - c.headerLength_ - c.checksumLength_)
    (j v : Nat) (hj : j = 2 ∨ (5 ≤ j ∧ j < Payload.length + 7)) (hv : v < 256)
    (hne : (SendMessage c tx message Payload).written.getD j 0 ≠ v)
    (m0 : Nat) (P0 : List Nat) :
    (ReceiveMessage c ((SendMessage c tx message Payload).written.set j v) rx m0 P0).ret
      = false ∧
    (ReceiveMessage c ((SendMessage c tx message Payload).written.set j v) rx m0 P0).message
      = m0 ∧
    (ReceiveMessage c ((SendMessage c tx message Payload).written.set j v) rx m0 P0).Payload
      = P0 ∧
    (ReceiveMessage c ((SendMessage c tx message Payload).written.set j v) rx m0
      P0).state.ParserState_ = 0 ∧
    (ReceiveMessage c ((SendMessage c tx message Payload).written.set j v) rx m0
      P0).state.Length_ = 0 ∧
    (ReceiveMessage c ((SendMessage c tx message Payload).written.set j v) rx m0
      P0).bus.length ≤ 1 ∧
    (CheckMessages c ((SendMessage c tx message Payload).written.set j v)
      rx).1.MessageReceived_ = false ∧
    (CheckMessages c ((SendMessage c tx message Payload).written.set j v)
      rx).1.ReceivedMessage_ = rx.ReceivedMessage_ ∧
    (CheckMessages c ((SendMessage c tx message Payload).written.set j v)
      rx).1.ReceivedPayload_ = rx.ReceivedPayload_ := by
  obtain ⟨a1, a2, a3, a4, a5, a6⟩ := corrupted_frame c hc tx rx htx hrx hps hlen message hm
    Payload hp hsize j v hj hv hne m0 P0
  obtain ⟨b1, b2, b3, _⟩ := corrupted_frame c hc tx rx htx hrx hps hlen message hm
    Payload hp hsize j v hj hv hne rx.ReceivedMessage_ rx.ReceivedPayload_
  exact ⟨a1, a2, a3, a4, a5, a6, b1, b2, b3⟩

/-- C22, witness: with the payload byte 200 of the frame of C21 changed to 201,
`ReceiveMessage` returns false and the parser is back in state 0. -/
theorem C22_single_byte_corruption_is_detected_witness :
    (SendMessage demoLink demoComms 2 [7, 200, 9]).written.set 6 201
        = [0x42, 0x46, 2, 3, 0, 7, 201, 9, 101, 195]
      ∧ (ReceiveMessage demoLink ((SendMessage demoLink demoComms 2 [7, 200, 9]).written.set
          6 201) demoComms 9 [1]).ret = false
      ∧ (ReceiveMessage demoLink ((SendMessage demoLink demoComms 2 [7, 200, 9]).written.set
          6 201) demoComms 9 [1]).state.ParserState_ = 0 :=
  ⟨by decide,
    (C22_single_byte_corruption_is_detected demoLink
      ⟨rfl, rfl, by decide, by decide, by decide, by decide⟩
      demoComms demoComms rfl rfl rfl rfl 2 (by decide) [7, 200, 9] (by decide) (by decide)
      6 201 (by decide) (by decide) (by decide) 9 [1]).1,
    (C22_single_byte_corruption_is_detected demoLink
      ⟨rfl, rfl, by decide, by decide, by decide, by decide⟩
      demoComms demoComms rfl rfl rfl rfl 2 (by decide) [7, 200, 9] (by decide) (by decide)
      6 201 (by decide) (by decide) (by decide) 9 [1]).2.2.2.1⟩

/-- C24, witness: with a 16-byte frame buffer, after the first six bytes of a frame with a
three-byte payload the parser is in state 6 and the next call writes below index 14; a
frame that declares 10 payload bytes (more than 16 - 5 - 2) is rejected when its length is
read, after writes to the indices 0 to 3 only. -/
theorem C24_parser_writes_inside_the_frame_buffer_witness :
    (receiveCalls demoLink demoComms [([0x42, 0x46, 1, 3, 0, 7], 9, [1])]).ParserState_ = 6
      ∧ (∀ i ∈ (ReceiveMessage demoLink [8, 9, 10, 11]
            (receiveCalls demoLink demoComms [([0x42, 0x46, 1, 3, 0, 7], 9, [1])])
            9 [1]).writes, i < 16 - 2)
      ∧ (ReceiveMessage demoLink [0x42, 0x46, 1, 10, 0, 1, 2, 3, 4] demoComms 9 [1]).ret
          = false
      ∧ (ReceiveMessage demoLink [0x42, 0x46, 1, 10, 0, 1, 2, 3, 4] demoComms 9 [1]).writes
          = [0, 1, 2, 3] :=
  ⟨by decide,
    (C24_parser_writes_inside_the_frame_buffer demoLink rfl rfl (by decide) demoComms rfl rfl
      [([0x42, 0x46, 1, 3, 0, 7], 9, [1])] [8, 9, 10, 11] 9 [1]).2.2.2.1,
    by decide, by decide⟩

/-- C25, witness: with a mode command of payload 3 pending, the call returns true, stores 3 as
the mode and clears the flag. -/
theorem C25_ReceiveModeCommand_takes_a_pending_mode_command_witness :
    (ReceiveModeCommand demoLink demoPending 0).ret = true
      ∧ (ReceiveModeCommand demoLink demoPending 0).mode = 3
      ∧ (ReceiveModeCommand demoLink demoPending 0).state.MessageReceived_ = false :=
  ⟨(C25_ReceiveModeCommand_takes_a_pending_mode_command demoLink demoPending 0).1.mpr
      ⟨rfl, rfl, rfl⟩,
    by decide, by decide⟩

/-! ## The block factories and the latch on an engine without blocks -/

/-- C26: for every `Type` value `t`, the chain of tests of the Baseline loop and the chain of
the Research loop select the same class, or both end in the `throw` of "Type specified is
not a defined type" (which happens exactly when `t` is none of the eleven identifiers); and
for every block-config with that `Type`, every engine state and every path, one pass of the
Baseline loop and one pass of the Research loop end with the same error (or none), leave
the same tree and append the same block (of the same class, configured by the same call) to
the Baseline vector and to the vector of the group. -/
theorem C26_the_two_block_factories_agree {B : Type} (ops : GenericFunction B) (t : String)
    (members : List (String × String)) (PathName GroupKey : String)
    (s : SensorProcessing B) :
    researchKind t = baselineKind t ∧
    ((∃ k, baselineKind t = some k ∧ researchKind t = some k) ∨
      (baselineKind t = none ∧ researchKind t = none ∧
        (configureBaselineLoop ops PathName [⟨some t, members⟩] s).error
          = some (typeUnknownMessage PathName) ∧
        (configureComponentsLoop ops PathName GroupKey [⟨some t, members⟩] s).error
          = some (typeUnknownMessage PathName))) ∧
    (baselineKind t = none ↔ t ∉ definedTypes) ∧
    (configureComponentsLoop ops PathName GroupKey [⟨some t, members⟩] s).error
      = (configureBaselineLoop ops PathName [⟨some t, members⟩] s).error ∧
    (configureComponentsLoop ops PathName GroupKey [⟨some t, members⟩] s).state.deftree
      = (configureBaselineLoop ops PathName [⟨some t, members⟩] s).state.deftree ∧
    (configureBaselineLoop ops PathName [⟨some t, members⟩] s).state.BaselineSensorProcessing_
      = s.BaselineSensorProcessing_
          ++ builtBlocks ops PathName ⟨some t, members⟩ s.deftree (baselineKind t) ∧
    mapAt (configureComponentsLoop ops PathName GroupKey
        [⟨some t, members⟩] s).state.ResearchSensorProcessingGroups_ GroupKey
      = mapAt s.ResearchSensorProcessingGroups_ GroupKey
          ++ builtBlocks ops PathName ⟨some t, members⟩ s.deftree (researchKind t) := by
  have hr : researchKind t = baselineKind t := researchKind_eq_baselineKind t
  refine ⟨hr, ?_, baselineKind_eq_none t, ?_⟩
  · cases hk : baselineKind t with
    | some k => exact Or.inl ⟨k, rfl, by rw [hr, hk]⟩
    | none =>
      refine Or.inr ⟨rfl, by rw [hr, hk], ?_, ?_⟩
      · simp only [configureBaselineLoop, hk, typeUnknownMessage]
      · simp only [configureComponentsLoop, hr, hk, typeUnknownMessage]
  · cases hk : baselineKind t with
    | none =>
      simp only [configureBaselineLoop, configureComponentsLoop, hr, hk, builtBlocks,
        List.append_nil, and_self]
    | some k =>
      cases he : (ops.Configure (ops.make k) ⟨some t, members⟩ PathName s.deftree).2.2 with
      | some e =>
        simp [configureBaselineLoop, configureComponentsLoop, hr, hk, he, builtBlocks,
          mapAt_mapAssign]
      | none =>
        simp [configureBaselineLoop, configureComponentsLoop, hr, hk, he, builtBlocks,
          mapAt_mapAssign]

/-- The loop over the group names makes no call when every listed group is empty. -/
theorem initGroups_empty {B : Type} (ops : GenericFunction B) (keys : List String) :
    ∀ (m : StdMap (List (Block B))) (dt : DefinitionTree2) (b : Bool),
      (∀ G ∈ keys, mapAt m G = []) →
      (initGroups ops keys m dt b).initialized = b ∧ (initGroups ops keys m dt b).trace = [] := by
  induction keys with
  | nil => intro m dt b _; exact ⟨rfl, rfl⟩
  | cons G rest ih =>
    intro m dt b h
    have hG : mapAt m G = [] := h G (List.mem_cons_self _ _)
    have hrest : ∀ G2 ∈ rest, mapAt (mapAssign m G []) G2 = [] := by
      intro G2 h2
      rw [mapAt_mapAssign]
      split
      · rfl
      · exact h G2 (List.mem_cons_of_mem _ h2)
    obtain ⟨i1, i2⟩ := ih (mapAssign m G []) dt b hrest
    simp only [initGroups, hG, initVector, List.nil_append]
    exact ⟨i1, i2⟩

/-- A poll of an engine without blocks returns true and sets the latch. -/
theorem Initialized_holdsNoBlock {B : Type} (ops : GenericFunction B) (s : SensorProcessing B)
    (h : holdsNoBlock s) :
    (Initialized ops s).ret = true ∧ (Initialized ops s).trace = [] ∧
      (Initialized ops s).state.InitializedLatch_ = true := by
  cases hl : s.InitializedLatch_ with
  | true => rw [Initialized_of_latch ops s hl]; exact ⟨rfl, rfl, hl⟩
  | false =>
    obtain ⟨h1, h2, h3⟩ := Initialized_unset ops s hl
    obtain ⟨g1, g2⟩ := initGroups_empty ops s.ResearchGroupKeys_
      s.ResearchSensorProcessingGroups_
      (initVector ops Owner.Baseline 0 s.BaselineSensorProcessing_ s.deftree true).deftree
      (initVector ops Owner.Baseline 0 s.BaselineSensorProcessing_ s.deftree true).initialized
      h.2
    rw [g2, h.1] at h1
    rw [g1, h.1] at h2
    simp only [initVector, List.append_nil] at h1 h2
    exact ⟨h2, h1, h3.trans h2⟩

/-- The loop over the `Research` array adds no block when every entry has a name and an
empty `Components` array, and it does not throw. -/
theorem configureResearchLoop_no_components {B : Type} (ops : GenericFunction B)
    (l : List GroupConfig) :
    ∀ (s : SensorProcessing B) (okm : StdMap String),
      (∀ Group ∈ l, Group.GroupName ≠ none ∧ Group.Components = some []) →
      (configureResearchLoop ops l s okm).error = none ∧
      (configureResearchLoop ops l s okm).state.BaselineSensorProcessing_
        = s.BaselineSensorProcessing_ ∧
      (configureResearchLoop ops l s okm).state.ResearchSensorProcessingGroups_
        = s.ResearchSensorProcessingGroups_ := by
  induction l with
  | nil => intro s okm _; exact ⟨rfl, rfl, rfl⟩
  | cons Group rest ih =>
    intro s okm h
    obtain ⟨hn, hc⟩ := h Group (List.mem_cons_self _ _)
    cases h1 : Group.GroupName with
    | none => exact absurd h1 hn
    | some name =>
      have hd : configureResearchLoop ops (Group :: rest) s okm
          = configureResearchLoop ops rest
              { s with ResearchGroupKeys_ := s.ResearchGroupKeys_ ++ [name],
                       ResearchDataKeys_ := mapAssign s.ResearchDataKeys_ name
                        (GetKeys s.deftree (s.RootPath_ ++ "/" ++ name)) }
              (harvestOutputKeys s.RootPath_
                (GetKeys s.deftree (s.RootPath_ ++ "/" ++ name)) okm) := by
        simp only [configureResearchLoop, h1, hc, configureComponentsLoop]
      rw [hd]
      exact ih _ _ (fun G hG => h G (List.mem_cons_of_mem _ hG))

/-- A document with an empty `Baseline` array and no component in any research group
builds no block. -/
theorem Configure_empty_holdsNoBlock {B : Type} (ops : GenericFunction B) (c : Config)
    (dt : DefinitionTree2) (hB : c.Baseline = some [])
    (hR : ∀ Group ∈ c.Research.getD [], Group.GroupName ≠ none ∧ Group.Components = some []) :
    (Configure ops c (SensorProcessing.fresh B dt)).error = none ∧
      holdsNoBlock (Configure ops c (SensorProcessing.fresh B dt)).state := by
  have hb : (configureBaseline ops c (SensorProcessing.fresh B dt)).error = none ∧
      (configureBaseline ops c (SensorProcessing.fresh B dt)).state.BaselineSensorProcessing_
        = [] ∧
      (configureBaseline ops c
        (SensorProcessing.fresh B dt)).state.ResearchSensorProcessingGroups_ = [] := by
    simp only [configureBaseline, hB, configureBaselineLoop]
    exact ⟨trivial, rfl, rfl⟩
  have hq : ∀ (st : SensorProcessing B) (okm : StdMap String),
      (configureResearch ops c st okm).error = none ∧
      (configureResearch ops c st okm).state.BaselineSensorProcessing_
        = st.BaselineSensorProcessing_ ∧
      (configureResearch ops c st okm).state.ResearchSensorProcessingGroups_
        = st.ResearchSensorProcessingGroups_ := by
    intro st okm
    cases hr : c.Research with
    | none => simp only [configureResearch, hr, and_self]
    | some l =>
      rw [hr] at hR
      simp only [configureResearch, hr]
      exact configureResearchLoop_no_components ops l st okm hR
  obtain ⟨q1, q2, q3⟩ := hq (configureBaseline ops c (SensorProcessing.fresh B dt)).state
    (configureBaseline ops c (SensorProcessing.fresh B dt)).OutputKeysMap
  have he : (Configure ops c (SensorProcessing.fresh B dt)).error = none := by
    rw [Configure_error_eq, hb.1]
    exact q1
  obtain ⟨_, _, hst⟩ := Configure_of_success ops c _ he
  obtain ⟨b1, b2, _⟩ := (resolveAliases_view
    ((configureResearch ops c (configureBaseline ops c (SensorProcessing.fresh B dt)).state
      (configureBaseline ops c (SensorProcessing.fresh B dt)).OutputKeysMap).OutputKeysMap.map
        Prod.snd)
    (configureResearch ops c (configureBaseline ops c (SensorProcessing.fresh B dt)).state
      (configureBaseline ops c (SensorProcessing.fresh B dt)).OutputKeysMap).state).1
  refine ⟨he, ?_, ?_⟩
  · rw [hst]
    exact b1.trans (q2.trans hb.2.1)
  · intro G _
    rw [hst]
    have : (resolveAliases
        ((configureResearch ops c (configureBaseline ops c (SensorProcessing.fresh B dt)).state
          (configureBaseline ops c
            (SensorProcessing.fresh B dt)).OutputKeysMap).OutputKeysMap.map Prod.snd)
        (configureResearch ops c (configureBaseline ops c (SensorProcessing.fresh B dt)).state
          (configureBaseline ops c
            (SensorProcessing.fresh B dt)).OutputKeysMap).state).ResearchSensorProcessingGroups_
        = [] := b2.trans (q3.trans hb.2.2)
    show mapAt _ G = []
    simp only [this]
    rfl

/-- C27: on an engine that holds no block, a call of `Initialized()` returns true, calls
`Initialize` on no block and leaves the latch set; after any later sequence of calls of the
member functions (so after any later `Configure`, which may add blocks), `Initialized()`
still returns true, calls `Initialize` on no block and changes nothing.  A fresh engine
holds no block, and neither does the engine after `Configure` of a document whose
`Baseline` is the empty array and whose research groups, if any, have a name and an empty
`Components` array (and that `Configure` returns normally). -/
theorem C27_latch_set_on_an_engine_without_blocks {B : Type} (ops : GenericFunction B)
    (s : SensorProcessing B) (h : holdsNoBlock s) (l : List Op) (dt : DefinitionTree2)
    (c : Config) :
    (Initialized ops s).ret = true ∧
    (Initialized ops s).trace = [] ∧
    (Initialized ops s).state.InitializedLatch_ = true ∧
    (Initialized ops (stepAll ops (Initialized ops s).state l)).ret = true ∧
    (Initialized ops (stepAll ops (Initialized ops s).state l)).trace = [] ∧
    (Initialized ops (stepAll ops (Initialized ops s).state l)).state
      = stepAll ops (Initialized ops s).state l ∧
    holdsNoBlock (SensorProcessing.fresh B dt) ∧
    (c.Baseline = some [] →
      (∀ Group ∈ c.Research.getD [],
        Group.GroupName ≠ none ∧ Group.Components = some []) →
      (Configure ops c (SensorProcessing.fresh B dt)).error = none ∧
        holdsNoBlock (Configure ops c (SensorProcessing.fresh B dt)).state) := by
  obtain ⟨h1, h2, h3⟩ := Initialized_holdsNoBlock ops s h
  have hl := stepAll_latch ops l _ h3
  rw [Initialized_of_latch ops _ hl]
  exact ⟨h1, h2, h3, rfl, rfl, rfl, ⟨rfl, fun G hG => absurd hG (List.not_mem_nil G)⟩,
    Configure_empty_holdsNoBlock ops c dt⟩

/-- C27, witness: a fresh engine is polled, then configured from `cfgGainConstant`: the poll
returned true, the engine now holds a `GainClass` and a `ConstantClass` block in Baseline,
and the next poll returns true without a call of `Initialize`; a document with an empty
`Baseline` and a group "G" without components leaves an engine without blocks. -/
theorem C27_latch_set_on_an_engine_without_blocks_witness :
    (Initialized demoBlocks
        (SensorProcessing.fresh (BlockKind × Nat) DefinitionTree2.empty)).ret = true
      ∧ kindsOf (stepAll demoBlocks (Initialized demoBlocks
          (SensorProcessing.fresh (BlockKind × Nat) DefinitionTree2.empty)).state
          [Op.Configure cfgGainConstant]).BaselineSensorProcessing_
        = [some BlockKind.GainClass, some BlockKind.ConstantClass]
      ∧ (Initialized demoBlocks (stepAll demoBlocks (Initialized demoBlocks
          (SensorProcessing.fresh (BlockKind × Nat) DefinitionTree2.empty)).state
          [Op.Configure cfgGainConstant])).ret = true
      ∧ (Initialized demoBlocks (stepAll demoBlocks (Initialized demoBlocks
          (SensorProcessing.fresh (BlockKind × Nat) DefinitionTree2.empty)).state
          [Op.Configure cfgGainConstant])).trace = []
      ∧ holdsNoBlock (Configure demoBlocks ⟨some [], some [⟨some "G", some []⟩]⟩
          (SensorProcessing.fresh (BlockKind × Nat) DefinitionTree2.empty)).state :=
  ⟨(C27_latch_set_on_an_engine_without_blocks demoBlocks
      (SensorProcessing.fresh (BlockKind × Nat) DefinitionTree2.empty)
      ⟨rfl, fun G hG => absurd hG (List.not_mem_nil G)⟩ [Op.Configure cfgGainConstant]
      DefinitionTree2.empty cfgGainConstant).1,
    by decide,
    (C27_latch_set_on_an_engine_without_blocks demoBlocks
      (SensorProcessing.fresh (BlockKind × Nat) DefinitionTree2.empty)
      ⟨rfl, fun G hG => absurd hG (List.not_mem_nil G)⟩ [Op.Configure cfgGainConstant]
      DefinitionTree2.empty cfgGainConstant).2.2.2.1,
    (C27_latch_set_on_an_engine_without_blocks demoBlocks
      (SensorProcessing.fresh (BlockKind × Nat) DefinitionTree2.empty)
      ⟨rfl, fun G hG => absurd hG (List.not_mem_nil G)⟩ [Op.Configure cfgGainConstant]
      DefinitionTree2.empty cfgGainConstant).2.2.2.2.1,
    ((C27_latch_set_on_an_engine_without_blocks demoBlocks
      (SensorProcessing.fresh (BlockKind × Nat) DefinitionTree2.empty)
      ⟨rfl, fun G hG => absurd hG (List.not_mem_nil G)⟩ []
      DefinitionTree2.empty ⟨some [], some [⟨some "G", some []⟩]⟩).2.2.2.2.2.2.2 rfl
      (by decide)).2⟩

/-! ## The state after `Run` and `Initialized`, and `Configure` on an engine that is not fresh -/

/-- Setting a vector twice keeps the second one. -/
theorem setBlocksAt_twice {B : Type} (f : Owner → List (Block B)) (owner : Owner)
    (v w : List (Block B)) :
    setBlocksAt (setBlocksAt f owner v) owner w = setBlocksAt f owner w := by
  funext o
  simp only [setBlocksAt]
  split <;> rfl

/-- Setting a vector to itself changes nothing. -/
theorem setBlocksAt_self {B : Type} (f : Owner → List (Block B)) (owner : Owner) :
    setBlocksAt f owner (f owner) = f := by
  funext o
  simp only [setBlocksAt]
  split
  · rename_i h; rw [h]
  · rfl

/-- The calls of a loop over a vector, made one after the other, leave the blocks and the
tree the loop leaves. -/
theorem runVector_replay {B : Type} (ops : GenericFunction B) (owner : Owner) (mode : Mode)
    (bs : List (Block B)) :
    ∀ (done : List (Block B)) (i : Nat) (f : Owner → List (Block B)) (dt : DefinitionTree2),
      f owner = done ++ bs → done.length = i →
      (runVector ops owner mode i bs dt).trace.foldl (callRun ops) (f, dt)
        = (setBlocksAt f owner (done ++ (runVector ops owner mode i bs dt).blocks),
            (runVector ops owner mode i bs dt).deftree) := by
  induction bs with
  | nil =>
    intro done i f dt hf _
    simp only [runVector, List.foldl_nil, List.append_nil] at hf ⊢
    rw [← hf, setBlocksAt_self]
  | cons Func rest ih =>
    intro done i f dt hf hi
    have hget : (f owner)[i]? = some Func := by
      rw [hf, ← hi, List.getElem?_append_right (le_refl _)]; simp
    have hset : (f owner).set i { Func with obj := (ops.Run Func.obj mode dt).1 }
        = (done ++ [{ Func with obj := (ops.Run Func.obj mode dt).1 }]) ++ rest := by
      rw [hf, ← hi, List.set_append_right _ _ (le_refl _)]
      simp
    have hstep : callRun ops (f, dt) ⟨owner, i, mode⟩
        = (setBlocksAt f owner
            ((done ++ [{ Func with obj := (ops.Run Func.obj mode dt).1 }]) ++ rest),
          (ops.Run Func.obj mode dt).2) := by
      simp only [callRun, hget, hset]
    have := ih (done ++ [{ Func with obj := (ops.Run Func.obj mode dt).1 }]) (i + 1)
      (setBlocksAt f owner
        ((done ++ [{ Func with obj := (ops.Run Func.obj mode dt).1 }]) ++ rest))
      (ops.Run Func.obj mode dt).2 (by simp [setBlocksAt]) (by simp [hi])
    simp only [runVector, List.foldl_cons, hstep]
    rw [this, setBlocksAt_twice]
    simp

/-- The calls of the loop over the group names (branch "Baseline"), made one after the
other, leave the blocks and the tree the loop leaves. -/
theorem runGroupsArm_replay {B : Type} (ops : GenericFunction B) (keys : List String) :
    ∀ (m : StdMap (List (Block B))) (f : Owner → List (Block B)) (dt : DefinitionTree2),
      (∀ G, f (Owner.Research G) = mapAt m G) →
      ((runGroupsArm ops keys m dt).trace.foldl (callRun ops) (f, dt)).2
          = (runGroupsArm ops keys m dt).deftree
        ∧ ((runGroupsArm ops keys m dt).trace.foldl (callRun ops) (f, dt)).1 Owner.Baseline
          = f Owner.Baseline
        ∧ ∀ G, ((runGroupsArm ops keys m dt).trace.foldl (callRun ops) (f, dt)).1
            (Owner.Research G) = mapAt (runGroupsArm ops keys m dt).groups G := by
  induction keys with
  | nil => intro m f dt hf; exact ⟨rfl, rfl, hf⟩
  | cons Group rest ih =>
    intro m f dt hf
    have hv := runVector_replay ops (Owner.Research Group) Mode.kArm (mapAt m Group) [] 0 f dt
      (by rw [hf]; rfl) rfl
    simp only [List.nil_append] at hv
    obtain ⟨i1, i2, i3⟩ := ih
      (mapAssign m Group
        (runVector ops (Owner.Research Group) Mode.kArm 0 (mapAt m Group) dt).blocks)
      (setBlocksAt f (Owner.Research Group)
        (runVector ops (Owner.Research Group) Mode.kArm 0 (mapAt m Group) dt).blocks)
      (runVector ops (Owner.Research Group) Mode.kArm 0 (mapAt m Group) dt).deftree
      (by
        intro G
        rw [mapAt_mapAssign]
        simp only [setBlocksAt, Owner.Research.injEq]
        by_cases h : G = Group
        · simp [h]
        · have h2 : ¬ Group = G := fun e => h e.symm
          simp [h, h2, hf])
    simp only [runGroupsArm, List.foldl_append, hv]
    refine ⟨i1, ?_, i3⟩
    rw [i2]
    simp [setBlocksAt]

/-- The calls of the loop over the group names (branch `else`), made one after the other,
leave the blocks and the tree the loop leaves. -/
theorem runGroupsEngaged_replay {B : Type} (ops : GenericFunction B) (e : String)
    (keys : List String) :
    ∀ (m : StdMap (List (Block B))) (f : Owner → List (Block B)) (dt : DefinitionTree2),
      (∀ G, f (Owner.Research G) = mapAt m G) →
      ((runGroupsEngaged ops e keys m dt).trace.foldl (callRun ops) (f, dt)).2
          = (runGroupsEngaged ops e keys m dt).deftree
        ∧ ((runGroupsEngaged ops e keys m dt).trace.foldl (callRun ops) (f, dt)).1
            Owner.Baseline = f Owner.Baseline
        ∧ ∀ G, ((runGroupsEngaged ops e keys m dt).trace.foldl (callRun ops) (f, dt)).1
            (Owner.Research G) = mapAt (runGroupsEngaged ops e keys m dt).groups G := by
  induction keys with
  | nil => intro m f dt hf; exact ⟨rfl, rfl, hf⟩
  | cons Group rest ih =>
    intro m f dt hf
    have hv := runVector_replay ops (Owner.Research Group)
      (if Group = e then Mode.kEngage else Mode.kArm) (mapAt m Group) [] 0 f dt
      (by rw [hf]; rfl) rfl
    simp only [List.nil_append] at hv
    obtain ⟨i1, i2, i3⟩ := ih
      (mapAssign m Group
        (runVector ops (Owner.Research Group) (if Group = e then Mode.kEngage else Mode.kArm)
          0 (mapAt m Group) dt).blocks)
      (setBlocksAt f (Owner.Research Group)
        (runVector ops (Owner.Research Group) (if Group = e then Mode.kEngage else Mode.kArm)
          0 (mapAt m Group) dt).blocks)
      (runVector ops (Owner.Research Group) (if Group = e then Mode.kEngage else Mode.kArm)
        0 (mapAt m Group) dt).deftree
      (by
        intro G
        rw [mapAt_mapAssign]
        simp only [setBlocksAt, Owner.Research.injEq]
        by_cases h : G = Group
        · simp [h]
        · have h2 : ¬ Group = G := fun e => h e.symm
          simp [h, h2, hf])
    simp only [runGroupsEngaged, runVectorEngaged_eq, List.foldl_append, hv]
    refine ⟨i1, ?_, i3⟩
    rw [i2]
    simp [setBlocksAt]

/-- The blocks and the tree after `Run` are those left by the calls of its log, made one
after the other on the blocks they name; `Run` changes nothing else. -/
theorem Run_replay {B : Type} (ops : GenericFunction B) (s : SensorProcessing B) :
    blocksView (Run ops s).state = (Run ops s).trace.foldl (callRun ops) (blocksView s)
      ∧ sameSetup s (Run ops s).state
      ∧ (Run ops s).state.InitializedLatch_ = s.InitializedLatch_ := by
  unfold Run
  split
  · refine ⟨?_, ⟨rfl, rfl, rfl, rfl, rfl, rfl, rfl, rfl, rfl⟩, rfl⟩
    have hv := runVector_replay ops Owner.Baseline Mode.kEngage s.BaselineSensorProcessing_
      [] 0 (blocksOf s) s.deftree rfl rfl
    simp only [List.nil_append] at hv
    obtain ⟨g1, g2, g3⟩ := runGroupsArm_replay ops s.ResearchGroupKeys_
      s.ResearchSensorProcessingGroups_
      (setBlocksAt (blocksOf s) Owner.Baseline
        (runVector ops Owner.Baseline Mode.kEngage 0 s.BaselineSensorProcessing_
          s.deftree).blocks)
      (runVector ops Owner.Baseline Mode.kEngage 0 s.BaselineSensorProcessing_
        s.deftree).deftree
      (fun G => by simp [setBlocksAt, blocksOf])
    simp only [blocksView, List.foldl_append, hv]
    refine Prod.ext ?_ g1.symm
    funext o
    cases o with
    | Baseline => rw [g2]; simp [setBlocksAt, blocksOf]
    | Research G => rw [g3]; rfl
  · refine ⟨?_, ⟨rfl, rfl, rfl, rfl, rfl, rfl, rfl, rfl, rfl⟩, rfl⟩
    have hv := runVector_replay ops Owner.Baseline Mode.kArm s.BaselineSensorProcessing_
      [] 0 (blocksOf s) s.deftree rfl rfl
    simp only [List.nil_append] at hv
    obtain ⟨g1, g2, g3⟩ := runGroupsEngaged_replay ops s.EngagedGroup_ s.ResearchGroupKeys_
      s.ResearchSensorProcessingGroups_
      (setBlocksAt (blocksOf s) Owner.Baseline
        (runVector ops Owner.Baseline Mode.kArm 0 s.BaselineSensorProcessing_
          s.deftree).blocks)
      (runVector ops Owner.Baseline Mode.kArm 0 s.BaselineSensorProcessing_
        s.deftree).deftree
      (fun G => by simp [setBlocksAt, blocksOf])
    simp only [blocksView, List.foldl_append, hv]
    refine Prod.ext ?_ g1.symm
    funext o
    cases o with
    | Baseline => rw [g2]; simp [setBlocksAt, blocksOf]
    | Research G => rw [g3]; rfl

/-- A log made of two parts is faithful when the first part is, and the second part is from
where the first part leaves. -/
theorem readyAfterInitialize_append {B : Type} (ops : GenericFunction B) (l1 : List InitCall) :
    ∀ (σ : BlocksView B) (l2 : List InitCall),
      readyAfterInitialize ops σ l1 →
      readyAfterInitialize ops (l1.foldl (callInitialize ops) σ) l2 →
      readyAfterInitialize ops σ (l1 ++ l2) := by
  induction l1 with
  | nil => intro σ l2 _ h2; exact h2
  | cons c rest ih =>
    intro σ l2 h1 h2
    exact ⟨h1.1, ih _ l2 h1.2 h2⟩

/-- The calls of an initialisation loop over a vector, made one after the other, leave the
blocks and the tree the loop leaves, and the loop logs what the blocks report. -/
theorem initVector_replay {B : Type} (ops : GenericFunction B) (owner : Owner)
    (bs : List (Block B)) :
    ∀ (done : List (Block B)) (i : Nat) (f : Owner → List (Block B)) (dt : DefinitionTree2)
      (b : Bool), f owner = done ++ bs → done.length = i →
      (initVector ops owner i bs dt b).trace.foldl (callInitialize ops) (f, dt)
          = (setBlocksAt f owner (done ++ (initVector ops owner i bs dt b).blocks),
              (initVector ops owner i bs dt b).deftree)
        ∧ readyAfterInitialize ops (f, dt) (initVector ops owner i bs dt b).trace := by
  induction bs with
  | nil =>
    intro done i f dt b hf _
    simp only [initVector, List.foldl_nil, List.append_nil] at hf ⊢
    rw [← hf, setBlocksAt_self]
    exact ⟨rfl, trivial⟩
  | cons Func rest ih =>
    intro done i f dt b hf hi
    have hget : (f owner)[i]? = some Func := by
      rw [hf, ← hi, List.getElem?_append_right (le_refl _)]; simp
    have hset : (f owner).set i { Func with obj := (ops.Initialize Func.obj dt).1 }
        = (done ++ [{ Func with obj := (ops.Initialize Func.obj dt).1 }]) ++ rest := by
      rw [hf, ← hi, List.set_append_right _ _ (le_refl _)]
      simp
    have hstep : ∀ r : Bool, callInitialize ops (f, dt) ⟨owner, i, r⟩
        = (setBlocksAt f owner
            ((done ++ [{ Func with obj := (ops.Initialize Func.obj dt).1 }]) ++ rest),
          (ops.Initialize Func.obj dt).2) := by
      intro r
      simp only [callInitialize, hget, hset]
    obtain ⟨i1, i2⟩ := ih (done ++ [{ Func with obj := (ops.Initialize Func.obj dt).1 }])
      (i + 1)
      (setBlocksAt f owner
        ((done ++ [{ Func with obj := (ops.Initialize Func.obj dt).1 }]) ++ rest))
      (ops.Initialize Func.obj dt).2
      (if !(ops.Initialized (ops.Initialize Func.obj dt).1 (ops.Initialize Func.obj dt).2)
        then false else b)
      (by simp [setBlocksAt]) (by simp [hi])
    simp only [initVector, List.foldl_cons, hstep]
    refine ⟨?_, ⟨Func, hget, rfl⟩, ?_⟩
    · rw [i1, setBlocksAt_twice]
      simp
    · rw [hstep]
      exact i2

/-- The calls of the initialisation loop over the group names, made one after the other,
leave the blocks and the tree the loop leaves, and the loop logs what the blocks report. -/
theorem initGroups_replay {B : Type} (ops : GenericFunction B) (keys : List String) :
    ∀ (m : StdMap (List (Block B))) (f : Owner → List (Block B)) (dt : DefinitionTree2)
      (b : Bool), (∀ G, f (Owner.Research G) = mapAt m G) →
      ((initGroups ops keys m dt b).trace.foldl (callInitialize ops) (f, dt)).2
          = (initGroups ops keys m dt b).deftree
        ∧ ((initGroups ops keys m dt b).trace.foldl (callInitialize ops) (f, dt)).1
            Owner.Baseline = f Owner.Baseline
        ∧ (∀ G, ((initGroups ops keys m dt b).trace.foldl (callInitialize ops) (f, dt)).1
            (Owner.Research G) = mapAt (initGroups ops keys m dt b).groups G)
        ∧ readyAfterInitialize ops (f, dt) (initGroups ops keys m dt b).trace := by
  induction keys with
  | nil => intro m f dt b hf; exact ⟨rfl, rfl, hf, trivial⟩
  | cons Group rest ih =>
    intro m f dt b hf
    obtain ⟨hv, hr⟩ := initVector_replay ops (Owner.Research Group) (mapAt m Group) [] 0 f dt b
      (by rw [hf]; rfl) rfl
    simp only [List.nil_append] at hv
    obtain ⟨i1, i2, i3, i4⟩ := ih
      (mapAssign m Group (initVector ops (Owner.Research Group) 0 (mapAt m Group) dt b).blocks)
      (setBlocksAt f (Owner.Research Group)
        (initVector ops (Owner.Research Group) 0 (mapAt m Group) dt b).blocks)
      (initVector ops (Owner.Research Group) 0 (mapAt m Group) dt b).deftree
      (initVector ops (Owner.Research Group) 0 (mapAt m Group) dt b).initialized
      (by
        intro G
        rw [mapAt_mapAssign]
        simp only [setBlocksAt, Owner.Research.injEq]
        by_cases h : G = Group
        · simp [h]
        · have h2 : ¬ Group = G := fun e => h e.symm
          simp [h, h2, hf])
    simp only [initGroups, List.foldl_append, hv]
    refine ⟨i1, ?_, i3, ?_⟩
    · rw [i2]
      simp [setBlocksAt]
    · apply readyAfterInitialize_append ops _ _ _ hr
      rw [hv]
      exact i4

/-- The blocks and the tree after `Initialized` are those left by the calls of its log, made
one after the other on the blocks they name; each value logged is what the block reported
right after its call; `Initialized` changes nothing else but the latch. -/
theorem Initialized_replay {B : Type} (ops : GenericFunction B) (s : SensorProcessing B) :
    blocksView (Initialized ops s).state
        = (Initialized ops s).trace.foldl (callInitialize ops) (blocksView s)
      ∧ readyAfterInitialize ops (blocksView s) (Initialized ops s).trace
      ∧ sameSetup s (Initialized ops s).state := by
  cases hl : s.InitializedLatch_ with
  | true =>
    rw [Initialized_of_latch ops s hl]
    exact ⟨rfl, trivial, ⟨rfl, rfl, rfl, rfl, rfl, rfl, rfl, rfl, rfl⟩⟩
  | false =>
    obtain ⟨hv, hr⟩ := initVector_replay ops Owner.Baseline s.BaselineSensorProcessing_
      [] 0 (blocksOf s) s.deftree true rfl rfl
    simp only [List.nil_append] at hv
    obtain ⟨g1, g2, g3, g4⟩ := initGroups_replay ops s.ResearchGroupKeys_
      s.ResearchSensorProcessingGroups_
      (setBlocksAt (blocksOf s) Owner.Baseline
        (initVector ops Owner.Baseline 0 s.BaselineSensorProcessing_ s.deftree true).blocks)
      (initVector ops Owner.Baseline 0 s.BaselineSensorProcessing_ s.deftree true).deftree
      (initVector ops Owner.Baseline 0 s.BaselineSensorProcessing_ s.deftree true).initialized
      (fun G => by simp [setBlocksAt, blocksOf])
    have hview : ∀ t : SensorProcessing B,
        t.BaselineSensorProcessing_
          = (initVector ops Owner.Baseline 0 s.BaselineSensorProcessing_ s.deftree
              true).blocks →
        t.ResearchSensorProcessingGroups_
          = (initGroups ops s.ResearchGroupKeys_ s.ResearchSensorProcessingGroups_
              (initVector ops Owner.Baseline 0 s.BaselineSensorProcessing_ s.deftree
                true).deftree
              (initVector ops Owner.Baseline 0 s.BaselineSensorProcessing_ s.deftree
                true).initialized).groups →
        t.deftree
          = (initGroups ops s.ResearchGroupKeys_ s.ResearchSensorProcessingGroups_
              (initVector ops Owner.Baseline 0 s.BaselineSensorProcessing_ s.deftree
                true).deftree
              (initVector ops Owner.Baseline 0 s.BaselineSensorProcessing_ s.deftree
                true).initialized).deftree →
        blocksView t
          = ((initVector ops Owner.Baseline 0 s.BaselineSensorProcessing_ s.deftree
                true).trace ++
              (initGroups ops s.ResearchGroupKeys_ s.ResearchSensorProcessingGroups_
                (initVector ops Owner.Baseline 0 s.BaselineSensorProcessing_ s.deftree
                  true).deftree
                (initVector ops Owner.Baseline 0 s.BaselineSensorProcessing_ s.deftree
                  true).initialized).trace).foldl (callInitialize ops) (blocksView s) := by
      intro t t1 t2 t3
      simp only [blocksView, List.foldl_append, hv]
      refine Prod.ext ?_ (t3.trans g1.symm)
      funext o
      cases o with
      | Baseline => rw [g2]; simp [setBlocksAt, blocksOf, t1]
      | Research G => rw [g3]; simp [blocksOf, t2]
    have hready : readyAfterInitialize ops (blocksView s)
        ((initVector ops Owner.Baseline 0 s.BaselineSensorProcessing_ s.deftree
            true).trace ++
          (initGroups ops s.ResearchGroupKeys_ s.ResearchSensorProcessingGroups_
            (initVector ops Owner.Baseline 0 s.BaselineSensorProcessing_ s.deftree
              true).deftree
            (initVector ops Owner.Baseline 0 s.BaselineSensorProcessing_ s.deftree
              true).initialized).trace) := by
      apply readyAfterInitialize_append ops _ _ _ hr
      show readyAfterInitialize ops (List.foldl (callInitialize ops) (blocksOf s, s.deftree) _) _
      rw [hv]
      exact g4
    simp only [Initialized, hl, Bool.false_eq_true, if_false]
    split
    · exact ⟨hview _ rfl rfl rfl, hready, ⟨rfl, rfl, rfl, rfl, rfl, rfl, rfl, rfl, rfl⟩⟩
    · exact ⟨hview _ rfl rfl rfl, hready, ⟨rfl, rfl, rfl, rfl, rfl, rfl, rfl, rfl, rfl⟩⟩

/-- Some block is run in Engage mode exactly when the container selected by the
engaged-group name is the Baseline vector or the vector of a listed group, and holds a
block. -/
theorem Run_engages_iff {B : Type} (ops : GenericFunction B) (s : SensorProcessing B) :
    (∃ c ∈ (Run ops s).trace, c.mode = Mode.kEngage) ↔
      ((s.EngagedGroup_ = "Baseline" ∨ s.EngagedGroup_ ∈ s.ResearchGroupKeys_) ∧
        blocksOf s (engagedOwner s.EngagedGroup_) ≠ []) := by
  rw [Run_trace]
  constructor
  · rintro ⟨c, hc, hm⟩
    simp only [List.mem_append, List.mem_flatMap, vectorCalls, List.mem_map,
      List.mem_range'_1] at hc
    rcases hc with ⟨j, hj, rfl⟩ | ⟨G, hG, j, hj, rfl⟩
    · simp only [expectedMode] at hm
      have he : s.EngagedGroup_ = "Baseline" := by
        by_contra h
        simp [h] at hm
      refine ⟨Or.inl he, ?_⟩
      simp only [engagedOwner, he, if_true, blocksOf]
      intro h0
      rw [h0] at hj
      simp at hj
    · simp only [expectedMode] at hm
      have he : s.EngagedGroup_ ≠ "Baseline" ∧ G = s.EngagedGroup_ := by
        by_contra h
        simp [h] at hm
      refine ⟨Or.inr (he.2 ▸ hG), ?_⟩
      have hown : blocksOf s (engagedOwner s.EngagedGroup_)
          = mapAt s.ResearchSensorProcessingGroups_ G := by
        rw [he.2]
        simp only [engagedOwner, he.1, if_false, blocksOf]
      rw [hown]
      intro h0
      rw [h0] at hj
      simp at hj
  · rintro ⟨hdecl, hne⟩
    by_cases he : s.EngagedGroup_ = "Baseline"
    · simp only [engagedOwner, he, if_true, blocksOf] at hne
      refine ⟨⟨Owner.Baseline, 0, Mode.kEngage⟩, ?_, rfl⟩
      simp only [List.mem_append, vectorCalls, List.mem_map, List.mem_range'_1]
      refine Or.inl ⟨0, ⟨le_refl _, ?_⟩, ?_⟩
      · simpa using List.length_pos.mpr hne
      · simp [expectedMode, he]
    · simp only [engagedOwner, he, if_false, blocksOf] at hne
      have hk : s.EngagedGroup_ ∈ s.ResearchGroupKeys_ := by
        rcases hdecl with h | h
        · exact absurd h he
        · exact h
      refine ⟨⟨Owner.Research s.EngagedGroup_, 0, Mode.kEngage⟩, ?_, rfl⟩
      simp only [List.mem_append, List.mem_flatMap, vectorCalls, List.mem_map,
        List.mem_range'_1]
      refine Or.inr ⟨s.EngagedGroup_, hk, 0, ⟨le_refl _, ?_⟩, ?_⟩
      · simpa using List.length_pos.mpr hne
      · simp [expectedMode, he]

/-- C1: for every engine state, one call of `Run` calls `Run(mode)` once on every Baseline
block and then on every block of every listed research group, in order, and each call has
the mode of the arbitration rule: a Baseline block is run in Engage mode if the
engaged-group name is "Baseline" and in Arm mode otherwise; a block of the research group
`G` is run in Engage mode if the name is not "Baseline" and `G` equals it, in Arm mode
otherwise.  The blocks and the tree after `Run` are those left by these calls, made one
after the other on the blocks they name, with the mode they carry; `Run` changes no other
member. -/
theorem C1_Run_gives_each_block_its_mode {B : Type} (ops : GenericFunction B)
    (s : SensorProcessing B) :
    (Run ops s).trace =
        vectorCalls Owner.Baseline (expectedMode s.EngagedGroup_ Owner.Baseline) 0
            s.BaselineSensorProcessing_.length ++
          s.ResearchGroupKeys_.flatMap (fun G =>
            vectorCalls (Owner.Research G)
              (expectedMode s.EngagedGroup_ (Owner.Research G)) 0
              (mapAt s.ResearchSensorProcessingGroups_ G).length)
      ∧ (∀ c ∈ (Run ops s).trace, c.mode = expectedMode s.EngagedGroup_ c.owner)
      ∧ blocksView (Run ops s).state
          = (Run ops s).trace.foldl (callRun ops) (blocksView s)
      ∧ sameSetup s (Run ops s).state
      ∧ (Run ops s).state.InitializedLatch_ = s.InitializedLatch_ :=
  ⟨Run_trace ops s, Run_trace_mode ops s, Run_replay ops s⟩

/-- C2, amended: in every `Run` cycle, for every engine state, a block is run in Engage mode
exactly when its container is the one the engaged-group name selects (the Baseline vector
for "Baseline", otherwise the vector of the research group of that name), and in Arm mode
otherwise, so blocks of two groups are never engaged in one cycle; when the name is neither
"Baseline" nor a listed group name every block is run in Arm mode; some block is run in
Engage mode exactly when the name is "Baseline" or a listed group name and the container
selected holds a block, and every block is run in Arm mode when that container holds no
block.  Every block of Baseline and of every listed group is called, and
the blocks and the tree after `Run` are those left by the calls, made one after the other
with the mode they carry; `Run` changes no other member. -/
theorem C2_engaged_group_is_the_named_one {B : Type} (ops : GenericFunction B)
    (s : SensorProcessing B) :
    (∀ c ∈ (Run ops s).trace,
        (c.mode = Mode.kEngage ↔ c.owner = engagedOwner s.EngagedGroup_))
      ∧ (∀ c ∈ (Run ops s).trace,
        (c.mode = Mode.kArm ↔ c.owner ≠ engagedOwner s.EngagedGroup_))
      ∧ (s.EngagedGroup_ ≠ "Baseline" ∧ s.EngagedGroup_ ∉ s.ResearchGroupKeys_ →
          ∀ c ∈ (Run ops s).trace, c.mode = Mode.kArm)
      ∧ ((∃ c ∈ (Run ops s).trace, c.mode = Mode.kEngage) ↔
          ((s.EngagedGroup_ = "Baseline" ∨ s.EngagedGroup_ ∈ s.ResearchGroupKeys_) ∧
            blocksOf s (engagedOwner s.EngagedGroup_) ≠ []))
      ∧ (Run ops s).trace.map (fun c => (c.owner, c.index)) =
          vectorSlots Owner.Baseline s.BaselineSensorProcessing_.length ++
            s.ResearchGroupKeys_.flatMap (fun G =>
              vectorSlots (Owner.Research G)
                (mapAt s.ResearchSensorProcessingGroups_ G).length)
      ∧ blocksView (Run ops s).state
          = (Run ops s).trace.foldl (callRun ops) (blocksView s)
      ∧ sameSetup s (Run ops s).state
      ∧ (blocksOf s (engagedOwner s.EngagedGroup_) = [] →
          ∀ c ∈ (Run ops s).trace, c.mode = Mode.kArm) := by
  have hE : ∀ c ∈ (Run ops s).trace,
      (c.mode = Mode.kEngage ↔ c.owner = engagedOwner s.EngagedGroup_) := by
    intro c hc
    rw [Run_trace_mode ops s c hc]
    exact expectedMode_engage _ _
  have hA : ∀ c ∈ (Run ops s).trace,
      (c.mode = Mode.kArm ↔ c.owner ≠ engagedOwner s.EngagedGroup_) := by
    intro c hc
    have h := hE c hc
    constructor
    · intro hm ho
      rw [h.mpr ho] at hm
      exact Mode.noConfusion hm
    · intro ho
      cases hm : c.mode with
      | kArm => rfl
      | kEngage => exact absurd (h.mp hm) ho
  refine ⟨hE, hA, ?_, Run_engages_iff ops s, Run_slots ops s, (Run_replay ops s).1,
    (Run_replay ops s).2.1, ?_⟩
  rotate_left
  · intro h0 c hc
    cases hm : c.mode with
    | kArm => rfl
    | kEngage => exact absurd h0 ((Run_engages_iff ops s).mp ⟨c, hc, hm⟩).2
  rintro ⟨h1, h2⟩ c hc
  rw [hA c hc]
  rcases Run_trace_owner ops s c hc with h | ⟨G, hG, h⟩
  · simp [h, engagedOwner, h1]
  · simp only [h, engagedOwner, h1, if_false, ne_eq, Owner.Research.injEq]
    intro hGe
    exact h2 (hGe ▸ hG)

/-- C6: with the latch unset, one call of `Initialized()` calls `Initialize` on every
Baseline block and then on every block of every research group, in order, whatever the
blocks report; it returns true exactly when every block reported ready after its
`Initialize` call; the latch after the call equals the value returned.  The blocks and the
tree after the call are those left by these `Initialize` calls, made one after the other on
the blocks they name; the value logged for a call is what `Initialized()` of the block
returned right after it; the call changes no other member. -/
theorem C6_poll_initializes_every_block {B : Type} (ops : GenericFunction B)
    (s : SensorProcessing B) (h : s.InitializedLatch_ = false) :
    (Initialized ops s).trace.map (fun c => (c.owner, c.index)) =
        vectorSlots Owner.Baseline s.BaselineSensorProcessing_.length ++
          s.ResearchGroupKeys_.flatMap (fun G =>
            vectorSlots (Owner.Research G)
              (mapAt s.ResearchSensorProcessingGroups_ G).length)
      ∧ ((Initialized ops s).ret = true ↔ ∀ c ∈ (Initialized ops s).trace, c.ready = true)
      ∧ (Initialized ops s).state.InitializedLatch_ = (Initialized ops s).ret
      ∧ blocksView (Initialized ops s).state
          = (Initialized ops s).trace.foldl (callInitialize ops) (blocksView s)
      ∧ readyAfterInitialize ops (blocksView s) (Initialized ops s).trace
      ∧ sameSetup s (Initialized ops s).state := by
  refine ⟨Initialized_slots ops s h, ?_, (Initialized_unset ops s h).2.2,
    Initialized_replay ops s⟩
  rw [Initialized_ret_iff ops s h, List.all_eq_true]

/-- C6, witness: on the engine built from `cfgGainConstant` the first poll calls `Initialize`
on the three blocks, the first of which is not ready; it returns false, leaves the latch
unset, and every block has been initialised once. -/
theorem C6_poll_initializes_every_block_witness :
    (Initialized demoBlocks engineGainConstant).trace
        = [⟨Owner.Baseline, 0, false⟩, ⟨Owner.Baseline, 1, true⟩, ⟨Owner.Research "G", 0, true⟩]
      ∧ (Initialized demoBlocks engineGainConstant).ret = false
      ∧ (Initialized demoBlocks engineGainConstant).state.InitializedLatch_
          = (Initialized demoBlocks engineGainConstant).ret
      ∧ (Initialized demoBlocks engineGainConstant).state.BaselineSensorProcessing_
          = [⟨BlockKind.GainClass, (BlockKind.GainClass, 1)⟩,
              ⟨BlockKind.ConstantClass, (BlockKind.ConstantClass, 1)⟩]
      ∧ mapAt (Initialized demoBlocks engineGainConstant).state.ResearchSensorProcessingGroups_
          "G" = [⟨BlockKind.SumClass, (BlockKind.SumClass, 1)⟩] :=
  ⟨by decide, by decide,
    (C6_poll_initializes_every_block demoBlocks engineGainConstant (by decide)).2.2.1,
    by decide, by decide⟩

/-- C2, counterexample: after a successful `Configure` of `cfgTwoGroups` and
`SetEngagedSensorProcessing("Research-1")`, the name of no group, `Run` runs the Baseline
block and the block of "G" in Arm mode, so every group is armed; and with the declared
group "G" of `cfgEmptyGroup`, which has no component, engaged, the only call of `Run` is
`Run(kArm)` on the Baseline block. -/
theorem C2_every_block_is_armed :
    (Configure demoBlocks cfgTwoGroups
        (SensorProcessing.fresh (BlockKind × Nat) DefinitionTree2.empty)).error = none
      ∧ (Run demoBlocks (SetEngagedSensorProcessing "Research-1"
          (Configure demoBlocks cfgTwoGroups
            (SensorProcessing.fresh (BlockKind × Nat) DefinitionTree2.empty)).state)).trace
        = [⟨Owner.Baseline, 0, Mode.kArm⟩, ⟨Owner.Research "G", 0, Mode.kArm⟩]
      ∧ (Configure demoBlocks cfgEmptyGroup
        (SensorProcessing.fresh (BlockKind × Nat) DefinitionTree2.empty)).error = none
      ∧ (Configure demoBlocks cfgEmptyGroup
        (SensorProcessing.fresh (BlockKind × Nat) DefinitionTree2.empty)).state.ResearchGroupKeys_
        = ["G"]
      ∧ (Run demoBlocks (SetEngagedSensorProcessing "G"
          (Configure demoBlocks cfgEmptyGroup
            (SensorProcessing.fresh (BlockKind × Nat) DefinitionTree2.empty)).state)).trace
        = [⟨Owner.Baseline, 0, Mode.kArm⟩] := by
  decide

end RAPTRS
